import Mathlib

/-!
# The M-Pin relying-party front end: session store, dispatcher and protocol handlers

A shallow embedding of `app.go`, `session.go`, `cookie.go`, `handlers.go`, `mpin.go`
and `helpers.go`, followed by theorems about it.

Conventions of the embedding

* A Go `error` is an `Option String`: `none` is `nil`, `some msg` is an error whose
  text is `msg`.
* An instant (`time.Time`) is an integer number of nanoseconds counted from Go's zero
  time (January 1, year 1, 00:00:00 UTC), so `IsZero` is equality with `0`.  Every
  `time.Now()` of one call reads the same instant `now`, which is an argument.
  Instants and durations have type `Int`.
* A Go map is a function from keys to optional values.  The order in which `range` visits
  the keys of a map decoded from JSON is chosen by the runtime: it is the field `mapOrder`
  of the state, and theorems that hold for every order assume only that it permutes the
  keys.
* Go's `int` is an `Int`; the one counter that is incremented is wrapped to 64 bits.
* A request body is given as the JSON document it holds (`none` when `json.Unmarshal`
  rejects it); the decoding of a document into a Go map and into the request structs
  follows `encoding/json`.
* `Fetch` is the network collaborator: a call is recorded in the state and answered by a
  function.  The other collaborators of `app` are functions on the state.
* Parsing JSON text, `time.Parse`, `Time.Format` and `http.StatusText` belong to Go's
  library and are parameters (`GoLib`).
* A call either returns or panics (`Outcome`).
* `log.Printf` output is diagnostic only and is not part of the model.
-/

namespace RPA

/-! ## Time -/

/-- The constant `time.Hour`, a `time.Duration` in nanoseconds. -/
def Hour : Int := 3600 * 1000000000

/-- The method `t.IsZero()`. -/
def Time.IsZero (t : Int) : Bool := decide (t = 0)

/-- The method `t.Before(u)`. -/
def Time.Before (t u : Int) : Bool := decide (t < u)

/-- The method `t.Add(d)`. -/
def Time.Add (t : Int) (d : Int) : Int := t + d

/-- Two's-complement wrap-around of a 64-bit Go `int`. -/
def wrapInt (x : Int) : Int :=
  (x + 9223372036854775808) % 18446744073709551616 - 9223372036854775808

/-! ## Session store (`app.go`) -/

/-- The struct `session`. -/
structure session where
  Expires : Int
  User : String
deriving DecidableEq, Repr

/-- The zero value `session{}`. -/
def session.zero : session := { Expires := 0, User := "" }

/-- The type `storage`, a `map[string]session`. -/
abbrev storage := String → Option session

/-- The map assignment `s[sessionID] = item`. -/
def storage.assign (s : storage) (sessionID : String) (item : session) : storage :=
  fun k => if k = sessionID then some item else s k

/-- The builtin `delete(s, sessionID)`. -/
def storage.remove (s : storage) (sessionID : String) : storage :=
  fun k => if k = sessionID then none else s k

/-- The loop `for k, v := range s { if v.Expires.Before(time.Now()) { delete(s, k) } }`. -/
def storage.sweep (s : storage) (now : Int) : storage :=
  fun k =>
    match s k with
    | some v => if Time.Before v.Expires now then none else some v
    | none => none

/-- The method `storage.Put`, run at instant `now` with the package variable `gcCount`.
Returns the error (always `nil`), the store and the counter after the call. -/
def storage.Put (s : storage) (gcCount : Int) (now : Int) (sessionID : String)
    (item : session) : Option String × storage × Int :=
  let item :=
    if Time.IsZero item.Expires then { item with Expires := Time.Add now (4 * Hour) } else item
  let s := s.assign sessionID item
  let gcCount := wrapInt (gcCount + 1)
  if gcCount ≥ 1000 then
    (none, s.sweep now, 0)
  else
    (none, s, gcCount)

/-- The method `storage.Get`, run at instant `now`.  Returns `(item, err)` and the store
after the call. -/
def storage.Get (s : storage) (now : Int) (sessionID : String) :
    (session × Option String) × storage :=
  match s sessionID with
  | none => ((session.zero, some "SessionID not found"), s)
  | some item =>
    if Time.Before item.Expires now then
      ((session.zero, some "SessionID expired"), s.remove sessionID)
    else
      ((item, none), s)

/-- The method `storage.Delete`. -/
def storage.Delete (s : storage) (sessionID : String) : storage :=
  s.remove sessionID

/-- One call `Put(sessionID, item)` together with the instant at which it runs. -/
structure PutCall where
  now : Int
  sessionID : String
  item : session

/-- A sequence of `Put` calls executed one after the other. -/
def runPuts (s : storage) (gcCount : Int) : List PutCall → storage × Int
  | [] => (s, gcCount)
  | c :: cs =>
    let r := storage.Put s gcCount c.now c.sessionID c.item
    runPuts r.2.1 r.2.2 cs

/-- A run of 999 calls that all put the same session, at the Unix epoch. -/
def sampleCalls : List PutCall :=
  List.replicate 999 { now := 62135596800 * 1000000000, sessionID := "a", item := ⟨0, "u"⟩ }

/-- A call that puts a session without expiry five hours after the Unix epoch. -/
def sampleLast : PutCall :=
  { now := 62135596800 * 1000000000 + 5 * Hour, sessionID := "b", item := ⟨0, "v"⟩ }

/-! ## Strings and bytes -/

/-- A byte. -/
abbrev Byte := Fin 256

/-- Number of bytes of one character in UTF-8. -/
def utf8Len (c : Char) : Nat :=
  if c.toNat < 128 then 1 else if c.toNat < 2048 then 2 else if c.toNat < 65536 then 3 else 4

/-- The builtin `len(s)` of a Go string: its length in bytes. -/
def len (s : String) : Nat := (s.data.map utf8Len).sum

/-- Membership in the character class `[0-9a-fA-F]`. -/
def isHexDigit (c : Char) : Bool :=
  (48 ≤ c.toNat && c.toNat ≤ 57) || (97 ≤ c.toNat && c.toNat ≤ 102) ||
    (65 ≤ c.toNat && c.toNat ≤ 70)

/-- The test `regexp.MustCompile("[^0-9a-fA-F]").Match([]byte(s))`: some character of `s`
lies outside the class. -/
def matchNonHex (s : String) : Bool := s.data.any fun c => !isHexDigit c

/-- Value of one hexadecimal digit, as in `encoding/hex`. -/
def fromHexChar (c : Char) : Option Nat :=
  if 48 ≤ c.toNat ∧ c.toNat ≤ 57 then some (c.toNat - 48)
  else if 97 ≤ c.toNat ∧ c.toNat ≤ 102 then some (c.toNat - 87)
  else if 65 ≤ c.toNat ∧ c.toNat ≤ 70 then some (c.toNat - 55)
  else none

/-- Decoding of a list of hexadecimal digits, two per byte. -/
def hexDecodeChars : List Char → Option (List Byte)
  | [] => some []
  | [_] => none
  | a :: b :: rest =>
    match fromHexChar a, fromHexChar b, hexDecodeChars rest with
    | some x, some y, some bs => some (Fin.ofNat (16 * x + y) :: bs)
    | _, _, _ => none

/-- The function `hex.DecodeString`: `none` when it reports an error. -/
def hexDecodeString (s : String) : Option (List Byte) := hexDecodeChars s.data

/-- One upper-case hexadecimal digit. -/
def hexDigitUpper (n : Nat) : Char :=
  if n < 10 then Char.ofNat (48 + n) else Char.ofNat (55 + n)

/-- The verb `%X` applied to a byte slice. -/
def hexUpper : List Byte → List Char
  | [] => []
  | b :: bs => hexDigitUpper (b.val / 16) :: hexDigitUpper (b.val % 16) :: hexUpper bs

/-- The comparison `a < b` of two Go strings: lexicographic on bytes, which on UTF-8 text
is lexicographic on characters. -/
def stringLess (a b : String) : Bool := decide (a.data < b.data)

/-- The function `strings.Join`. -/
def join : List String → String → String
  | [], _ => ""
  | [a], _ => a
  | a :: b :: rest, sep => a ++ sep ++ join (b :: rest) sep

/-! ## JSON documents and `encoding/json` -/

/-- A JSON document.  The members of an object are kept in the order of the text, repeated
names included; a number keeps its literal. -/
inductive JSON where
  | null
  | bool (b : Bool)
  | num (literal : String)
  | str (s : String)
  | arr (items : List JSON)
  | obj (members : List (String × JSON))

/-- Index expression `m[key]` with its `ok` flag, on the Go map decoded from an object: of
repeated names the last one wins. -/
def JSON.lookup : List (String × JSON) → String → Option JSON
  | [], _ => none
  | (k, v) :: ms, key =>
    match JSON.lookup ms key with
    | some x => some x
    | none => if k = key then some v else none

/-- The keys of the Go map decoded from an object. -/
def JSON.keys (members : List (String × JSON)) : List String :=
  (members.map Prod.fst).dedup

/-- Case folding of one character of a member name, as `encoding/json` matches struct
fields: ASCII letters fold to lower case, and so do the long s (U+017F) and the Kelvin
sign (U+212A). -/
def foldRune (c : Char) : Char :=
  if c.toNat = 0x17F then 's'
  else if c.toNat = 0x212A then 'k'
  else if 65 ≤ c.toNat ∧ c.toNat ≤ 90 then Char.ofNat (c.toNat + 32)
  else c

/-- Whether the member name `key` selects the struct field tagged `field`. -/
def fieldMatch (key field : String) : Bool :=
  decide (key.data.map foldRune = field.data.map foldRune)

/-- Storing a JSON value into a Go `string`: the new value and whether a type error is
recorded.  `null` leaves the value as it is. -/
def setString (old : String) : JSON → String × Bool
  | .str s => (s, false)
  | .null => (old, false)
  | _ => (old, true)

/-- Value of a list of decimal digits; `none` for an empty list or a non-digit. -/
def digitsValue : List Char → Option Nat
  | [] => none
  | cs =>
    if cs.all fun c => decide (48 ≤ c.toNat ∧ c.toNat ≤ 57) then
      some (cs.foldl (fun n c => 10 * n + (c.toNat - 48)) 0)
    else none

/-- The call `strconv.ParseInt(s, 10, 64)`; `none` when it reports an error. -/
def parseInt64 (s : String) : Option Int :=
  match s.data with
  | '-' :: ds =>
    match digitsValue ds with
    | some n => if n ≤ 9223372036854775808 then some (-(n : Int)) else none
    | none => none
  | '+' :: ds =>
    match digitsValue ds with
    | some n => if n < 9223372036854775808 then some (n : Int) else none
    | none => none
  | ds =>
    match digitsValue ds with
    | some n => if n < 9223372036854775808 then some (n : Int) else none
    | none => none

/-- Storing a JSON value into a Go `int`. -/
def setInt (old : Int) : JSON → Int × Bool
  | .num literal =>
    match parseInt64 literal with
    | some n => (n, false)
    | none => (old, true)
  | .null => (old, false)
  | _ => (old, true)

/-- Text standing for the error of a failed `json.Unmarshal`; the wording of library
errors is not modelled. -/
def jsonError : String := "json: cannot unmarshal"

/-- Text standing for the error of a failed `hex.DecodeString`. -/
def hexError : String := "encoding/hex: invalid input"

/-- Text standing for the error of a failed `time.Parse`. -/
def timeError : String := "parsing time: cannot parse"

/-- The parts of Go's standard library whose results the program only passes on: they are
parameters of the model.  Times are formatted in UTC. -/
structure GoLib where
  /-- Parsing of a byte string by `encoding/json`; `none` when it reports an error. -/
  jsonUnmarshal : List Byte → Option JSON
  /-- The call `time.Parse(layout, value)`; `none` when it reports an error. -/
  timeParse : String → String → Option Int
  /-- The call `t.Format(layout)`. -/
  timeFormat : Int → String → String
  /-- The function `http.StatusText`. -/
  StatusText : Int → String

/-- The layout `time.RFC822Z`. -/
def RFC822Z : String := "02 Jan 06 15:04 -0700"

/-- The layout `time.RFC3339`. -/
def RFC3339 : String := "2006-01-02T15:04:05Z07:00"

/-! ## HTTP requests and responses -/

/-- The struct `http.Cookie`, with the fields the program sets. -/
structure Cookie where
  Name : String
  Value : String
  MaxAge : Int
  Secure : Bool
  HttpOnly : Bool
  Expires : Int
deriving DecidableEq

/-- The struct `authOTPResponse`. -/
structure authOTPResponse where
  ExpireTime : Int
  TTLSeconds : Int
  NowTime : Int
deriving DecidableEq

/-- The struct `authRPAResponse`. -/
structure authRPAResponse where
  SomeUserData : String
  UserId : String
deriving DecidableEq

/-- The struct `verifyUserResponse`. -/
structure verifyUserResponse where
  ForceActivate : Bool
deriving DecidableEq

/-- One write to the response body: plain text, or a value sent through
`encodeJSONResponse`. -/
inductive Chunk where
  | text (s : String)
  | authOTP (v : authOTPResponse)
  | authRPA (v : authRPAResponse)
  | verifyUser (v : verifyUserResponse)
deriving DecidableEq

/-- What an `http.ResponseWriter` has received: the header map, the `Set-Cookie` lines in
the order they were added, the status code once the header is written, and the body.
`WriteErr` is the error that a write to the connection returns (`none` when it works). -/
structure ResponseWriter where
  Header : String → Option String
  Cookies : List Cookie
  Code : Option Int
  Body : List Chunk
  WriteErr : Option String

/-- The call `w.Header().Set(key, value)`. -/
def ResponseWriter.Set (w : ResponseWriter) (key value : String) : ResponseWriter :=
  { w with Header := fun k => if k = key then some value else w.Header k }

/-- The method `w.WriteHeader(code)`: only the first call counts. -/
def ResponseWriter.WriteHeader (w : ResponseWriter) (code : Int) : ResponseWriter :=
  match w.Code with
  | some _ => w
  | none => { w with Code := some code }

/-- The method `w.Write`: sends the header with status 200 when it is not yet written. -/
def ResponseWriter.Write (w : ResponseWriter) (chunk : Chunk) :
    Option String × ResponseWriter :=
  let w := w.WriteHeader 200
  match w.WriteErr with
  | some e => (some e, w)
  | none => (none, { w with Body := w.Body ++ [chunk] })

/-- The function `http.SetCookie`, for a cookie with a valid name. -/
def SetCookie (w : ResponseWriter) (cookie : Cookie) : ResponseWriter :=
  { w with Cookies := w.Cookies ++ [cookie] }

/-- The function `http.Error`. -/
def httpError (w : ResponseWriter) (error : String) (code : Int) : ResponseWriter :=
  let w := w.Set "Content-Type" "text/plain; charset=utf-8"
  let w := w.Set "X-Content-Type-Options" "nosniff"
  let w := w.WriteHeader code
  (w.Write (.text (error ++ "\n"))).2

/-- The function `http.NotFound`. -/
def httpNotFound (w : ResponseWriter) : ResponseWriter :=
  httpError w "404 page not found" 404

/-- An `http.Request` as the handlers read it.  `Cookies` are the name and value of the
cookies of the request, in order.  `ParseFormErr` is the result of `r.ParseForm()` and
`Form` the values it stores under a key (no value: the key is absent).  `Body` is the body
decoded by `json.Unmarshal(buf, &f)`, `none` when that call reports an error.  `Header` is
the map `r.Header`, indexed by the key as it is stored (no value: the key is absent).
`Stream` is the first JSON value that `json.NewDecoder(r.Body)` reads from the body, `none`
when it meets a syntax error or the end of the input before a value is complete. -/
structure Request where
  Method : String
  Path : String
  Cookies : List (String × String)
  ParseFormErr : Option String
  Form : String → List String
  Body : Option JSON
  Header : String → List String := fun _ => []
  Stream : Option JSON := none

/-- The method `r.Cookie(name)`. -/
def Request.Cookie (r : Request) (name : String) : Option (String × String) × Option String :=
  match r.Cookies.find? fun c => decide (c.1 = name) with
  | some c => (some c, none)
  | none => (none, some "http: named cookie not present")

/-- The function `getArgument`. -/
def getArgument (r : Request) (key dflt : String) : List String :=
  match r.Form key with
  | [] => [dflt]
  | value => value

/-! ## Application state -/

/-- The struct `options`, with the fields read by the modelled code.  A field with a
default value has the default of its command-line flag. -/
structure options where
  UseSecureCookie : Bool
  RequestOTP : Bool
  RPSSchema : String
  RPSHost : String
  StaticURLBase : String
  ForceActivate : Bool := false
  VerifyIdentityURL : String := "http://localhost:8005/mpinActivate"
  LDAPVerify : Bool := false
  LDAPVerifyShow : Bool := false
  LDAPServer : String := ""
  LDAPPort : Int := 389
  LDAPBindDN : String := ""
  LDAPBindPWD : String := ""
  LDAPBaseDN : String := ""
  LDAPFilter : String := "(uid=%s)"
  LDAPUseTLS : Bool := false
  EmailSubject : String := "M-Pin demo: New user activation"
  EmailSender : String := ""
  SMTPServer : String := ""
  SMTPSPort : Int := 25
  SMTPSUser : String := ""
  SMTPPassword : String := ""

/-- The struct `context` without its `App` pointer, which is passed separately. -/
structure context where
  SessionID : String
  LoggedUser : String
  UserID : String
deriving DecidableEq

/-- The struct `authRPSRequest`. -/
structure authRPSRequest where
  AuthOTT : String
  SessionToken : String
deriving DecidableEq

/-- The struct `sendLoginResultReq`. -/
structure sendLoginResultReq where
  AuthOTT : String
  Status : Int
  Message : String
  SessionToken : String
  UserID : String
deriving DecidableEq

/-- The struct `authRPSResponse`. -/
structure authRPSResponse where
  Status : Int
  UserID : String
  Message : String
deriving DecidableEq

/-- The request value `q` handed to `Fetch`. -/
inductive FetchBody where
  | authRPS (q : authRPSRequest)
  | loginResult (q : sendLoginResultReq)
  | activate (ActivateKey : String)
deriving DecidableEq

/-- One call of the `Fetch` collaborator. -/
structure FetchCall where
  url : String
  method : String
  q : FetchBody
deriving DecidableEq

/-- What a call of `Fetch` yields: its error and the response value `d` after the call. -/
structure FetchReply where
  err : Option String
  d : authRPSResponse

/-- One call of the `Mail` collaborator. -/
structure MailCall where
  userID : String
  deviceName : String
  validateURL : String
deriving DecidableEq

/-- The arguments of one call of `smtp.SendMail`.  `auth` holds the user, password and host
given to `smtp.PlainAuth`, or `none` for a nil `auth`. -/
structure SMTPMail where
  addr : String
  auth : Option (String × String × String)
  sender : String
  recipients : List String
  msg : String
deriving DecidableEq

/-- The search of the directory: the base DN, and the filter template with the user id that
is escaped and put into it. -/
structure LDAPSearchRequest where
  BaseDN : String
  Filter : String
  UserID : String
deriving DecidableEq

/-- One operation on the directory. -/
inductive LDAPOp where
  | dial (addr : String)
  | dialTLS (addr : String) (serverName : String)
  | bind (dn : String) (password : String)
  | search (req : LDAPSearchRequest)
  | close
deriving DecidableEq

/-- Everything a handler can read or change: the request context `c`, the response writer
`w`, the session store with the package counter `gcCount`, and the surroundings of the
call: the clock, the outcome of `rand.Read` (16 bytes, or `none` for an error), the order
in which `range` visits the keys of a map, and the calls made so far to `Fetch`, to
`Mail`, to `smtp.SendMail` and to the directory. -/
structure State where
  c : context
  w : ResponseWriter
  Store : storage
  gcCount : Int
  now : Int
  rand : Option (List Byte)
  mapOrder : List String → List String
  fetched : List FetchCall
  mailed : List MailCall
  smtpSent : List SMTPMail
  ldapOps : List LDAPOp

/-- How a Go function call ends: it returns, or it panics. -/
inductive Outcome (α : Type) where
  | returned (a : α)
  | panicked (msg : String)
deriving DecidableEq

/-- What a handler returns: `(status, err)`, unless it panics. -/
abbrev Ret := Outcome (Int × Option String)

/-- The type `appMiddleware`. -/
abbrev appMiddleware := State → Request → Ret × State

/-- A value in the data of a page template. -/
inductive PageValue where
  | str (s : String)
  | bool (b : Bool)
deriving DecidableEq

/-- The `data` map given to a template. -/
abbrev PageData := List (String × PageValue)

/-- The struct `tls.Config`, with the field the program sets. -/
structure TLSConfig where
  ServerName : String
deriving DecidableEq

/-- The struct `app`.  `Fetch` and `Mail` answer a call; the calls are recorded in the
state.  `Templates` maps a name to the template, which renders data to text or fails.
`tlsConfig` is `none` for a nil pointer. -/
structure app where
  Options : options
  Fetch : FetchCall → FetchReply
  Mail : MailCall → Option String
  Authenticate : State → String → (String × String × Int) × State
  LoginResult : State → String → String → Int → String → Option String × State
  ActivateUser : State → String → String → Option String × State
  Templates : String → Option (PageData → Except String String)
  tlsConfig : Option TLSConfig

/-- The network collaborators that are reached through package functions: the directory
client (`ldap.Dial`, `ldap.DialTLS`, `Bind`, `Search`) and `smtp.SendMail`.  Each yields the
error of the call (`none` for nil); a search yields the error or the number of entries. -/
structure Network where
  ldapDial : String → Option String
  ldapDialTLS : String → String → Option String
  ldapBind : String → String → Option String
  ldapSearch : LDAPSearchRequest → Except String Nat
  smtpSendMail : SMTPMail → Option String

/-- The struct `appHandler`. -/
structure appHandler where
  AppContext : app
  Hs : List appMiddleware

/-- The call `c.App.Store.Put(sessionID, item)` on the state. -/
def State.Put (st : State) (sessionID : String) (item : session) : State :=
  let r := storage.Put st.Store st.gcCount st.now sessionID item
  { st with Store := r.2.1, gcCount := r.2.2 }

/-- The call `c.App.Store.Get(sessionID)` on the state. -/
def State.Get (st : State) (sessionID : String) : (session × Option String) × State :=
  let r := storage.Get st.Store st.now sessionID
  (r.1, { st with Store := r.2 })

/-! ## Cookies (`cookie.go`) and sessions (`session.go`) -/

/-- The function `getSecureCookie`: the cookie (its name and value) or `nil`, and the
error. -/
def getSecureCookie (r : Request) (name : String) (secure : Bool) :
    Option (String × String) × Option String :=
  match r.Cookie name with
  | (cookie, some err) => (cookie, some err)
  | (none, none) => (none, some "Nil cookie without error")
  | (some cookie, none) => if !secure then (some cookie, none) else (some cookie, none)

/-- The function `setSecureCookie`. -/
def setSecureCookie (w : ResponseWriter) (cookie : Cookie) (secure : Bool) : ResponseWriter :=
  let cookie :=
    if !secure then { cookie with Secure := false, HttpOnly := false }
    else { cookie with Secure := true, HttpOnly := true }
  SetCookie w cookie

/-- The instant `time.Unix(0, 0)`, in nanoseconds since the zero time. -/
def unixEpoch : Int := 62135596800 * 1000000000

/-- The function `deleteCookie`. -/
def deleteCookie (w : ResponseWriter) (name : String) : ResponseWriter :=
  SetCookie w
    { Name := name, Value := "", MaxAge := 0, Secure := false, HttpOnly := false,
      Expires := unixEpoch + 1000000000 }

/-- The function `generateSessionID`, given the outcome of `rand.Read(b)`. -/
def generateSessionID (rand : Option (List Byte)) : String :=
  match rand with
  | none => ""
  | some b =>
    String.mk (hexUpper (b.take 4) ++ '-' :: hexUpper ((b.drop 4).take 2) ++
      '-' :: hexUpper ((b.drop 6).take 2) ++ '-' :: hexUpper ((b.drop 8).take 2) ++
      '-' :: hexUpper (b.drop 10))

/-- The cookie `&http.Cookie{Name: "mpindemo_session", Value: value, MaxAge: 60 * 60 * 4}`. -/
def sessionCookie (value : String) : Cookie :=
  { Name := "mpindemo_session", Value := value, MaxAge := 60 * 60 * 4, Secure := false,
    HttpOnly := false, Expires := 0 }

/-- The function `createNewSession`. -/
def createNewSession (a : app) (st : State) : State :=
  let st := { st with c := { st.c with SessionID := generateSessionID st.rand } }
  let st := { st with c := { st.c with LoggedUser := "" } }
  let st := st.Put st.c.SessionID { Expires := 0, User := "" }
  { st with w := setSecureCookie st.w (sessionCookie st.c.SessionID) a.Options.UseSecureCookie }

/-! ## Helpers (`helpers.go`) -/

/-- The loop of `checkAllowedMethods`: whether `method` equals one of `methods`. -/
def methodListed (method : String) : List String → Bool
  | [] => false
  | m :: ms => if method = m then true else methodListed method ms

/-- The function `checkAllowedMethods`. -/
def checkAllowedMethods (r : Request) (w : ResponseWriter) (methods : List String) :
    (Int × Option String) × ResponseWriter :=
  let w := w.Set "Access-Control-Allow-Methods" (join methods ",")
  if methodListed r.Method methods then ((200, none), w)
  else ((405, some "Method not allowed"), w)

/-- The function `renderTemplate`. -/
def renderTemplate (a : app) (w : ResponseWriter) (name : String) (data : PageData) :
    (Int × Option String) × ResponseWriter :=
  match a.Templates name with
  | none => ((500, some ("The template " ++ name ++ " does not exist.")), w)
  | some tmpl =>
    match tmpl data with
    | .error err => ((500, some err), w)
    | .ok buff =>
      let w := w.Set "Content-Type" "text/html; charset=utf-8"
      ((200, none), (w.Write (.text buff)).2)

/-- The function `decodeJSONRequest`, for the struct decoded by `unmarshal`, which yields
the struct and whether `json.Unmarshal` reports an error. -/
def decodeJSONRequest {α : Type} (unmarshal : JSON → α → α × Bool) (r : JSON) (v : α) :
    α × Option String :=
  match unmarshal r v with
  | (v, true) => (v, some "BAD REQUEST. INVALID JSON")
  | (v, false) => (v, none)

/-- The function `encodeJSONResponse`. -/
def encodeJSONResponse (w : ResponseWriter) (v : Chunk) : Option String × ResponseWriter :=
  w.Write v

/-! ## Session and base stages (`handlers.go`) -/

/-- The function `baseHandler`. -/
def baseHandler (st : State) (_r : Request) : Ret × State :=
  let w := st.w.Set "Access-Control-Allow-Origin" "*"
  let w := w.Set "Access-Control-Allow-Credentials" "true"
  let w := w.Set "Access-Control-Allow-Methods" "GET,POST,HEAD,OPTIONS"
  let w := w.Set "Access-Control-Allow-Headers" "Content-Type, Depth, User-Agent, X-File-Size, X-Requested-With, X-Requested-By, If-Modified-Since, X-File-Name, Cache-Control, Pragma, Expires, WWW-Authenticate"
  let w := w.Set "Cache-Control" "no-cache, no-storage, max-age=0, must-revalidate"
  let w := w.Set "Pragma" "no-cache"
  let w := w.Set "Expires" "Sat, 26 Jul 1997 05:00:00 GMT"
  (.returned (200, none), { st with w := w })

/-- The function `sessionHandler`. -/
def sessionHandler (a : app) (st : State) (r : Request) : Ret × State :=
  match getSecureCookie r "mpindemo_session" a.Options.UseSecureCookie with
  | (_, some _) => (.returned (200, none), createNewSession a st)
  | (none, none) => (.panicked "invalid memory address or nil pointer dereference", st)
  | (some cookie, none) =>
    match st.Get cookie.2 with
    | ((_, some _), st) => (.returned (200, none), createNewSession a st)
    | ((item, none), st) =>
      let st := { st with c := { st.c with SessionID := cookie.2 } }
      let st :=
        { st with w := setSecureCookie st.w (sessionCookie st.c.SessionID)
                         a.Options.UseSecureCookie }
      let st := { st with c := { st.c with LoggedUser := item.User } }
      let st := st.Put st.c.SessionID item
      (.returned (200, none), st)

/-! ## Login result (`mpin.go`) -/

/-- The function `sendLoginResult`; of `c.App` it reads `Options` and `Fetch`. -/
def sendLoginResult (o : options) (Fetch : FetchCall → FetchReply) (st : State)
    (userID authOTT : String) (status : Int) (message : String) : Option String × State :=
  if status ≠ 200 then (none, st)
  else
    let url := o.RPSSchema ++ "://" ++ o.RPSHost ++ "/loginResult"
    let req : sendLoginResultReq :=
      { AuthOTT := authOTT, Status := status, Message := message,
        SessionToken := st.c.SessionID, UserID := userID }
    let _reply := Fetch { url := url, method := "POST", q := .loginResult req }
    let st := { st with fetched := st.fetched ++ [{ url := url, method := "POST", q := .loginResult req }] }
    if status = 200 then
      if len st.c.SessionID > 0 then
        (none, st.Put st.c.SessionID { Expires := 0, User := userID })
      else (none, st)
    else (none, st)

/-! ## Activation links (`mpin.go`, `handlers.go`) -/

/-- The struct `signature`. -/
structure signature where
  IsValid : Bool
  Identity : String
  ErrorMessage : String
  UserID : String
  Issued : String
  HumanIssued : String
  Activated : Bool
  DeviceName : String
  ActivateKey : String
deriving DecidableEq

/-- The zero value of `signature`. -/
def signature.zero : signature :=
  { IsValid := false, Identity := "", ErrorMessage := "", UserID := "", Issued := "",
    HumanIssued := "", Activated := false, DeviceName := "", ActivateKey := "" }

/-- The anonymous struct `data` of `verifySignature`. -/
structure signatureData where
  UserID : String
  Issued : String
  Mobile : Int
deriving DecidableEq

/-- Decoding of the members of an object into `data`: each member whose name selects a
field is stored in it, in the order of the text; the flag tells whether a type error was
recorded. -/
def unmarshalSignatureMembers (v : signatureData) : List (String × JSON) → signatureData × Bool
  | [] => (v, false)
  | (k, x) :: ms =>
    if fieldMatch k "userID" then
      let f := setString v.UserID x
      let rest := unmarshalSignatureMembers { v with UserID := f.1 } ms
      (rest.1, f.2 || rest.2)
    else if fieldMatch k "issued" then
      let f := setString v.Issued x
      let rest := unmarshalSignatureMembers { v with Issued := f.1 } ms
      (rest.1, f.2 || rest.2)
    else if fieldMatch k "mobile" then
      let f := setInt v.Mobile x
      let rest := unmarshalSignatureMembers { v with Mobile := f.1 } ms
      (rest.1, f.2 || rest.2)
    else unmarshalSignatureMembers v ms

/-- The call `json.Unmarshal(b, &data)` of `verifySignature`, on the parsed document. -/
def unmarshalSignatureData (doc : JSON) (v : signatureData) : signatureData × Bool :=
  match doc with
  | .obj ms => unmarshalSignatureMembers v ms
  | .null => (v, false)
  | _ => (v, true)

/-- The function `verifySignature`.  Returns `(s, err)` and the state, whose context has
`UserID` set once the payload is decoded. -/
def verifySignature (lib : GoLib) (st : State) (r : Request) :
    (signature × Option String) × State :=
  let s := signature.zero
  match r.ParseFormErr with
  | some err => ((s, some err), st)
  | none =>
    let s := { s with Identity := (getArgument r "i" "").headD "" }
    let expires := (getArgument r "e" "").headD ""
    let s := { s with ActivateKey := (getArgument r "s" "").headD "" }
    match hexDecodeString s.Identity with
    | none => ((s, some hexError), st)
    | some b =>
      match lib.jsonUnmarshal b with
      | none => ((s, some jsonError), st)
      | some doc =>
        match unmarshalSignatureData doc { UserID := "", Issued := "", Mobile := 0 } with
        | (_, true) => ((s, some jsonError), st)
        | (data, false) =>
          let st := { st with c := { st.c with UserID := data.UserID } }
          match lib.timeParse "2006-01-02 15:04:05" data.Issued with
          | none => ((s, some timeError), st)
          | some t =>
            let s :=
              if len data.UserID > 0 then
                let s := { s with UserID := data.UserID, Issued := data.Issued }
                let s := { s with HumanIssued := lib.timeFormat t RFC822Z }
                let s :=
                  if stringLess expires (lib.timeFormat st.now RFC3339) then
                    { s with IsValid := false, ErrorMessage := "Link expired" }
                  else
                    { s with IsValid := true, ErrorMessage := "" }
                if data.Mobile ≠ 0 then { s with DeviceName := "Mobile" }
                else { s with DeviceName := "PC" }
              else
                { s with IsValid := false, ErrorMessage := "Invalid identity",
                         DeviceName := "", Issued := "" }
            let err := if !s.IsValid then some s.ErrorMessage else none
            ((s, err), st)

/-- The `data` map built by `activateHandler`. -/
def activatePageData (a : app) (st : State) (params : signature) : PageData :=
  [("StaticURLBase", .str a.Options.StaticURLBase),
   ("IsValid", .bool params.IsValid),
   ("Activated", .bool params.Activated),
   ("UserID", .str params.UserID),
   ("HumanIssued", .str params.HumanIssued),
   ("DeviceName", .str params.DeviceName),
   ("ErrorMessage", .str params.ErrorMessage),
   ("User", .str st.c.LoggedUser)]

/-- The function `activateHandler`. -/
def activateHandler (lib : GoLib) (a : app) (st : State) (r : Request) : Ret × State :=
  match checkAllowedMethods r st.w ["GET", "POST"] with
  | ((s, some err), w) => (.returned (s, some err), { st with w := w })
  | ((_, none), w) =>
    let st := { st with w := w }
    match verifySignature lib st r with
    | ((_, some err), st) => (.returned (500, some err), st)
    | ((params, none), st) =>
      let activated : signature × State :=
        if r.Method = "POST" ∧ params.IsValid = true then
          match a.ActivateUser st params.Identity params.ActivateKey with
          | (none, st) => ({ params with Activated := true }, st)
          | (some _, st) => (params, st)
        else (params, st)
      let params := activated.1
      let st := activated.2
      let data := activatePageData a st params
      let st := { st with w := (renderTemplate a st.w "activate.tmpl" data).2 }
      (.returned (200, none), st)

/-! ## Authentication (`handlers.go`) -/

/-- The inner struct `MpinResponse` of `authRPARequest`. -/
structure MpinResponse where
  AuthOTT : String
deriving DecidableEq

/-- The struct `authRPARequest`. -/
structure authRPARequest where
  MpinResponse : MpinResponse
deriving DecidableEq

/-- Decoding of the members of an object into the inner struct of `authRPARequest`. -/
def unmarshalMpinResponse (v : MpinResponse) : List (String × JSON) → MpinResponse × Bool
  | [] => (v, false)
  | (k, x) :: ms =>
    if fieldMatch k "authOTT" then
      let f := setString v.AuthOTT x
      let rest := unmarshalMpinResponse { AuthOTT := f.1 } ms
      (rest.1, f.2 || rest.2)
    else unmarshalMpinResponse v ms

/-- Decoding of the members of the top-level object into `authRPARequest`. -/
def unmarshalAuthMembers (v : authRPARequest) : List (String × JSON) → authRPARequest × Bool
  | [] => (v, false)
  | (k, x) :: ms =>
    if fieldMatch k "mpinResponse" then
      let f : MpinResponse × Bool :=
        match x with
        | .obj rm => unmarshalMpinResponse v.MpinResponse rm
        | .null => (v.MpinResponse, false)
        | _ => (v.MpinResponse, true)
      let rest := unmarshalAuthMembers { MpinResponse := f.1 } ms
      (rest.1, f.2 || rest.2)
    else unmarshalAuthMembers v ms

/-- The call `json.Unmarshal(r, &v)` for an `authRPARequest`, on the parsed document. -/
def unmarshalAuthRPARequest (doc : JSON) (v : authRPARequest) : authRPARequest × Bool :=
  match doc with
  | .obj ms => unmarshalAuthMembers v ms
  | .null => (v, false)
  | _ => (v, true)

/-- The first loop of `authenticateUserHandler` over the keys of `m`, in the order `range`
visits them: whether it returns the 400 response.  The loop body ends in `break` or
`return`, so only the first key visited is looked at. -/
def topLevelKeyRejected : List String → Bool
  | [] => false
  | k :: _ => if k = "mpinResponse" then false else true

/-- The loop of `authenticateUserHandler` over the keys of `rm`: whether it returns the 400
response. -/
def nestedKeyRejected : List String → Bool
  | [] => false
  | k :: ks =>
    let errflg := if k = "authOTT" ∨ k = "version" ∨ k = "pass" then false else true
    if errflg then true else nestedKeyRejected ks

/-- The expression `time.Now().Unix()`. -/
def unixSeconds (now : Int) : Int := Int.fdiv (now - unixEpoch) 1000000000

/-- Lines 267 to 289 of `authenticateUserHandler`: what it does with a validated token. -/
def authenticateReply (a : app) (st : State) (authOTT : String) : Ret × State :=
  let auth := a.Authenticate st authOTT
  let userID := auth.1.1
  let message := auth.1.2.1
  let status := auth.1.2.2
  let st := (a.LoginResult auth.2 userID authOTT status message).2
  let st := { st with w := st.w.Set "Content-Type" "application/json" }
  if a.Options.RequestOTP then
    let NowTime := unixSeconds st.now * 1000
    let ret : authOTPResponse :=
      { TTLSeconds := 64, NowTime := NowTime, ExpireTime := NowTime + 64 * 1000 }
    match encodeJSONResponse st.w (.authOTP ret) with
    | (some _, w) => (.returned (500, some "Failed to encode response"), { st with w := w })
    | (none, w) => (.returned (status, some message), { st with w := w })
  else
    let ret : authRPAResponse :=
      { SomeUserData := "This will be handled by onSuccessLogin handler.", UserId := userID }
    match encodeJSONResponse st.w (.authRPA ret) with
    | (some _, w) => (.returned (500, some "Failed to encode response"), { st with w := w })
    | (none, w) => (.returned (status, some message), { st with w := w })

/-- The function `authenticateUserHandler`. -/
def authenticateUserHandler (a : app) (st : State) (r : Request) : Ret × State :=
  match checkAllowedMethods r st.w ["POST"] with
  | ((s, some err), w) => (.returned (s, some err), { st with w := w })
  | ((_, none), w) =>
    let st := { st with w := w }
    match r.Body with
    | none => (.returned (400, some "Failed to encode response"), st)
    | some (.obj m) =>
      if topLevelKeyRejected (st.mapOrder (JSON.keys m)) then
        (.returned (400, some "BAD REQUEST. INVALID KEY"), st)
      else
        match JSON.lookup m "mpinResponse" with
        | none => (.returned (400, some "BAD REQUEST. INVALID KEY"), st)
        | some (.obj rm) =>
          if nestedKeyRejected (st.mapOrder (JSON.keys rm)) then
            (.returned (400, some "BAD REQUEST. INVALID KEY"), st)
          else
            match JSON.lookup rm "authOTT" with
            | none => (.returned (400, some "BAD REQUEST. INVALID KEY"), st)
            | some _ =>
              match decodeJSONRequest unmarshalAuthRPARequest (.obj m)
                  { MpinResponse := { AuthOTT := "" } } with
              | (_, some err) => (.returned (400, some err), st)
              | (rq, none) =>
                if len rq.MpinResponse.AuthOTT ≠ 64 then
                  (.returned (400, some "BAD REQUEST. AUTH OTT"), st)
                else if matchNonHex rq.MpinResponse.AuthOTT then
                  (.returned (400, some "BAD REQUEST. AUTH OTT"), st)
                else authenticateReply a st rq.MpinResponse.AuthOTT
        | some _ => (.panicked "interface conversion: interface is not map[string]interface", st)
    | some _ => (.panicked "interface conversion: interface is not map[string]interface", st)

/-! ## The dispatcher (`app.go`) -/

/-- The error response written by `ServeHTTP` for a stage that returned `status` and an
error with text `err`. -/
def writeErrorResponse (lib : GoLib) (w : ResponseWriter) (status : Int) (err : String) :
    ResponseWriter :=
  if status = 404 then httpNotFound w
  else if status = 500 then httpError w (lib.StatusText status) status
  else if status = 400 then httpError w err status
  else if status = 403 then httpError w err status
  else httpError w (lib.StatusText status) status

/-- The loop `for _, h := range ah.Hs` of `ServeHTTP`. -/
def serveStages (lib : GoLib) : List appMiddleware → State → Request → Outcome Unit × State
  | [], st, _ => (.returned (), st)
  | h :: hs, st, r =>
    match h st r with
    | (.panicked msg, st) => (.panicked msg, st)
    | (.returned (status, err), st) =>
      match err with
      | some e =>
        if status ≥ 400 then
          (.returned (), { st with w := writeErrorResponse lib st.w status e })
        else serveStages lib hs st r
      | none => serveStages lib hs st r

/-- The method `appHandler.ServeHTTP`: a fresh context, then the stages. -/
def appHandler.ServeHTTP (lib : GoLib) (ah : appHandler) (st : State) (r : Request) :
    Outcome Unit × State :=
  serveStages lib ah.Hs { st with c := { SessionID := "", LoggedUser := "", UserID := "" } } r

/-- The stages run one after the other with no stage ending the chain: the state after the
last one, or `none` when some stage panics or returns an error with a status of 400 or
more. -/
def runAll : List appMiddleware → State → Request → Option State
  | [], st, _ => some st
  | h :: hs, st, r =>
    match h st r with
    | (.panicked _, _) => none
    | (.returned (status, err), st) =>
      if err.isSome ∧ status ≥ 400 then none else runAll hs st r

/-! ## Fixtures of the tests (`handlers_test.go`) -/

/-- The package variable `o` after `init()` when no flag is given. -/
def o : options :=
  { UseSecureCookie := false, RequestOTP := false, RPSSchema := "http",
    RPSHost := "127.0.0.1:8011", StaticURLBase := "/public/" }

/-- The function `testApp`: every collaborator is replaced by a double that does nothing
and returns zero values. -/
def testApp : app :=
  { Options := o
    Fetch := fun _ => { err := none, d := { Status := 0, UserID := "", Message := "" } }
    Mail := fun _ => none
    Authenticate := fun st _ => (("", "", 0), st)
    LoginResult := fun st _ _ _ _ => (none, st)
    ActivateUser := fun st _ _ => (none, st)
    Templates := fun _ => none
    tlsConfig := none }

/-- The recorder `httptest.NewRecorder()`: nothing received yet. -/
def NewRecorder : ResponseWriter :=
  { Header := fun _ => none, Cookies := [], Code := none, Body := [], WriteErr := none }

/-- The state in which a test starts at instant `now`: an empty context, a fresh recorder and
an empty store; `rand.Read` yields the bytes 0 to 15 and `range` visits keys in the order
given. -/
def startState (now : Int) : State :=
  { c := { SessionID := "", LoggedUser := "", UserID := "" }
    w := NewRecorder
    Store := fun _ => none
    gcCount := 0
    now := now
    rand := some [0, 1, 2, 3, 4, 5, 6, 7, 8, 9, 10, 11, 12, 13, 14, 15]
    mapOrder := fun ks => ks
    fetched := []
    mailed := []
    smtpSent := []
    ldapOps := [] }

/-- The request `http.NewRequest(method, path, body)`: no cookie and no query.  The body
is one JSON document, or text in which no JSON value can be read. -/
def NewRequest (method path : String) (body : Option JSON) : Request :=
  { Method := method, Path := path, Cookies := [], ParseFormErr := none,
    Form := fun _ => [], Body := body, Stream := body }

/-! ## Fixtures of the tests (`mpin_test.go`) -/

/-- The payload of the valid case of `testSignatureData`. -/
def testPayload : String :=
  "\x7b\"userID\": \"foo\", \"issued\": \"2000-01-01 00:00:00\", \"mobile\": 0\x7d"

/-- The bytes of an ASCII text. -/
def bytesOf (s : String) : List Byte := s.data.map fun c => Fin.ofNat c.toNat

/-- The identity of the valid case of `testSignatureData`: `testPayload` in hexadecimal. -/
def testIdentity : String :=
  "7b22757365724944223a2022666f6f222c2022697373756564223a2022323030302d30312d30312030303a30303a3030222c20226d6f62696c65223a20307d"

/-- The instant 2000-01-01 00:00:00 UTC. -/
def year2000 : Int := 62135596800 * 1000000000 + 946684800 * 1000000000

/-- The instant 2016-01-01 00:00:00 UTC, taken as the present in the examples. -/
def year2016 : Int := 62135596800 * 1000000000 + 1451606400 * 1000000000

/-- The library on the data of the tests: Go's answers for `testPayload`, for its issue
time and for the instant `year2016`; elsewhere parsing fails and formatting gives the empty
string. -/
def testLib : GoLib :=
  { jsonUnmarshal := fun b =>
      if b = bytesOf testPayload then
        some (.obj [("userID", .str "foo"), ("issued", .str "2000-01-01 00:00:00"),
          ("mobile", .num "0")])
      else none
    timeParse := fun layout value =>
      if layout = "2006-01-02 15:04:05" ∧ value = "2000-01-01 00:00:00" then some year2000
      else none
    timeFormat := fun t layout =>
      if layout = RFC822Z ∧ t = year2000 then "01 Jan 00 00:00 +0000"
      else if layout = RFC3339 ∧ t = year2016 then "2016-01-01T00:00:00Z"
      else ""
    StatusText := fun code =>
      if code = 400 then "Bad Request"
      else if code = 403 then "Forbidden"
      else if code = 404 then "Not Found"
      else if code = 405 then "Method Not Allowed"
      else if code = 500 then "Internal Server Error"
      else if code = 401 then "Unauthorized"
      else if code = 301 then "Moved Permanently"
      else "" }

/-- The request of `testVerifySignature`: a POST whose query carries `i`, `e` and `s`;
`formErr` is what `r.ParseForm()` returns for it. -/
def testLinkRequest (i expires activateKey : String) (formErr : Option String) : Request :=
  { Method := "POST", Path := "/", Cookies := [], ParseFormErr := formErr,
    Form := fun k =>
      if k = "i" then [i] else if k = "e" then [expires] else if k = "s" then [activateKey]
      else [],
    Body := none }

/-! ## The specification's condition for a valid activation link -/

/-- The condition the specification gives for a valid link, in its own words: the `i`
parameter hex-decodes to JSON that parses, its user id is non-empty, its issued field
parses under the layout, and the `e` parameter is not smaller, as a string, than the
present formatted as RFC3339. -/
def linkValid (lib : GoLib) (now : Int) (i e : String) : Prop :=
  ∃ b doc data t,
    hexDecodeString i = some b ∧
    lib.jsonUnmarshal b = some doc ∧
    unmarshalSignatureData doc { UserID := "", Issued := "", Mobile := 0 } = (data, false) ∧
    data.UserID ≠ "" ∧
    lib.timeParse "2006-01-02 15:04:05" data.Issued = some t ∧
    stringLess e (lib.timeFormat now RFC3339) = false

/-! ## Authentication against the RPS (`mpin.go`) -/

/-- The function `authenticateToRPS`; of `c.App` it reads `Options` and `Fetch`.  Returns
`(userID, message, status)`. -/
def authenticateToRPS (o : options) (Fetch : FetchCall → FetchReply) (st : State)
    (authOTT : String) : (String × String × Int) × State :=
  let url := o.RPSSchema ++ "://" ++ o.RPSHost ++ "/authenticate"
  let req : authRPSRequest := { AuthOTT := authOTT, SessionToken := st.c.SessionID }
  let reply := Fetch { url := url, method := "POST", q := .authRPS req }
  let st := { st with fetched := st.fetched ++ [{ url := url, method := "POST", q := .authRPS req }] }
  match reply.err with
  | some _ => (("", "Server error", reply.d.Status), st)
  | none =>
    ((reply.d.UserID, reply.d.Message, reply.d.Status),
      { st with c := { st.c with UserID := reply.d.UserID } })

/-! ## Numbers of a JSON document as `float64` -/

/-- Membership in the character class `[0-9]`. -/
def isDigit (c : Char) : Bool := 48 ≤ c.toNat && c.toNat ≤ 57

/-- Value of a list of decimal digits, most significant first. -/
def digitsToNat (cs : List Char) : Nat := cs.foldl (fun n c => 10 * n + (c.toNat - 48)) 0

/-- A decimal number `± mantissa × 10 ^ exponent`. -/
structure Decimal where
  negative : Bool
  mantissa : Nat
  exponent : Int
deriving DecidableEq

/-- The exponent part of a number literal, after the `e`: an optional sign and digits. -/
def parseExponent : List Char → Int
  | '-' :: ds => -(digitsToNat ds : Int)
  | '+' :: ds => (digitsToNat ds : Int)
  | ds => (digitsToNat ds : Int)

/-- The fraction and exponent parts of a number literal, after the integer part: the digits
of the fraction and the exponent. -/
def parseFraction : List Char → List Char × Int
  | '.' :: cs =>
    (cs.takeWhile isDigit,
      match cs.dropWhile isDigit with
      | 'e' :: es => parseExponent es
      | 'E' :: es => parseExponent es
      | _ => 0)
  | 'e' :: es => ([], parseExponent es)
  | 'E' :: es => ([], parseExponent es)
  | _ => ([], 0)

/-- The exact value of a JSON number literal (sign, integer part, fraction, exponent). -/
def parseNumber (literal : String) : Decimal :=
  let signed : Bool × List Char :=
    match literal.data with
    | '-' :: cs => (true, cs)
    | cs => (false, cs)
  let intPart := signed.2.takeWhile isDigit
  let rest := parseFraction (signed.2.dropWhile isDigit)
  { negative := signed.1,
    mantissa := digitsToNat (intPart ++ rest.1),
    exponent := rest.2 - (rest.1.length : Int) }

/-- The power of ten of a decimal as a fraction: numerator and denominator. -/
def pow10 (e : Int) : Nat × Nat :=
  if e ≥ 0 then (10 ^ e.toNat, 1) else (1, 10 ^ (-e).toNat)

/-- Whether the literal, converted by `strconv.ParseFloat(s, 64)`, equals `float64(1)`:
the value rounds to 1 exactly when it lies between `1 - 2^-54` and `1 + 2^-53`, the
midpoints to the neighbouring floats, which round to the even one. -/
def literalIsOne (literal : String) : Bool :=
  let d := parseNumber literal
  let p := pow10 d.exponent
  !d.negative &&
    decide ((2 ^ 54 - 1) * p.2 ≤ d.mantissa * p.1 * 2 ^ 54 ∧
      d.mantissa * p.1 * 2 ^ 54 ≤ (2 ^ 54 + 2) * p.2)

/-- Whether the literal, converted by `strconv.ParseFloat(s, 64)`, equals `float64(0)`:
the absolute value is at most `2^-1075`, half the smallest positive float; the shift
multiplies by `2^1075`. -/
def literalIsZero (literal : String) : Bool :=
  let d := parseNumber literal
  let p := pow10 d.exponent
  decide (Nat.shiftLeft (d.mantissa * p.1) 1075 ≤ p.2)

/-- The comparison `v == float64(1)` of an interface value decoded from JSON (`none` for a
nil interface). -/
def equalsFloat1 : Option JSON → Bool
  | some (.num literal) => literalIsOne literal
  | _ => false

/-- The comparison `v == float64(0)` of an interface value decoded from JSON. -/
def equalsFloat0 : Option JSON → Bool
  | some (.num literal) => literalIsZero literal
  | _ => false

/-! ## Decimal output -/

/-- The decimal digits of a number, most significant first; `fuel` bounds the number of
digits and `n + 1` is always enough. -/
def decimalDigits : Nat → Nat → List Char
  | 0, _ => []
  | fuel + 1, n =>
    if n < 10 then [Nat.digitChar n]
    else decimalDigits fuel (n / 10) ++ [Nat.digitChar (n % 10)]

/-- The function `strconv.Itoa`, also the verbs `%d` and `%v` for an `int`. -/
def Itoa (i : Int) : String :=
  if i < 0 then String.mk ('-' :: decimalDigits (i.natAbs + 1) i.natAbs)
  else String.mk (decimalDigits (i.natAbs + 1) i.natAbs)

/-- The verb `%04d`: at least four characters, zeros put after the sign. -/
def fmt04d (i : Int) : String :=
  let ds := decimalDigits (i.natAbs + 1) i.natAbs
  if i < 0 then String.mk ('-' :: (List.replicate (3 - ds.length) '0' ++ ds))
  else String.mk (List.replicate (4 - ds.length) '0' ++ ds)

/-- The function `strings.TrimLeft(s, "/")` for a one-character cutset. -/
def trimLeft (s : String) (c : Char) : String :=
  String.mk (s.data.dropWhile fun x => decide (x = c))

/-- The function `strings.TrimRight(s, "/")` for a one-character cutset. -/
def trimRight (s : String) (c : Char) : String :=
  String.mk (s.data.reverse.dropWhile fun x => decide (x = c)).reverse

/-! ## Verification of a user (`handlers.go`, `mpin.go`, `mail.go`) -/

/-- The struct `verifyUserRequest`. -/
structure verifyUserRequest where
  MpinID : String
  UserID : String
  ExpireTime : String
  ActivateKey : String
  ActivationCode : Int
  Mobile : Int
deriving DecidableEq

/-- The zero value of `verifyUserRequest`. -/
def verifyUserRequest.zero : verifyUserRequest :=
  { MpinID := "", UserID := "", ExpireTime := "", ActivateKey := "", ActivationCode := 0,
    Mobile := 0 }

/-- Decoding of the members of an object into `verifyUserRequest`. -/
def unmarshalVerifyMembers (v : verifyUserRequest) :
    List (String × JSON) → verifyUserRequest × Bool
  | [] => (v, false)
  | (k, x) :: ms =>
    if fieldMatch k "mpinId" then
      let f := setString v.MpinID x
      let rest := unmarshalVerifyMembers { v with MpinID := f.1 } ms
      (rest.1, f.2 || rest.2)
    else if fieldMatch k "userId" then
      let f := setString v.UserID x
      let rest := unmarshalVerifyMembers { v with UserID := f.1 } ms
      (rest.1, f.2 || rest.2)
    else if fieldMatch k "expireTime" then
      let f := setString v.ExpireTime x
      let rest := unmarshalVerifyMembers { v with ExpireTime := f.1 } ms
      (rest.1, f.2 || rest.2)
    else if fieldMatch k "activateKey" then
      let f := setString v.ActivateKey x
      let rest := unmarshalVerifyMembers { v with ActivateKey := f.1 } ms
      (rest.1, f.2 || rest.2)
    else if fieldMatch k "activationCode" then
      let f := setInt v.ActivationCode x
      let rest := unmarshalVerifyMembers { v with ActivationCode := f.1 } ms
      (rest.1, f.2 || rest.2)
    else if fieldMatch k "mobile" then
      let f := setInt v.Mobile x
      let rest := unmarshalVerifyMembers { v with Mobile := f.1 } ms
      (rest.1, f.2 || rest.2)
    else unmarshalVerifyMembers v ms

/-- The call `json.Unmarshal(r, &v)` for a `verifyUserRequest`, on the parsed document. -/
def unmarshalVerifyUserRequest (doc : JSON) (v : verifyUserRequest) :
    verifyUserRequest × Bool :=
  match doc with
  | .obj ms => unmarshalVerifyMembers v ms
  | .null => (v, false)
  | _ => (v, true)

/-- The slice `rmk` of `verifyUserHandler`. -/
def rmk : List String :=
  ["mpinId", "userId", "expireTime", "mobile", "activateKey", "activationCode", "resend",
   "deviceName", "userData"]

/-- The first loop of `verifyUserHandler` over the keys of `m`: whether it returns the 400
response (some key is not in `rmk`). -/
def unknownKeyRejected : List String → Bool
  | [] => false
  | k :: ks =>
    let errflg := if rmk.any (fun j => decide (k = j)) then false else true
    if errflg then true else unknownKeyRejected ks

/-- The second loop of `verifyUserHandler`, over `rmk[:4]`: whether it returns the 400
response (some required key is missing). -/
def missingKeyRejected (m : List (String × JSON)) : List String → Bool
  | [] => false
  | j :: js => if (JSON.lookup m j).isNone then true else missingKeyRejected m js

/-- Lines 106 to 136 of `verifyUserHandler`: whether the checks of the keys of `m` return
the 400 response; `order` is the order in which `range` visits the keys. -/
def verifyKeysRejected (order : List String → List String) (m : List (String × JSON)) :
    Bool :=
  if unknownKeyRejected (order (JSON.keys m)) then true
  else if missingKeyRejected m (rmk.take 4) then true
  else if equalsFloat1 (JSON.lookup m "mobile") then
    if (JSON.lookup m "activateKey").isNone then true else false
  else if equalsFloat0 (JSON.lookup m "mobile") then
    if (JSON.lookup m "activationCode").isNone then true else false
  else false

/-- Membership in the character class of the user id expression, range by range: `a-z`,
`A-Z`, `0-9`, space to slash, colon to at sign, opening bracket to grave accent, opening
brace to tilde. -/
def userIDChar (c : Char) : Bool :=
  (97 ≤ c.toNat && c.toNat ≤ 122) || (65 ≤ c.toNat && c.toNat ≤ 90) ||
    (48 ≤ c.toNat && c.toNat ≤ 57) || (32 ≤ c.toNat && c.toNat ≤ 47) ||
    (58 ≤ c.toNat && c.toNat ≤ 64) || (91 ≤ c.toNat && c.toNat ≤ 96) ||
    (123 ≤ c.toNat && c.toNat ≤ 126)

/-- The test of the user id against the negated class: some character lies outside it. -/
def matchNonUserID (s : String) : Bool := s.data.any fun c => !userIDChar c

/-- Membership in the character class `[-0-9TZ:]`. -/
def expireChar (c : Char) : Bool :=
  c.toNat = 45 || (48 ≤ c.toNat && c.toNat ≤ 57) || c.toNat = 84 || c.toNat = 90 ||
    c.toNat = 58

/-- The test `regexp.MustCompile("[^-0-9TZ:]").Match([]byte(s))`. -/
def matchNonExpire (s : String) : Bool := s.data.any fun c => !expireChar c

/-- Lines 145 to 151 of `verifyUserHandler`: the check of the user id. -/
def validateUserID (rq : verifyUserRequest) : Option (Int × String) :=
  if len rq.UserID < 1 ∨ len rq.UserID > 256 then some (403, "BAD REQUEST. INVALID USER ID")
  else if matchNonUserID rq.UserID then some (403, "BAD REQUEST. INVALID USER ID")
  else none

/-- Lines 153 to 156 of `verifyUserHandler`: the check of the M-Pin id. -/
def validateMpinID (rq : verifyUserRequest) : Option (Int × String) :=
  if matchNonHex rq.MpinID then some (400, "BAD REQUEST. INVALID MPIN ID") else none

/-- Lines 158 to 164 of `verifyUserHandler`: the check of the expire time. -/
def validateExpireTime (rq : verifyUserRequest) : Option (Int × String) :=
  if len rq.ExpireTime ≠ 20 then some (400, "BAD REQUEST. INVALID EXPIRE TIME")
  else if matchNonExpire rq.ExpireTime then some (400, "BAD REQUEST. INVALID EXPIRE TIME")
  else none

/-- Lines 166 to 179 of `verifyUserHandler`: the check of the activation key for
`Mobile == 1` and of the activation code for `Mobile == 0`. -/
def validateActivation (rq : verifyUserRequest) : Option (Int × String) :=
  if rq.Mobile = 1 then
    if len rq.ActivateKey ≠ 0 ∧ len rq.ActivateKey ≠ 64 then
      some (400, "BAD REQUEST. INVALID ACTIVATEKEY")
    else if matchNonHex rq.ActivateKey then some (400, "BAD REQUEST. INVALID ACTIVATEKEY")
    else none
  else if rq.Mobile = 0 then
    if len (Itoa rq.ActivationCode) > 12 then some (400, "BAD REQUEST. INVALID ACTIVATIONCODE")
    else none
  else none

/-- Lines 181 to 184 of `verifyUserHandler`: the check of the mobile flag. -/
def validateMobile (rq : verifyUserRequest) : Option (Int × String) :=
  if rq.Mobile ≠ 0 ∧ rq.Mobile ≠ 1 then some (400, "BAD REQUEST. INVALID MOBILE") else none

/-- Lines 145 to 184 of `verifyUserHandler`: the checks in their order; the first that
fails gives the status and the text of the error. -/
def validateVerifyRequest (rq : verifyUserRequest) : Option (Int × String) :=
  match validateUserID rq with
  | some e => some e
  | none =>
    match validateMpinID rq with
    | some e => some e
    | none =>
      match validateExpireTime rq with
      | some e => some e
      | none =>
        match validateActivation rq with
        | some e => some e
        | none => validateMobile rq

/-- The function `sendMail`, with the body as text. -/
def sendMail (net : Network) (st : State) (userID : String) (body : String) (o : options) :
    Option String × State :=
  let auth : Option (String × String × String) :=
    if o.SMTPPassword = "" then none else some (o.SMTPSUser, o.SMTPPassword, o.SMTPServer)
  let mail : SMTPMail :=
    { addr := o.SMTPServer ++ ":" ++ Itoa o.SMTPSPort, auth := auth, sender := o.EmailSender,
      recipients := [userID], msg := body }
  (net.smtpSendMail mail, { st with smtpSent := st.smtpSent ++ [mail] })

/-- The string `activationCodeStr` of `sendEMpinActivationMail`. -/
def activationCodeStr (activationCode : Int) : String :=
  let ac3 := Int.tmod activationCode 10000
  let ac2 := Int.tmod (Int.tdiv activationCode 10000) 10000
  let ac1 := Int.tdiv activationCode (10000 * 10000)
  fmt04d ac1 ++ "-" ++ fmt04d ac2 ++ "-" ++ fmt04d ac3

/-- The function `sendEMpinActivationMail`. -/
def sendEMpinActivationMail (net : Network) (st : State) (userID _deviceName : String)
    (activationCode : Int) (o : options) : Option String × State :=
  let body :=
    "From: " ++ o.EmailSender ++ "\r\n" ++
    "To: " ++ userID ++ "\r\n" ++
    "Subject: " ++ o.EmailSubject ++ "\r\n" ++
    "\r\n" ++
    "Your Activation code is" ++ "\r\n" ++
    activationCodeStr activationCode ++ "\r\n" ++
    "\r\n" ++
    "Regards," ++ "\r\n" ++
    "The Milagro MFA Team" ++ "\r\n"
  sendMail net st userID body o

/-- Record of a call on the LDAP connection. -/
def State.logLDAP (st : State) (op : LDAPOp) : State :=
  { st with ldapOps := st.ldapOps ++ [op] }

/-- Lines 80 to 112 of `verifyUser`: on the open connection, the bind when both the DN and
the password are set, then the search; `some` result when the function returns from here,
`none` when it goes on.  The deferred `Close` is recorded when the block is left. -/
def directorySearch (net : Network) (a : app) (st : State) (rq : verifyUserRequest) :
    Option (Int × Option String) × State :=
  let bound : Option String × State :=
    if a.Options.LDAPBindDN ≠ "" ∧ a.Options.LDAPBindPWD ≠ "" then
      (net.ldapBind a.Options.LDAPBindDN a.Options.LDAPBindPWD,
        st.logLDAP (.bind a.Options.LDAPBindDN a.Options.LDAPBindPWD))
    else (none, st)
  match bound with
  | (some err, st) => (some (500, some err), st.logLDAP .close)
  | (none, st) =>
    let req : LDAPSearchRequest :=
      { BaseDN := a.Options.LDAPBaseDN, Filter := a.Options.LDAPFilter,
        UserID := rq.UserID }
    let st := st.logLDAP (.search req)
    match net.ldapSearch req with
    | .error err => (some (500, some err), st.logLDAP .close)
    | .ok entries =>
      if entries = 0 then
        if !a.Options.LDAPVerifyShow then (some (200, none), st.logLDAP .close)
        else (some (403, some "Not Found Entry"), st.logLDAP .close)
      else (none, st.logLDAP .close)

/-- The block `if c.App.Options.LDAPVerify` of `verifyUser`: the connection, plain or with
TLS, then the bind and the search; `some` result when the function returns from inside the
block, `none` when it goes on. -/
def directoryCheck (net : Network) (a : app) (st : State) (rq : verifyUserRequest) :
    Outcome (Option (Int × Option String)) × State :=
  if a.Options.LDAPVerify then
    let addr := a.Options.LDAPServer ++ ":" ++ Itoa a.Options.LDAPPort
    if !a.Options.LDAPUseTLS then
      match net.ldapDial addr with
      | some err => (.returned (some (500, some err)), st.logLDAP (.dial addr))
      | none =>
        let res := directorySearch net a (st.logLDAP (.dial addr)) rq
        (.returned res.1, res.2)
    else
      match a.tlsConfig with
      | none => (.panicked "invalid memory address or nil pointer dereference", st)
      | some _ =>
        match net.ldapDialTLS addr a.Options.LDAPServer with
        | some err =>
          (.returned (some (500, some err)),
            st.logLDAP (.dialTLS addr a.Options.LDAPServer))
        | none =>
          let res :=
            directorySearch net a (st.logLDAP (.dialTLS addr a.Options.LDAPServer)) rq
          (.returned res.1, res.2)
  else (.returned none, st)

/-- Lines 50 to 57 of `verifyUser`: the variable `baseURL`; `none` when the index
expression `VerifyIdentityURL[0]` panics, on an empty string. -/
def baseURL (a : app) (r : Request) : Option String :=
  match a.Options.VerifyIdentityURL.data with
  | [] => none
  | first :: _ =>
    if first = '/' ∧ (r.Header "RPS-BASE-URL").length > 0 then
      some (trimRight ((r.Header "RPS-BASE-URL").headD "") '/' ++ "/" ++
        trimLeft a.Options.VerifyIdentityURL '/')
    else some a.Options.VerifyIdentityURL

/-- The function `verifyUser`. -/
def verifyUser (net : Network) (a : app) (st : State) (r : Request)
    (rq : verifyUserRequest) : Ret × State :=
  match baseURL a r with
  | none => (.panicked "index out of range", st)
  | some baseURL =>
    if a.Options.ForceActivate then (.returned (200, none), st)
    else
      match directoryCheck net a st rq with
      | (.panicked msg, st) => (.panicked msg, st)
      | (.returned (some res), st) => (.returned res, st)
      | (.returned none, st) =>
        let st :=
          if rq.ActivateKey ≠ "" then
            let validateURL :=
              baseURL ++ "?i=" ++ rq.MpinID ++ "&e=" ++ rq.ExpireTime ++ "&s=" ++ rq.ActivateKey
            let deviceName := if rq.Mobile = 0 then "PC" else "Mobile"
            let call : MailCall :=
              { userID := rq.UserID, deviceName := deviceName, validateURL := validateURL }
            let _err := a.Mail call
            { st with mailed := st.mailed ++ [call] }
          else st
        let st :=
          if rq.ActivationCode ≠ 0 then
            (sendEMpinActivationMail net st rq.UserID "PC" rq.ActivationCode a.Options).2
          else st
        (.returned (200, none), st)

/-- Lines 186 to 201 of `verifyUserHandler`: what it does with a validated request. -/
def verifyUserReply (net : Network) (a : app) (st : State) (r : Request)
    (rq : verifyUserRequest) : Ret × State :=
  match verifyUser net a st r rq with
  | (.panicked msg, st) => (.panicked msg, st)
  | (.returned (s, some _), st) =>
    if s = 403 then (.returned (s, some "BAD REQUEST. INVALID USER ID"), st)
    else (.returned (s, some ""), st)
  | (.returned (_, none), st) =>
    let resp : verifyUserResponse := { ForceActivate := a.Options.ForceActivate }
    let st := { st with w := st.w.Set "Content-Type" "application/json" }
    match encodeJSONResponse st.w (.verifyUser resp) with
    | (some _, w) => (.returned (500, some "Failed to encode response"), { st with w := w })
    | (none, w) => (.returned (200, none), { st with w := w })

/-- The function `verifyUserHandler`. -/
def verifyUserHandler (net : Network) (a : app) (st : State) (r : Request) : Ret × State :=
  match checkAllowedMethods r st.w ["POST"] with
  | ((s, some err), w) => (.returned (s, some err), { st with w := w })
  | ((_, none), w) =>
    let st := { st with w := w }
    match r.Body with
    | none => (.returned (400, some "BAD REQUEST. INVALID JSON"), st)
    | some (.obj m) =>
      if verifyKeysRejected st.mapOrder m then
        (.returned (400, some "BAD REQUEST. INVALID KEY"), st)
      else
        match decodeJSONRequest unmarshalVerifyUserRequest (.obj m) verifyUserRequest.zero with
        | (_, some _) => (.returned (500, some "BAD REQUEST. INVALID USER ID"), st)
        | (rq, none) =>
          let st := { st with c := { st.c with UserID := rq.UserID } }
          match validateVerifyRequest rq with
          | some (status, msg) => (.returned (status, some msg), st)
          | none => verifyUserReply net a st r rq
    | some _ => (.panicked "interface conversion: interface is not map[string]interface", st)

/-! ## Fixtures for the verification of a user -/

/-- A network on which every call succeeds and a search finds one entry. -/
def testNetwork : Network :=
  { ldapDial := fun _ => none
    ldapDialTLS := fun _ _ => none
    ldapBind := fun _ _ => none
    ldapSearch := fun _ => .ok 1
    smtpSendMail := fun _ => none }

/-- A body of `verifyUserSanitizingData` and `verifyUserData`, with the given mobile flag,
activation key and activation code literal. -/
def testVerifyBody (userId mpinId expireTime : String) (mobile : String)
    (activateKey : String) (activationCode : String) : JSON :=
  .obj [("mpinId", .str mpinId), ("userId", .str userId), ("expireTime", .str expireTime),
    ("activateKey", .str activateKey), ("activationCode", .num activationCode),
    ("mobile", .num mobile)]

/-! ## The specification's condition for a request that passes authenticate validation -/

/-- A request passes the validation of `authenticateUserHandler` with token `tok`, in the
words of the specification: it is a POST whose body is `{"mpinResponse": <object>}`, the
inner object has no key other than `authOTT`, `version` and `pass` and none twice, and its
`authOTT` is the string `tok`, 64 characters all in `0-9a-fA-F`.  `range` visits each key of
a map once. -/
def authRequestValid (st : State) (r : Request) (tok : String) : Prop :=
  r.Method = "POST" ∧ (∀ ks, (st.mapOrder ks).Perm ks) ∧
  ∃ rm, r.Body = some (.obj [("mpinResponse", .obj rm)]) ∧
    (rm.map Prod.fst).Nodup ∧
    (∀ k ∈ rm.map Prod.fst, k = "authOTT" ∨ k = "version" ∨ k = "pass") ∧
    JSON.lookup rm "authOTT" = some (.str tok) ∧
    tok.length = 64 ∧ ∀ c ∈ tok.data, isHexDigit c = true

/-! ## Fixtures for the authenticate handler -/

/-- The token of the accepted cases of `testAuthUserData`. -/
def testAuthOTT : String := "1234567890abcdefABCDEF1234567890abcdefABCDEF1234567890abcdefABCD"

/-- The request of the accepted cases of `testAuthUserData`. -/
def testAuthRequest : Request :=
  NewRequest "POST" "/" (some (.obj [("mpinResponse", .obj
    [("authOTT", .str testAuthOTT), ("version", .str "info"), ("pass", .str "key")])]))

/-- The doubles of `testAuthenticateUser`: `Authenticate` returns the given triple, and
`LoginResult` records its arguments, here as an entry of the call log under the name
`checkLoginResult`. -/
def testAuthApp (userID message : String) (status : Int) : app :=
  { testApp with
    Authenticate := fun st _ => ((userID, message, status), st)
    LoginResult := fun st userID authOTT status message =>
      (none, { st with fetched := st.fetched ++
        [{ url := "checkLoginResult", method := "",
           q := .loginResult { AuthOTT := authOTT, Status := status, Message := message,
                               SessionToken := st.c.SessionID, UserID := userID } }] }) }

/-- A start state whose connection is broken: every write to it fails. -/
def brokenPipeState : State :=
  { startState unixEpoch with
    w := { NewRecorder with WriteErr := some "write: broken pipe" } }

/-- A `Fetch` that cannot reach the RPS: it returns an error and leaves the response value
as it was, all zero. -/
def unreachableFetch : FetchCall → FetchReply :=
  fun _ => { err := some "dial tcp 127.0.0.1:8011: connection refused",
             d := { Status := 0, UserID := "", Message := "" } }

/-- The application as `newApp` wires it (`authenticateToRPS`, `sendLoginResult`), with an
RPS that cannot be reached. -/
def unreachableApp : app :=
  { testApp with
    Fetch := unreachableFetch
    Authenticate := authenticateToRPS o unreachableFetch
    LoginResult := sendLoginResult o unreachableFetch }

/-! ## The condition for a verify request that reaches the checks of its fields -/

/-- A verify request passes the key checks and decodes to `rq`: it is a POST whose body is
an object `m` on which lines 106 to 136 of `verifyUserHandler` do not return, and
`decodeJSONRequest` yields `rq` without an error. -/
def verifyRequestDecodes (st : State) (r : Request) (rq : verifyUserRequest) : Prop :=
  r.Method = "POST" ∧
  ∃ m, r.Body = some (.obj m) ∧ verifyKeysRejected st.mapOrder m = false ∧
    unmarshalVerifyMembers verifyUserRequest.zero m = (rq, false)

/-- The conditions of the specification under which the object `m` of a verify request is
rejected for its keys: a key outside the nine known ones, one of the four required keys
missing, `mobile` equal to 1 without an `activateKey` key, or `mobile` equal to 0 without
an `activationCode` key.  A key is present when some member has that name; `mobile` is
compared as the handler reads it, as a `float64`. -/
def keyCheckFails (m : List (String × JSON)) : Prop :=
  (∃ k ∈ m.map Prod.fst,
    k ∉ ["mpinId", "userId", "expireTime", "mobile", "activateKey", "activationCode",
         "resend", "deviceName", "userData"]) ∨
  (∃ j ∈ ["mpinId", "userId", "expireTime", "mobile"], j ∉ m.map Prod.fst) ∨
  (equalsFloat1 (JSON.lookup m "mobile") = true ∧ "activateKey" ∉ m.map Prod.fst) ∨
  (equalsFloat0 (JSON.lookup m "mobile") = true ∧ "activationCode" ∉ m.map Prod.fst)

/-- The body of `verifyUserSanitizingData` with the key `Dummy`. -/
def testDummyKeyBody : List (String × JSON) :=
  [("mpinId", .str "aaa"), ("userId", .str "root@localhost"),
   ("expireTime", .str "12345678901234567890"), ("mobile", .num "1"),
   ("activateKey", .str "dummy"), ("activationCode", .num "0"), ("Dummy", .str "dummy")]

/-- The second accepted case of `verifyUserData`, as the struct that is decoded. -/
def testMobileRq : verifyUserRequest :=
  { MpinID := "abcdefABCDEF1234567890", UserID := "?", ExpireTime := "1234567890-TZ:123456",
    ActivateKey := "abcdefABCDEF1234567890abcdefABCDEF1234567890abcdefABCDEF12345678",
    ActivationCode := 1234567889012, Mobile := 1 }

/-- The request of the second accepted case of `verifyUserData`. -/
def testMobileRequest : Request :=
  NewRequest "POST" "/" (some (testVerifyBody "?" "abcdefABCDEF1234567890"
    "1234567890-TZ:123456" "1"
    "abcdefABCDEF1234567890abcdefABCDEF1234567890abcdefABCDEF12345678" "1234567889012"))

/-- A case of `verifyUserActivationCodeData`, with the activation key of `verifyUserData`
for a desktop, as the struct that is decoded. -/
def testDesktopRq (activationCode : Int) : verifyUserRequest :=
  { MpinID := "aaa", UserID := "root@localhost", ExpireTime := "12345678901234567890",
    ActivateKey := "dummy", ActivationCode := activationCode, Mobile := 0 }

/-- The request of `testDesktopRq`, with the activation code as it is written. -/
def testDesktopRequest (activationCode : String) : Request :=
  NewRequest "POST" "/" (some (testVerifyBody "root@localhost" "aaa" "12345678901234567890"
    "0" "dummy" activationCode))

/-- Every printable ASCII character, from the space to the tilde, all punctuation
included. -/
def printableASCII : String := String.mk ((List.range 95).map fun i => Char.ofNat (32 + i))

/-! ## Logout (`handlers.go`) -/

/-- The call `c.App.Store.Delete(sessionID)` on the state. -/
def State.Delete (st : State) (sessionID : String) : State :=
  { st with Store := storage.Delete st.Store sessionID }

/-- The call `http.Redirect(w, r, "/", code)`, as in the current `net/http`: the URL "/"
is left as it is; the content type and the short note are added for a GET when no content
type is set yet. -/
def Redirect (lib : GoLib) (w : ResponseWriter) (r : Request) (code : Int) : ResponseWriter :=
  let hadCT := (w.Header "Content-Type").isSome
  let w := w.Set "Location" "/"
  let w :=
    if !hadCT && (r.Method = "GET" || r.Method = "HEAD") then
      w.Set "Content-Type" "text/html; charset=utf-8"
    else w
  let w := w.WriteHeader code
  if !hadCT && r.Method = "GET" then
    (w.Write (.text ("<a href=\"/\">" ++ lib.StatusText code ++ "</a>.\n" ++ "\n"))).2
  else w

/-- The anonymous struct `data` of `logoutHandler`. -/
structure logoutData where
  SessionID : String
  UserID : String
deriving DecidableEq

/-- Decoding of the members of an object into the `data` of `logoutHandler`. -/
def unmarshalLogoutMembers (v : logoutData) : List (String × JSON) → logoutData × Bool
  | [] => (v, false)
  | (k, x) :: ms =>
    if fieldMatch k "sessionToken" then
      let f := setString v.SessionID x
      let rest := unmarshalLogoutMembers { v with SessionID := f.1 } ms
      (rest.1, f.2 || rest.2)
    else if fieldMatch k "userId" then
      let f := setString v.UserID x
      let rest := unmarshalLogoutMembers { v with UserID := f.1 } ms
      (rest.1, f.2 || rest.2)
    else unmarshalLogoutMembers v ms

/-- The storing of the value read by `decoder.Decode(&data)` in `logoutHandler`. -/
def unmarshalLogoutData (doc : JSON) (v : logoutData) : logoutData × Bool :=
  match doc with
  | .obj ms => unmarshalLogoutMembers v ms
  | .null => (v, false)
  | _ => (v, true)

/-- The function `logoutHandler`. -/
def logoutHandler (lib : GoLib) (_a : app) (st : State) (r : Request) : Ret × State :=
  match checkAllowedMethods r st.w ["GET", "POST", "OPTIONS"] with
  | ((s, some err), w) => (.returned (s, some err), { st with w := w })
  | ((_, none), w) =>
    let st := { st with w := w }
    if r.Method = "GET" then
      let st :=
        match st.Get st.c.SessionID with
        | ((_, none), st) => st.Delete st.c.SessionID
        | ((_, some _), st) => st
      let st := { st with w := deleteCookie st.w "mpindemo_session" }
      let st := { st with w := Redirect lib st.w r 301 }
      (.returned (301, none), st)
    else if r.Method = "OPTIONS" then (.returned (200, none), st)
    else
      match r.Stream with
      | none => (.returned (400, some "BAD REQUEST. INVALID JSON"), st)
      | some doc =>
        match unmarshalLogoutData doc { SessionID := "", UserID := "" } with
        | (_, true) => (.returned (400, some "BAD REQUEST. INVALID JSON"), st)
        | (data, false) =>
          match st.Get data.SessionID with
          | ((item, err), st) =>
            let st := { st with c := { st.c with UserID := data.UserID } }
            if item.User ≠ data.UserID then (.returned (400, some "Logout failed"), st)
            else
              let st := if err = none then st.Delete data.SessionID else st
              (.returned (200, none), st)

/-! ## Sequences of calls on the session store -/

/-- One call on the store: `Put` and `Get` with the instant at which they run, or
`Delete`. -/
inductive StoreCall where
  | Put (now : Int) (sessionID : String) (item : session)
  | Get (now : Int) (sessionID : String)
  | Delete (sessionID : String)

/-- The store and the counter after one call. -/
def StoreCall.run (s : storage × Int) : StoreCall → storage × Int
  | .Put now sessionID item => (storage.Put s.1 s.2 now sessionID item).2
  | .Get now sessionID => ((storage.Get s.1 now sessionID).2, s.2)
  | .Delete sessionID => (storage.Delete s.1 sessionID, s.2)

/-- The store and the counter after a sequence of calls, executed one after the other. -/
def runCalls (s : storage × Int) : List StoreCall → storage × Int
  | [] => s
  | c :: cs => runCalls (c.run s) cs

/-- The user of the stored, unexpired session under `sessionID`, in the words of the
specification, or the empty string when there is none. -/
def liveUser (s : storage) (now : Int) (sessionID : String) : String :=
  match s sessionID with
  | some item => if item.Expires < now then "" else item.User
  | none => ""

/-- The request of the first case of `testLogoutHandlerData`. -/
def testLogoutRequest : Request :=
  NewRequest "POST" "/protected"
    (some (.obj [("sessionToken", .str "123"), ("userId", .str "user01")]))

/-- A start state at instant `now` whose store holds one session, of `user`, under "123",
with the given expiry. -/
def loggedInState (now expires : Int) (user : String) : State :=
  { startState now with
    Store := storage.assign (fun _ => none) "123" { Expires := expires, User := user } }

/-- A double for `ActivateUser` that records its arguments, as an entry of the call log
named `ActivateUser`, and returns `err`. -/
def testActivateApp (err : Option String) : app :=
  { testApp with
    ActivateUser := fun st identity activateKey =>
      (err, { st with fetched := st.fetched ++
        [{ url := identity, method := "ActivateUser", q := .activate activateKey }] }) }

/-- The application of the tests with the option `ForceActivate` set, as in
`TestVerifyUserForceActivateTrue`, and with directory verification switched on. -/
def forceApp : app :=
  { testApp with Options := { o with ForceActivate := true, LDAPVerify := true } }

/-- The application of `TestVerifyUserHandlerLDAPSearchNotFoundOK`: directory verification
on the server 127.0.0.1:10389. -/
def ldapApp : app :=
  { testApp with
    Options := { o with LDAPVerify := true, LDAPServer := "127.0.0.1", LDAPPort := 10389 } }

/-- A network whose directory answers every search with no entry. -/
def emptyDirectory : Network := { testNetwork with ldapSearch := fun _ => .ok 0 }

/-- The request struct of `TestVerifyUserHandlerLDAPSearchNotFoundOK`. -/
def testUnknownRq : verifyUserRequest :=
  { MpinID := "aaa", UserID := "invalid", ExpireTime := "12345678901234567890",
    ActivateKey := "dummy", ActivationCode := 0, Mobile := 0 }

/-- The body of `verifyUserSanitizingData` whose activation code is a string. -/
def testUndecodableBody : List (String × JSON) :=
  [("mpinId", .str "aaa"), ("userId", .str "TestUser"),
   ("expireTime", .str "12345678901234567890"), ("mobile", .num "0"),
   ("activationCode", .str "JSONERROR")]

/-- A `Fetch` whose RPS answers every call with status 401 in the response value, for a
wrong PIN. -/
def deniedFetch : FetchCall → FetchReply :=
  fun _ => { err := none, d := { Status := 401, UserID := "foo", Message := "Invalid PIN" } }

/-- The application as `newApp` wires it, with an RPS that denies the login. -/
def deniedApp : app :=
  { testApp with
    Fetch := deniedFetch
    Authenticate := authenticateToRPS o deniedFetch
    LoginResult := sendLoginResult o deniedFetch }

/-! ## Runs of requests through session resolution -/

/-- A sequence of requests, each passed to `sessionHandler` at its own instant. -/
def resolveAll (a : app) (st : State) : List (Int × Request) → State
  | [] => st
  | (now, r) :: rest => resolveAll a (sessionHandler a { st with now := now } r).2 rest

/-- A request that carries the session cookie with the given value. -/
def cookieRequest (value : String) : Request :=
  { NewRequest "GET" "/" none with Cookies := [("mpindemo_session", value)] }

/-! ## The shape of a session id -/

/-- Membership in the character class `[0-9A-F]` of the pattern in `TestGenerateSessionID`. -/
def isUpperHex (c : Char) : Bool :=
  (48 ≤ c.toNat && c.toNat ≤ 57) || (65 ≤ c.toNat && c.toNat ≤ 70)

/-! ## Decimal notation of fixed width -/

/-- The decimal representation of `n` left-padded with zeros to `width` digits: the digit at
position `i`, counted from the left, is the digit of `n` of weight `10 ^ (width - 1 - i)`. -/
def paddedDecimal (width n : Nat) : List Char :=
  (List.range width).map fun i => Nat.digitChar (n / 10 ^ (width - 1 - i) % 10)

/-! ## The query of an activation link (`net/url`, `net/http`)

`url.QueryUnescape` belongs to Go's library and is a parameter of the definitions below.
It returns a text without `%` and `+` as it is; theorems assume nothing else of it. -/

/-- The function `strings.Cut(s, sep)` for a one-character separator: the text before the
first separator and the text after it; all of `s` and the empty text when there is none. -/
def cut (sep : Char) (s : List Char) : List Char × List Char :=
  (s.takeWhile fun c => decide (c ≠ sep), (s.dropWhile fun c => decide (c ≠ sep)).drop 1)

/-- The pieces of a text between the occurrences of a separator. -/
def splitOn (sep : Char) : List Char → List (List Char)
  | [] => [[]]
  | c :: cs =>
    if c = sep then [] :: splitOn sep cs
    else
      match splitOn sep cs with
      | [] => [[c]]
      | p :: ps => (c :: p) :: ps

/-- The query of a link, as it reaches the server in `r.URL.RawQuery`: the text after the
first `?` of what precedes the fragment, which starts at the first `#`. -/
def rawQuery (link : String) : List Char :=
  (cut '?' (cut '#' link.data).1).2

/-- One round of the loop of `url.ParseQuery`, on the piece `piece` cut off at `&`, with the
pairs appended so far and the error so far. -/
def parseQueryStep (QueryUnescape : String → Option String)
    (acc : List (String × String) × Option String) (piece : List Char) :
    List (String × String) × Option String :=
  if ';' ∈ piece then (acc.1, some "invalid semicolon separator in query")
  else if piece = [] then acc
  else
    match QueryUnescape (String.mk (cut '=' piece).1) with
    | none => (acc.1, acc.2.orElse fun _ => some "invalid URL escape")
    | some key =>
      match QueryUnescape (String.mk (cut '=' piece).2) with
      | none => (acc.1, acc.2.orElse fun _ => some "invalid URL escape")
      | some value => (acc.1 ++ [(key, value)], acc.2)

/-- The function `url.ParseQuery`: the pairs of key and value in the order of the query,
and the error. -/
def parseQuery (QueryUnescape : String → Option String) (query : List Char) :
    List (String × String) × Option String :=
  (splitOn '&' query).foldl (parseQueryStep QueryUnescape) ([], none)

/-- The values stored under `key` in the `url.Values` made from the pairs, in their
order. -/
def formValues (pairs : List (String × String)) (key : String) : List String :=
  (pairs.filter fun p => decide (p.1 = key)).map Prod.snd

/-- The GET request that a click on `link` sends, as `r.ParseForm()` sees it: the form
holds the values of the query of the link. -/
def linkRequest (QueryUnescape : String → Option String) (link : String) : Request :=
  { Method := "GET"
    Path := String.mk (cut '?' (cut '#' link.data).1).1
    Cookies := []
    ParseFormErr := (parseQuery QueryUnescape (rawQuery link)).2
    Form := formValues (parseQuery QueryUnescape (rawQuery link)).1
    Body := none }

/-- A character that a query carries unchanged inside a value: none of `&`, `;`, `#`, `%`
and `+`. -/
def queryPlain (c : Char) : Bool :=
  !(c = '&' || c = ';' || c = '#' || c = '%' || c = '+')

/-- A double for `url.QueryUnescape` that returns a text without `%` and `+` as it is and
reports an error for every other text. -/
def plainUnescape (s : String) : Option String :=
  if s.data.any (fun c => c = '%' || c = '+') then none else some s

/-- A verify request for a desktop whose activation key holds an ampersand. -/
def testAmpersandRq : verifyUserRequest :=
  { testDesktopRq 1 with ActivateKey := "a&s=b" }

/-- The link that `verifyUser` builds for `rq` on the base URL `baseURL`. -/
def validateURL (baseURL : String) (rq : verifyUserRequest) : String :=
  baseURL ++ "?i=" ++ rq.MpinID ++ "&e=" ++ rq.ExpireTime ++ "&s=" ++ rq.ActivateKey

/-! ## Canonical RFC 3339 texts and the instants they denote

The notions of the specification for the expiry of a link: a text of the form
`YYYY-MM-DDTHH:MM:SSZ`, the date and time of day in UTC that it names, and the instant
that this date and time denote. -/

/-- A date and a time of day in UTC. -/
structure Civil where
  year : Nat
  month : Nat
  day : Nat
  hour : Nat
  minute : Nat
  second : Nat
deriving DecidableEq, Repr

/-- The extra day of February in a leap year of the Gregorian calendar. -/
def leapDay (y : Nat) : Nat :=
  if y % 4 = 0 ∧ (y % 100 ≠ 0 ∨ y % 400 = 0) then 1 else 0

/-- The number of days of month `m` of year `y`. -/
def daysIn (y m : Nat) : Nat :=
  if m = 2 then 28 + leapDay y
  else if m = 4 ∨ m = 6 ∨ m = 9 ∨ m = 11 then 30
  else 31

/-- The fields name a date of the years 0000 to 9999 and a time of day. -/
def Civil.IsDate (t : Civil) : Prop :=
  t.year ≤ 9999 ∧ 1 ≤ t.month ∧ t.month ≤ 12 ∧ 1 ≤ t.day ∧ t.day ≤ daysIn t.year t.month ∧
    t.hour ≤ 23 ∧ t.minute ≤ 59 ∧ t.second ≤ 59

instance (t : Civil) : Decidable t.IsDate := by
  unfold Civil.IsDate
  infer_instance

/-- The number of days from January 1 of the year 0000 to January 1 of the year `y`. -/
def daysBeforeYear (y : Nat) : Nat :=
  365 * y + (y + 3) / 4 - (y + 99) / 100 + (y + 399) / 400

/-- The number of days from January 1 of the year `y` to the first day of its month `m`:
the sum of the lengths of the months before `m`. -/
def daysBeforeMonth (y m : Nat) : Nat :=
  ((List.range (m - 1)).map fun k => daysIn y (k + 1)).sum

/-- The number of days from January 1 of the year 0000 to the date. -/
def Civil.dayNumber (t : Civil) : Nat :=
  daysBeforeYear t.year + daysBeforeMonth t.year t.month + (t.day - 1)

/-- The instant that the date and time denote, in seconds since Go's zero time, which is
January 1 of the year 0001, 366 days after January 1 of the year 0000. -/
def Civil.seconds (t : Civil) : Int :=
  ((t.dayNumber : Int) - 366) * 86400 + ((t.hour * 3600 + t.minute * 60 + t.second : Nat) : Int)

/-- The canonical form `YYYY-MM-DDTHH:MM:SSZ` of the date and time. -/
def Civil.canonical (t : Civil) : String :=
  String.mk (paddedDecimal 4 t.year ++ '-' :: (paddedDecimal 2 t.month ++
    '-' :: (paddedDecimal 2 t.day ++ 'T' :: (paddedDecimal 2 t.hour ++
    ':' :: (paddedDecimal 2 t.minute ++ ':' :: (paddedDecimal 2 t.second ++ ['Z']))))))

/-- The order of two dates and times by their fields, the year first. -/
def Civil.fieldsBefore (a b : Civil) : Prop :=
  a.year < b.year ∨ (a.year = b.year ∧ (a.month < b.month ∨ (a.month = b.month ∧
    (a.day < b.day ∨ (a.day = b.day ∧ (a.hour < b.hour ∨ (a.hour = b.hour ∧
      (a.minute < b.minute ∨ (a.minute = b.minute ∧ a.second < b.second)))))))))

/-- The payload of the link in the request is decodable: the form parses and none of the
four decoding failures of `verifySignature` occurs, that is, the value of `i` is
hexadecimal, the bytes are JSON that decodes into the payload struct, the issue time parses
and the user id is not empty. -/
def payloadDecodes (lib : GoLib) (r : Request) : Prop :=
  r.ParseFormErr = none ∧
  ∃ b doc data t,
    hexDecodeString ((getArgument r "i" "").headD "") = some b ∧
    lib.jsonUnmarshal b = some doc ∧
    unmarshalSignatureData doc { UserID := "", Issued := "", Mobile := 0 } = (data, false) ∧
    data.UserID ≠ "" ∧
    lib.timeParse "2006-01-02 15:04:05" data.Issued = some t

/-- The library formats the instant `now` under the layout RFC3339 as the canonical form of
the date and time `t`, which denote `now` truncated to whole seconds. -/
def clockReads (lib : GoLib) (now : Int) (t : Civil) : Prop :=
  t.IsDate ∧ lib.timeFormat now RFC3339 = t.canonical ∧ t.seconds = now / 1000000000

/-! ## Fixtures for repeated keys, rendered pages and a base URL with a query -/

/-- A double for the template `activate.tmpl` that prints the flag `Activated` of its
data. -/
def flagTemplate (data : PageData) : Except String String :=
  match data.lookup "Activated" with
  | some (.bool true) => .ok "Activated: true"
  | some (.bool false) => .ok "Activated: false"
  | _ => .error "no flag"

/-- The application of `testActivateApp` with the template double `flagTemplate`. -/
def testPageApp (err : Option String) : app :=
  { testActivateApp err with
    Templates := fun name => if name = "activate.tmpl" then some flagTemplate else none }

/-- The application of the tests with a verify-identity URL that already has a query. -/
def queryBaseApp : app :=
  { testApp with
    Options := { o with VerifyIdentityURL := "http://localhost:8005/mpinActivate?lang=en" } }

/-! ## Theorems: the session store -/

theorem wrapInt_small (x : Int) (h0 : -9223372036854775808 ≤ x) (h1 : x < 9223372036854775808) :
    wrapInt x = x := by
  unfold wrapInt
  omega

theorem Before_iff (t u : Int) : Time.Before t u = true ↔ t < u := by
  simp [Time.Before]

theorem Hour_pos : (0 : Int) < 4 * Hour := by
  norm_num [Hour]

/-- The result of `Put` in closed form. -/
theorem Put_result (s : storage) (g : Int) (now : Int) (id : String) (item : session) :
    storage.Put s g now id item =
      (none,
       if wrapInt (g + 1) ≥ 1000 then
         (s.assign id
           (if item.Expires = 0 then { item with Expires := now + 4 * Hour } else item)).sweep now
       else
         s.assign id (if item.Expires = 0 then { item with Expires := now + 4 * Hour } else item),
       if wrapInt (g + 1) ≥ 1000 then 0 else wrapInt (g + 1)) := by
  unfold storage.Put
  by_cases h : wrapInt (g + 1) ≥ 1000 <;> simp [h, Time.IsZero, Time.Add]

/-- `Get` of an absent id. -/
theorem Get_absent (s : storage) (id : String) (now : Int) (h : s id = none) :
    storage.Get s now id = ((session.zero, some "SessionID not found"), s) := by
  simp [storage.Get, h]

/-- `Get` of an entry that is expired at `now`. -/
theorem Get_expired (s : storage) (id : String) (now : Int) (item : session)
    (h : s id = some item) (hlt : item.Expires < now) :
    storage.Get s now id = ((session.zero, some "SessionID expired"), s.remove id) := by
  have hb : Time.Before item.Expires now = true := (Before_iff _ _).2 hlt
  simp [storage.Get, h, hb]

/-- `Get` of an entry that is not expired at `now`. -/
theorem Get_live (s : storage) (id : String) (now : Int) (item : session)
    (h : s id = some item) (hlt : ¬ item.Expires < now) :
    storage.Get s now id = ((item, none), s) := by
  have hb : Time.Before item.Expires now = false := by
    simp [Time.Before, hlt]
  simp [storage.Get, h, hb]

/-- C1. `Get` fails with "SessionID not found" on an absent id and leaves the store as it
is; on an entry whose expiry is strictly before `now` it fails with "SessionID expired" and
deletes that entry only, so that a following `Get` fails with "SessionID not found";
otherwise it returns the stored session and leaves the store as it is. -/
theorem Get_contract (s : storage) (id : String) (now : Int) :
    (s id = none →
      storage.Get s now id = ((session.zero, some "SessionID not found"), s)) ∧
    (∀ item, s id = some item → item.Expires < now →
      (storage.Get s now id).1 = (session.zero, some "SessionID expired") ∧
      (storage.Get s now id).2 id = none ∧
      (∀ k, k ≠ id → (storage.Get s now id).2 k = s k) ∧
      ∀ later, (storage.Get (storage.Get s now id).2 later id).1 =
        (session.zero, some "SessionID not found")) ∧
    (∀ item, s id = some item → ¬ item.Expires < now →
      storage.Get s now id = ((item, none), s)) := by
  refine ⟨Get_absent s id now, ?_, Get_live s id now⟩
  intro item h hlt
  rw [Get_expired s id now item h hlt]
  refine ⟨rfl, ?_, ?_, ?_⟩
  · simp [storage.remove]
  · intro k hk
    simp [storage.remove, hk]
  · intro later
    simp [storage.Get, storage.remove]

/-- An expired entry stored under "sessionId": `Get` reports it expired, and a second `Get`
reports it not found. -/
theorem Get_contract_witness :
    (storage.Get (storage.assign (fun _ => none) "sessionId" ⟨unixEpoch, "user"⟩)
        (unixEpoch + 1) "sessionId").1 = (session.zero, some "SessionID expired") ∧
    (storage.Get (storage.Get (storage.assign (fun _ => none) "sessionId" ⟨unixEpoch, "user"⟩)
        (unixEpoch + 1) "sessionId").2 (unixEpoch + 1) "sessionId").1 =
      (session.zero, some "SessionID not found") :=
  have h := (Get_contract (storage.assign (fun _ => none) "sessionId" ⟨unixEpoch, "user"⟩)
    "sessionId" (unixEpoch + 1)).2.1 ⟨unixEpoch, "user"⟩ (by simp [storage.assign])
    (by simp [unixEpoch])
  ⟨h.1, h.2.2.2 _⟩

/-- C2. A `Put` at instant `t` of a session with zero expiry stores the same user with
expiry `t + 4h`; a `Get` at any `now` with `t ≤ now ≤ t + 4h` returns that session, and its
expiry lies in `[now, now + 4h]`. -/
theorem Put_default_expiry (s : storage) (gcCount : Int) (id : String) (item : session)
    (t now : Int) (hzero : item.Expires = 0) (h1 : t ≤ now) (h2 : now ≤ t + 4 * Hour) :
    (storage.Put s gcCount t id item).1 = none ∧
    (storage.Put s gcCount t id item).2.1 id =
      some { Expires := t + 4 * Hour, User := item.User } ∧
    (storage.Get (storage.Put s gcCount t id item).2.1 now id).1 =
      ({ Expires := t + 4 * Hour, User := item.User }, none) ∧
    now ≤ (storage.Get (storage.Put s gcCount t id item).2.1 now id).1.1.Expires ∧
    (storage.Get (storage.Put s gcCount t id item).2.1 now id).1.1.Expires ≤ now + 4 * Hour := by
  have hp := Hour_pos
  have hstore : (storage.Put s gcCount t id item).2.1 id =
      some { Expires := t + 4 * Hour, User := item.User } := by
    rw [Put_result]
    by_cases h : wrapInt (gcCount + 1) ≥ 1000
    · have hnb : ¬ (t + 4 * Hour < t) := by omega
      simp [h, hzero, storage.sweep, storage.assign, Time.Before, hnb]
    · simp [h, hzero, storage.assign]
  have hget : (storage.Get (storage.Put s gcCount t id item).2.1 now id).1 =
      ({ Expires := t + 4 * Hour, User := item.User }, none) := by
    have hnb : ¬ (t + 4 * Hour < now) := by omega
    simp [storage.Get, hstore, Time.Before, hnb]
  refine ⟨by rw [Put_result], hstore, hget, ?_, ?_⟩
  · rw [hget]; exact h2
  · rw [hget]; show t + 4 * Hour ≤ now + 4 * Hour; omega

/-- A session put at the Unix epoch without expiry is returned one hour later, with expiry
four hours after the epoch. -/
theorem Put_default_expiry_witness :
    (storage.Get (storage.Put (fun _ => none) 0 unixEpoch "sessionId" ⟨0, "user"⟩).2.1
        (unixEpoch + Hour) "sessionId").1 = (⟨unixEpoch + 4 * Hour, "user"⟩, none) :=
  (Put_default_expiry (fun _ => none) 0 "sessionId" ⟨0, "user"⟩ unixEpoch (unixEpoch + Hour)
    rfl (by norm_num [Hour]) (by norm_num [Hour])).2.2.1

/-- Below the threshold a `Put` only assigns and counts. -/
theorem Put_below_threshold (s : storage) (g now : Int) (id : String) (item : session)
    (h0 : 0 ≤ g) (h1 : g < 999) :
    storage.Put s g now id item =
      (none,
       s.assign id (if item.Expires = 0 then { item with Expires := now + 4 * Hour } else item),
       g + 1) := by
  have hw : wrapInt (g + 1) = g + 1 := wrapInt_small _ (by omega) (by omega)
  have hlt : ¬ (g + 1 ≥ 1000) := by omega
  rw [Put_result, hw]
  simp [hlt]

/-- At the threshold a `Put` assigns, sweeps and resets the counter. -/
theorem Put_at_threshold (s : storage) (now : Int) (id : String) (item : session) :
    storage.Put s 999 now id item =
      (none,
       (s.assign id
         (if item.Expires = 0 then { item with Expires := now + 4 * Hour } else item)).sweep now,
       0) := by
  have hw : wrapInt (999 + 1) = 1000 := by
    rw [wrapInt_small _ (by omega) (by omega)]; rfl
  rw [Put_result, hw]
  simp

/-- The counter after a run of `Put` calls that stays below the threshold. -/
theorem runPuts_gcCount (calls : List PutCall) (s : storage) (g : Int)
    (h0 : 0 ≤ g) (h1 : g + calls.length < 1000) :
    (runPuts s g calls).2 = g + calls.length := by
  induction calls generalizing s g with
  | nil => simp [runPuts]
  | cons c cs ih =>
    simp only [List.length_cons, Nat.cast_add, Nat.cast_one] at h1
    have hstep := Put_below_threshold s g c.now c.sessionID c.item h0 (by omega)
    simp only [runPuts, hstep]
    rw [ih _ (g + 1) (by omega) (by omega)]
    simp only [List.length_cons, Nat.cast_add, Nat.cast_one]
    omega

/-- C3. Starting from a counter of 0, each of the next 999 `Put` calls raises the counter by
one and changes no entry but the one it writes, which is present afterwards; the 1000th
removes every entry whose expiry is before its instant, keeps the others, and resets the
counter to 0. -/
theorem Put_sweeps_on_thousandth (s : storage) (calls : List PutCall) (last : PutCall)
    (hlen : calls.length = 999) :
    (∀ n c, calls.get? n = some c →
      (runPuts s 0 (calls.take n)).2 = n ∧
      (storage.Put (runPuts s 0 (calls.take n)).1 (runPuts s 0 (calls.take n)).2
        c.now c.sessionID c.item).2.2 = n + 1 ∧
      (∀ k, k ≠ c.sessionID →
        (storage.Put (runPuts s 0 (calls.take n)).1 (runPuts s 0 (calls.take n)).2
          c.now c.sessionID c.item).2.1 k = (runPuts s 0 (calls.take n)).1 k) ∧
      ((storage.Put (runPuts s 0 (calls.take n)).1 (runPuts s 0 (calls.take n)).2
          c.now c.sessionID c.item).2.1 c.sessionID).isSome = true) ∧
    ((runPuts s 0 calls).2 = 999 ∧
      (storage.Put (runPuts s 0 calls).1 (runPuts s 0 calls).2
        last.now last.sessionID last.item).2.2 = 0 ∧
      (∀ k v, (storage.Put (runPuts s 0 calls).1 (runPuts s 0 calls).2
          last.now last.sessionID last.item).2.1 k = some v → ¬ v.Expires < last.now) ∧
      (∀ k v, k ≠ last.sessionID → (runPuts s 0 calls).1 k = some v →
        (storage.Put (runPuts s 0 calls).1 (runPuts s 0 calls).2
          last.now last.sessionID last.item).2.1 k =
            if v.Expires < last.now then none else some v)) := by
  constructor
  · intro n c hc
    have hn : n < calls.length := by
      rcases Nat.lt_or_ge n calls.length with h | h
      · exact h
      · rw [List.get?_eq_none.2 h] at hc; cases hc
    have htake : (calls.take n).length = n := by
      rw [List.length_take]; omega
    have hg : (runPuts s 0 (calls.take n)).2 = n := by
      rw [runPuts_gcCount _ s 0 (by omega) (by rw [htake]; omega), htake]; simp
    rw [hg, Put_below_threshold _ n c.now c.sessionID c.item (by omega) (by omega)]
    refine ⟨rfl, rfl, ?_, ?_⟩
    · intro k hk
      simp [storage.assign, hk]
    · simp [storage.assign]
  · have hg : (runPuts s 0 calls).2 = 999 := by
      rw [runPuts_gcCount _ s 0 (by omega) (by rw [hlen]; omega), hlen]; simp
    rw [hg, Put_at_threshold]
    refine ⟨rfl, rfl, ?_, ?_⟩
    · intro k v hv
      simp only [storage.sweep] at hv
      split at hv
      · rename_i w hw
        by_cases hb : Time.Before w.Expires last.now = true
        · simp [hb] at hv
        · simp only [hb] at hv
          have : w = v := by simpa using hv
          subst this
          simpa [Time.Before] using hb
      · cases hv
    · intro k v hk hv
      simp [storage.sweep, storage.assign, hk, hv, Time.Before]

/-- 999 calls from a counter of 0 leave the counter at 999, and the next call resets it. -/
theorem Put_sweeps_on_thousandth_witness :
    (runPuts (fun _ => none) 0 sampleCalls).2 = 999 ∧
    (storage.Put (runPuts (fun _ => none) 0 sampleCalls).1
      (runPuts (fun _ => none) 0 sampleCalls).2
      sampleLast.now sampleLast.sessionID sampleLast.item).2.2 = 0 :=
  have h := (Put_sweeps_on_thousandth (fun _ => none) sampleCalls sampleLast
    (by unfold sampleCalls; exact List.length_replicate _ _)).2
  ⟨h.1, h.2.1⟩

/-! ## Theorems: the dispatcher -/

/-- Stages that do not end the chain are run one after the other by the dispatcher's loop,
which then goes on with the remaining stages. -/
theorem serveStages_append (lib : GoLib) (pre rest : List appMiddleware) (st st1 : State)
    (r : Request) (h : runAll pre st r = some st1) :
    serveStages lib (pre ++ rest) st r = serveStages lib rest st1 r := by
  induction pre generalizing st with
  | nil =>
    simp only [runAll, Option.some.injEq] at h
    subst h
    rfl
  | cons g gs ih =>
    simp only [runAll] at h
    simp only [List.cons_append, serveStages]
    rcases hg : g st r with ⟨res, st2⟩
    rw [hg] at h
    cases res with
    | panicked msg => simp at h
    | returned p =>
      obtain ⟨status, err⟩ := p
      simp only at h
      split at h
      · cases h
      · rename_i hcont
        cases err with
        | none => exact ih st2 h
        | some e =>
          have hlt : ¬ status ≥ 400 := by
            intro hge
            exact hcont ⟨rfl, hge⟩
          simp only [hlt, if_false]
          exact ih st2 h

/-- C4. The dispatcher runs the stages in list order.  It stops right after the first stage
that returns an error together with a status of 400 or more: the result is the error
response written on the state left by that stage, whatever stages follow.  A stage that
returns no error, or an error with a status below 400, does not stop the loop.  When no
stage stops it, the result is the state left by running every stage once, in order, and the
dispatcher writes nothing itself. -/
theorem ServeHTTP_runs_until_first_error (lib : GoLib) (a : app) (st : State) (r : Request) :
    (∀ pre h post st1 st2 status e,
      runAll pre { st with c := { SessionID := "", LoggedUser := "", UserID := "" } } r =
        some st1 →
      h st1 r = (.returned (status, some e), st2) → status ≥ 400 →
      appHandler.ServeHTTP lib ⟨a, pre ++ h :: post⟩ st r =
        (.returned (), { st2 with w := writeErrorResponse lib st2.w status e })) ∧
    (∀ h hs st1 st2 status err,
      h st1 r = (.returned (status, err), st2) → (err = none ∨ status < 400) →
      serveStages lib (h :: hs) st1 r = serveStages lib hs st2 r) ∧
    (∀ hs st1,
      runAll hs { st with c := { SessionID := "", LoggedUser := "", UserID := "" } } r =
        some st1 →
      appHandler.ServeHTTP lib ⟨a, hs⟩ st r = (.returned (), st1)) := by
  refine ⟨?_, ?_, ?_⟩
  · intro pre h post st1 st2 status e hpre hh hge
    unfold appHandler.ServeHTTP
    simp only
    rw [serveStages_append lib pre (h :: post) _ st1 r hpre]
    simp only [serveStages, hh, hge, if_true]
  · intro h hs st1 st2 status err hh hcont
    simp only [serveStages, hh]
    cases err with
    | none => rfl
    | some e =>
      rcases hcont with hnone | hlt
      · cases hnone
      · have : ¬ status ≥ 400 := by omega
        simp only [this, if_false]
  · intro hs st1 hall
    unfold appHandler.ServeHTTP
    simp only
    have := serveStages_append lib hs [] _ st1 r hall
    rw [List.append_nil] at this
    rw [this]
    rfl

/-! ## Theorems: session resolution -/

/-- The entry written by `Put` is present afterwards when it is not expired at the instant
of the call. -/
theorem Put_entry (s : storage) (g now : Int) (id : String) (item : session)
    (h : ¬ (if item.Expires = 0 then { item with Expires := now + 4 * Hour } else item).Expires
      < now) :
    (storage.Put s g now id item).2.1 id =
      some (if item.Expires = 0 then { item with Expires := now + 4 * Hour } else item) := by
  rw [Put_result]
  by_cases hg : wrapInt (g + 1) ≥ 1000
  · simp only [hg, if_true, storage.sweep, storage.assign]
    simp [Time.Before, h]
  · simp [hg, storage.assign]

/-- What `createNewSession` leaves behind. -/
theorem createNewSession_spec (a : app) (st : State) :
    (createNewSession a st).c =
      { st.c with SessionID := generateSessionID st.rand, LoggedUser := "" } ∧
    (createNewSession a st).Store (generateSessionID st.rand) =
      some { Expires := st.now + 4 * Hour, User := "" } ∧
    (createNewSession a st).w.Cookies = st.w.Cookies ++
      [{ sessionCookie (generateSessionID st.rand) with
          Secure := a.Options.UseSecureCookie, HttpOnly := a.Options.UseSecureCookie }] ∧
    (createNewSession a st).now = st.now := by
  have hp := Hour_pos
  have hne : ¬ (st.now + 4 * Hour < st.now) := by omega
  have hput := Put_entry st.Store st.gcCount st.now (generateSessionID st.rand)
    { Expires := 0, User := "" } (by simpa using hne)
  refine ⟨rfl, ?_, ?_, rfl⟩
  · simpa [createNewSession, State.Put] using hput
  · cases hs : a.Options.UseSecureCookie <;>
      simp [createNewSession, State.Put, setSecureCookie, SetCookie, hs]

/-- The method `r.Cookie` yields a cookie and no error, or no cookie and an error. -/
theorem Request.Cookie_cases (r : Request) (name : String) :
    (∃ cookie, r.Cookie name = (some cookie, none)) ∨
    r.Cookie name = (none, some "http: named cookie not present") := by
  unfold Request.Cookie
  cases r.Cookies.find? fun c => decide (c.1 = name) with
  | none => right; rfl
  | some c => left; exact ⟨c, rfl⟩

/-- Session resolution with a cookie that names a stored, unexpired session. -/
theorem sessionHandler_valid (a : app) (st : State) (r : Request) (cookie : String × String)
    (item : session) (hc : r.Cookie "mpindemo_session" = (some cookie, none))
    (hs : st.Store cookie.2 = some item) (he : ¬ item.Expires < st.now) :
    sessionHandler a st r =
      (.returned (200, none),
        State.Put
          { st with
            c := { st.c with SessionID := cookie.2, LoggedUser := item.User },
            w := setSecureCookie st.w (sessionCookie cookie.2) a.Options.UseSecureCookie }
          cookie.2 item) := by
  have hget : storage.Get st.Store st.now cookie.2 = ((item, none), st.Store) :=
    Get_live st.Store cookie.2 st.now item hs he
  cases hsec : a.Options.UseSecureCookie <;>
    simp [sessionHandler, getSecureCookie, hc, State.Get, hget, hsec]

/-- Session resolution in every other case creates a new session, on a state that differs
from the given one at most in the store. -/
theorem sessionHandler_new (a : app) (st : State) (r : Request)
    (h : (r.Cookie "mpindemo_session").1 = none ∨
      ∃ cookie, r.Cookie "mpindemo_session" = (some cookie, none) ∧
        (st.Store cookie.2 = none ∨
          ∃ item, st.Store cookie.2 = some item ∧ item.Expires < st.now)) :
    ∃ st1 : State, sessionHandler a st r = (.returned (200, none), createNewSession a st1) ∧
      st1.c = st.c ∧ st1.w = st.w ∧ st1.now = st.now ∧ st1.rand = st.rand := by
  rcases Request.Cookie_cases r "mpindemo_session" with ⟨cookie, hc⟩ | hc
  · rcases h with h | ⟨cookie2, hc2, h⟩
    · rw [hc] at h; cases h
    · rw [hc] at hc2
      have hck : cookie2 = cookie := by
        have := congrArg Prod.fst hc2
        simpa using this.symm
      subst hck
      rcases h with hnone | ⟨item, hs, hlt⟩
      · have hget := Get_absent st.Store cookie2.2 st.now hnone
        refine ⟨st, ?_, rfl, rfl, rfl, rfl⟩
        cases hsec : a.Options.UseSecureCookie <;>
          simp [sessionHandler, getSecureCookie, hc, State.Get, hget, hsec]
      · have hget := Get_expired st.Store cookie2.2 st.now item hs hlt
        refine ⟨{ st with Store := st.Store.remove cookie2.2 }, ?_, rfl, rfl, rfl, rfl⟩
        cases hsec : a.Options.UseSecureCookie <;>
          simp [sessionHandler, getSecureCookie, hc, State.Get, hget, hsec]
  · refine ⟨st, ?_, rfl, rfl, rfl, rfl⟩
    simp [sessionHandler, getSecureCookie, hc]

/-- C5. The session stage always returns `(200, nil)`.  With a cookie that names a stored,
unexpired session the context takes that id and the stored user.  In every other case (no
cookie, id not stored, session expired) a new session is stored under the generated id with
an empty user and expiry `now + 4h`, and the context takes the new id and an empty user.
In all cases exactly one cookie is added, named `mpindemo_session`, whose value is the
context's session id and whose `MaxAge` is 14400, and `Get` of the context's session id
succeeds with the context's user. -/
theorem sessionHandler_resolves_session (a : app) (st : State) (r : Request) :
    (sessionHandler a st r).1 = .returned (200, none) ∧
    (∀ cookie item, r.Cookie "mpindemo_session" = (some cookie, none) →
      st.Store cookie.2 = some item → ¬ item.Expires < st.now →
      (sessionHandler a st r).2.c.SessionID = cookie.2 ∧
      (sessionHandler a st r).2.c.LoggedUser = item.User) ∧
    (((r.Cookie "mpindemo_session").1 = none ∨
      ∃ cookie, r.Cookie "mpindemo_session" = (some cookie, none) ∧
        (st.Store cookie.2 = none ∨
          ∃ item, st.Store cookie.2 = some item ∧ item.Expires < st.now)) →
      (sessionHandler a st r).2.c.SessionID = generateSessionID st.rand ∧
      (sessionHandler a st r).2.c.LoggedUser = "" ∧
      (sessionHandler a st r).2.Store (generateSessionID st.rand) =
        some { Expires := st.now + 4 * Hour, User := "" }) ∧
    (sessionHandler a st r).2.w.Cookies = st.w.Cookies ++
      [{ Name := "mpindemo_session", Value := (sessionHandler a st r).2.c.SessionID,
         MaxAge := 14400, Secure := a.Options.UseSecureCookie,
         HttpOnly := a.Options.UseSecureCookie, Expires := 0 }] ∧
    ∃ item, (storage.Get (sessionHandler a st r).2.Store st.now
        (sessionHandler a st r).2.c.SessionID).1 = (item, none) ∧
      item.User = (sessionHandler a st r).2.c.LoggedUser := by
  have hp := Hour_pos
  -- every request is in exactly one of the two cases
  have hcases : (∃ cookie item, r.Cookie "mpindemo_session" = (some cookie, none) ∧
        st.Store cookie.2 = some item ∧ ¬ item.Expires < st.now) ∨
      ((r.Cookie "mpindemo_session").1 = none ∨
        ∃ cookie, r.Cookie "mpindemo_session" = (some cookie, none) ∧
          (st.Store cookie.2 = none ∨
            ∃ item, st.Store cookie.2 = some item ∧ item.Expires < st.now)) := by
    rcases Request.Cookie_cases r "mpindemo_session" with ⟨cookie, hc⟩ | hc
    · cases hs : st.Store cookie.2 with
      | none => exact Or.inr (Or.inr ⟨cookie, hc, Or.inl hs⟩)
      | some item =>
        by_cases he : item.Expires < st.now
        · exact Or.inr (Or.inr ⟨cookie, hc, Or.inr ⟨item, hs, he⟩⟩)
        · exact Or.inl ⟨cookie, item, hc, hs, he⟩
    · exact Or.inr (Or.inl (by rw [hc]))
  rcases hcases with ⟨cookie, item, hc, hs, he⟩ | hnew
  · -- a valid session
    have hv := sessionHandler_valid a st r cookie item hc hs he
    have hkeep : ¬ (if item.Expires = 0 then { item with Expires := st.now + 4 * Hour }
        else item).Expires < st.now := by
      by_cases hz : item.Expires = 0
      · simp only [hz, if_true]; omega
      · simpa only [hz, if_false] using he
    have hput := Put_entry st.Store st.gcCount st.now cookie.2 item hkeep
    refine ⟨by rw [hv], ?_, ?_, ?_, ?_⟩
    · intro cookie2 item2 hc2 hs2 _
      rw [hc] at hc2
      have hck : cookie2 = cookie := by
        have := congrArg Prod.fst hc2
        simpa using this.symm
      subst hck
      rw [hs] at hs2
      have hit : item2 = item := by simpa using hs2.symm
      subst hit
      rw [hv]
      exact ⟨rfl, rfl⟩
    · intro hother
      exfalso
      rcases hother with h | ⟨cookie2, hc2, h⟩
      · rw [hc] at h; cases h
      · rw [hc] at hc2
        have hck : cookie2 = cookie := by
          have := congrArg Prod.fst hc2
          simpa using this.symm
        subst hck
        rcases h with hnone | ⟨item2, hs2, hlt⟩
        · rw [hs] at hnone; cases hnone
        · rw [hs] at hs2
          have hit : item2 = item := by simpa using hs2.symm
          subst hit
          exact he hlt
    · rw [hv]
      cases hsec : a.Options.UseSecureCookie <;>
        simp [State.Put, setSecureCookie, SetCookie, sessionCookie, hsec]
    · rw [hv]
      refine ⟨if item.Expires = 0 then { item with Expires := st.now + 4 * Hour } else item,
        ?_, ?_⟩
      · have hg := Get_live (storage.Put st.Store st.gcCount st.now cookie.2 item).2.1
          cookie.2 st.now _ hput hkeep
        simpa [State.Put] using congrArg Prod.fst hg
      · by_cases hz : item.Expires = 0 <;> simp [hz, State.Put]
  · -- a new session
    obtain ⟨st1, hn, hc1, hw1, hnow1, hrand1⟩ := sessionHandler_new a st r hnew
    obtain ⟨hctx, hstore, hcookies, hnow⟩ := createNewSession_spec a st1
    refine ⟨by rw [hn], ?_, ?_, ?_, ?_⟩
    · intro cookie item hc hs he
      exfalso
      rcases hnew with h | ⟨cookie2, hc2, h⟩
      · rw [hc] at h; cases h
      · rw [hc] at hc2
        have hck : cookie2 = cookie := by
          have := congrArg Prod.fst hc2
          simpa using this.symm
        subst hck
        rcases h with hnone | ⟨item2, hs2, hlt⟩
        · rw [hs] at hnone; cases hnone
        · rw [hs] at hs2
          have hit : item2 = item := by simpa using hs2.symm
          subst hit
          exact he hlt
    · intro _
      rw [hn]
      refine ⟨by rw [hctx, hrand1], by rw [hctx], ?_⟩
      rw [← hrand1, ← hnow1]
      exact hstore
    · rw [hn]
      simp only [hcookies, hctx, hw1, hrand1, sessionCookie]
      norm_num
    · rw [hn]
      refine ⟨{ Expires := st.now + 4 * Hour, User := "" }, ?_, ?_⟩
      · have hne : ¬ (st.now + 4 * Hour < st.now) := by omega
        have hstore2 : (createNewSession a st1).Store (createNewSession a st1).c.SessionID =
            some { Expires := st.now + 4 * Hour, User := "" } := by
          rw [hctx]; simpa [hnow1] using hstore
        have hg := Get_live (createNewSession a st1).Store
          (createNewSession a st1).c.SessionID st.now _ hstore2 (by simpa using hne)
        simpa using congrArg Prod.fst hg
      · simp [hctx]

/-- The valid-session test: the cookie names a session of user "foo". -/
theorem sessionHandler_resolves_session_witness :
    (sessionHandler testApp
      { startState unixEpoch with
        Store := storage.assign (fun _ => none) "123" ⟨unixEpoch + Hour, "foo"⟩ }
      { NewRequest "GET" "/" none with Cookies := [("mpindemo_session", "123")] }).2.c.SessionID
        = "123" ∧
    (sessionHandler testApp
      { startState unixEpoch with
        Store := storage.assign (fun _ => none) "123" ⟨unixEpoch + Hour, "foo"⟩ }
      { NewRequest "GET" "/" none with Cookies := [("mpindemo_session", "123")] }).2.c.LoggedUser
        = "foo" :=
  (sessionHandler_resolves_session testApp
      { startState unixEpoch with
        Store := storage.assign (fun _ => none) "123" ⟨unixEpoch + Hour, "foo"⟩ }
      { NewRequest "GET" "/" none with Cookies := [("mpindemo_session", "123")] }).2.1
    ("mpindemo_session", "123") ⟨unixEpoch + Hour, "foo"⟩
    (by simp [Request.Cookie, NewRequest])
    (by simp [storage.assign])
    (by norm_num [startState, Hour])

/-! ## Theorems: login result -/

theorem utf8Len_pos (c : Char) : 0 < utf8Len c := by
  unfold utf8Len
  split_ifs <;> omega

/-- A Go string has length 0 exactly when it is empty. -/
theorem len_eq_zero_iff (s : String) : len s = 0 ↔ s = "" := by
  obtain ⟨data⟩ := s
  cases data with
  | nil => simp [len]
  | cons c cs =>
    have := utf8Len_pos c
    constructor
    · intro h
      simp only [len, List.map_cons, List.sum_cons] at h
      omega
    · intro h
      have : (String.mk (c :: cs)).data = ("" : String).data := by rw [h]
      simp at this

/-- C6. `sendLoginResult` always returns a nil error.  For a status other than 200, and for
an empty session id, it leaves the store and its counter as they are.  For status 200 and a
non-empty session id it does one `Put` of the authenticated user with no expiry under the
session id, so that the entry there becomes the user with expiry `now + 4h`. -/
theorem sendLoginResult_store (o : options) (Fetch : FetchCall → FetchReply) (st : State)
    (userID authOTT : String) (status : Int) (message : String) :
    (sendLoginResult o Fetch st userID authOTT status message).1 = none ∧
    ((status ≠ 200 ∨ st.c.SessionID = "") →
      (sendLoginResult o Fetch st userID authOTT status message).2.Store = st.Store ∧
      (sendLoginResult o Fetch st userID authOTT status message).2.gcCount = st.gcCount) ∧
    (status = 200 → st.c.SessionID ≠ "" →
      (sendLoginResult o Fetch st userID authOTT status message).2.Store =
        (storage.Put st.Store st.gcCount st.now st.c.SessionID ⟨0, userID⟩).2.1 ∧
      (sendLoginResult o Fetch st userID authOTT status message).2.Store st.c.SessionID =
        some { Expires := st.now + 4 * Hour, User := userID }) := by
  have hp := Hour_pos
  by_cases hs : status = 200
  · by_cases hid : st.c.SessionID = ""
    · have hlen : ¬ (len st.c.SessionID > 0) := by
        rw [(len_eq_zero_iff _).2 hid]; omega
      refine ⟨?_, ?_, ?_⟩
      · simp [sendLoginResult, hs, hlen]
      · intro _
        simp [sendLoginResult, hs, hlen]
      · intro _ hne
        exact absurd hid hne
    · have hlen : len st.c.SessionID > 0 := by
        rcases Nat.eq_zero_or_pos (len st.c.SessionID) with h | h
        · exact absurd ((len_eq_zero_iff _).1 h) hid
        · exact h
      refine ⟨?_, ?_, ?_⟩
      · simp [sendLoginResult, hs, hlen]
      · intro h
        rcases h with h | h
        · exact absurd hs h
        · exact absurd h hid
      · intro _ _
        have hne : ¬ (st.now + 4 * Hour < st.now) := by omega
        have hput := Put_entry st.Store st.gcCount st.now st.c.SessionID ⟨0, userID⟩
          (by simpa using hne)
        have hres : (sendLoginResult o Fetch st userID authOTT status message).2.Store =
            (storage.Put st.Store st.gcCount st.now st.c.SessionID ⟨0, userID⟩).2.1 := by
          simp [sendLoginResult, hs, hlen, State.Put]
        refine ⟨hres, ?_⟩
        rw [hres]
        simpa using hput
  · refine ⟨?_, ?_, ?_⟩
    · simp [sendLoginResult, hs]
    · intro _
      simp [sendLoginResult, hs]
    · intro h
      exact absurd h hs

/-! ## Theorems: activation -/

/-- The allow-list check of a handler passes exactly for a listed method, and sets the
header either way. -/
theorem checkAllowedMethods_listed (r : Request) (w : ResponseWriter) (methods : List String)
    (h : methodListed r.Method methods = true) :
    checkAllowedMethods r w methods =
      ((200, none), w.Set "Access-Control-Allow-Methods" (join methods ",")) := by
  simp [checkAllowedMethods, h]

/-- C7 (the code against the claim). For a GET or POST request `activateHandler` returns
status 200 only when `verifySignature` reports no error; whenever `verifySignature` reports
an error, which it does for every link that is expired, has an empty user id or cannot be
decoded, the handler returns status 500 with that error and renders no page. -/
theorem activateHandler_status (lib : GoLib) (a : app) (st : State) (r : Request)
    (hm : r.Method = "GET" ∨ r.Method = "POST") :
    (∀ e, (verifySignature lib
        { st with w := st.w.Set "Access-Control-Allow-Methods" "GET,POST" } r).1.2 = some e →
      activateHandler lib a st r =
        (.returned (500, some e), (verifySignature lib
          { st with w := st.w.Set "Access-Control-Allow-Methods" "GET,POST" } r).2)) ∧
    ((verifySignature lib
        { st with w := st.w.Set "Access-Control-Allow-Methods" "GET,POST" } r).1.2 = none →
      (activateHandler lib a st r).1 = .returned (200, none)) := by
  have hl : methodListed r.Method ["GET", "POST"] = true := by
    rcases hm with h | h <;> simp [methodListed, h]
  have hc := checkAllowedMethods_listed r st.w ["GET", "POST"] hl
  have hj : join ["GET", "POST"] "," = "GET,POST" := by decide
  rw [hj] at hc
  constructor
  · intro e he
    unfold activateHandler
    rw [hc]
    simp only
    rcases hv : verifySignature lib
      { st with w := st.w.Set "Access-Control-Allow-Methods" "GET,POST" } r with ⟨⟨s, err⟩, st2⟩
    rw [hv] at he
    simp only at he
    subst he
    rfl
  · intro he
    unfold activateHandler
    rw [hc]
    simp only
    rcases hv : verifySignature lib
      { st with w := st.w.Set "Access-Control-Allow-Methods" "GET,POST" } r with ⟨⟨s, err⟩, st2⟩
    rw [hv] at he
    simp only at he
    subst he
    rfl

/-- The expired case of `testSignatureData`, at the instant `year2016`: the handler answers
with status 500 and the error "Link expired". -/
theorem activateHandler_status_witness :
    (activateHandler testLib testApp (startState year2016)
      (testLinkRequest testIdentity "2000-01-01T00:00:00Z" "dsfdsfasfdsf" none)).1 =
      .returned (500, some "Link expired") :=
  congrArg Prod.fst
    ((activateHandler_status testLib testApp (startState year2016)
      (testLinkRequest testIdentity "2000-01-01T00:00:00Z" "dsfdsfasfdsf" none)
      (Or.inr rfl)).1 "Link expired" (by decide))

/-! ## Theorems: authentication -/

/-- C9 (the code against the claim). The body
`{"mpinResponse": {"authOTT": <64 hex digits>}, "Dummy": "dummy"}` has a top-level key other
than `mpinResponse`.  When `range` visits `mpinResponse` first, the first loop leaves with
`break`, the other key is never looked at, and the handler goes on to call `Authenticate`
with the token: with the doubles of the test it returns status 200, not 400.  When `range`
visits the keys in the opposite order, the same body is rejected with status 400. -/
theorem authenticateUserHandler_extra_key_accepted :
    (∀ (a : app) (st : State),
      authenticateUserHandler a { st with mapOrder := fun ks => ks }
        (NewRequest "POST" "/"
          (some (.obj [("mpinResponse", .obj [("authOTT",
            .str "1234567890abcdefABCDEF1234567890abcdefABCDEF1234567890abcdefABCD")]),
            ("Dummy", .str "dummy")]))) =
      authenticateReply a
        { st with mapOrder := fun ks => ks,
                  w := st.w.Set "Access-Control-Allow-Methods" "POST" }
        "1234567890abcdefABCDEF1234567890abcdefABCDEF1234567890abcdefABCD") ∧
    (authenticateUserHandler
        { testApp with Authenticate := fun st _ => (("foo", "It's a test", 200), st) }
        (startState unixEpoch)
        (NewRequest "POST" "/"
          (some (.obj [("mpinResponse", .obj [("authOTT",
            .str "1234567890abcdefABCDEF1234567890abcdefABCDEF1234567890abcdefABCD")]),
            ("Dummy", .str "dummy")])))).1 =
      .returned (200, some "It's a test") ∧
    (authenticateUserHandler
        { testApp with Authenticate := fun st _ => (("foo", "It's a test", 200), st) }
        { startState unixEpoch with mapOrder := List.reverse }
        (NewRequest "POST" "/"
          (some (.obj [("mpinResponse", .obj [("authOTT",
            .str "1234567890abcdefABCDEF1234567890abcdefABCDEF1234567890abcdefABCD")]),
            ("Dummy", .str "dummy")])))).1 =
      .returned (400, some "BAD REQUEST. INVALID KEY") := by
  refine ⟨?_, ?_, ?_⟩
  · intro a st
    rfl
  · rfl
  · rfl

/-- The loop over the keys of `rm` rejects exactly when some key is not one of the three
recognised ones. -/
theorem nestedKeyRejected_iff (ks : List String) :
    nestedKeyRejected ks = true ↔
      ∃ k ∈ ks, ¬ (k = "authOTT" ∨ k = "version" ∨ k = "pass") := by
  induction ks with
  | nil => simp [nestedKeyRejected]
  | cons k ks ih =>
    simp only [nestedKeyRejected, List.mem_cons, exists_eq_or_imp]
    by_cases hk : k = "authOTT" ∨ k = "version" ∨ k = "pass"
    · simp only [hk, if_true, not_true_eq_false, false_or]
      simpa using ih
    · simp [hk]

/-- A key is absent from the decoded map exactly when no member has that name. -/
theorem JSON.lookup_eq_none_iff (ms : List (String × JSON)) (key : String) :
    JSON.lookup ms key = none ↔ key ∉ ms.map Prod.fst := by
  induction ms with
  | nil => simp [JSON.lookup]
  | cons p ms ih =>
    obtain ⟨k, v⟩ := p
    simp only [JSON.lookup, List.map_cons, List.mem_cons, not_or]
    cases hl : JSON.lookup ms key with
    | some x =>
      have : ¬ (key ∉ ms.map Prod.fst) := fun h => by
        rw [ih.2 h] at hl; cases hl
      constructor
      · intro h; cases h
      · rintro ⟨_, h⟩; exact absurd h this
    | none =>
      have hn := ih.1 hl
      by_cases hk : k = key
      · simp only [hk, if_true]
        constructor
        · intro h; cases h
        · rintro ⟨h, _⟩; exact absurd trivial h
      · have hk2 : ¬ key = k := fun h => hk h.symm
        simp only [hk, if_false, true_iff]
        exact ⟨hk2, hn⟩

/-- Members none of whose names selects the field leave the struct as it is. -/
theorem unmarshalMpinResponse_no_field (ms : List (String × JSON)) (v : MpinResponse)
    (h : ∀ p ∈ ms, fieldMatch p.1 "authOTT" = false) :
    unmarshalMpinResponse v ms = (v, false) := by
  induction ms with
  | nil => rfl
  | cons p ms ih =>
    obtain ⟨k, x⟩ := p
    have hk : fieldMatch k "authOTT" = false := h (k, x) (List.mem_cons_self _ _)
    simp only [unmarshalMpinResponse, hk]
    exact ih fun p hp => h p (List.mem_cons_of_mem _ hp)

/-- Of the three recognised keys only `authOTT` selects the field `authOTT`. -/
theorem fieldMatch_recognised (k : String) (hk : k = "authOTT" ∨ k = "version" ∨ k = "pass") :
    fieldMatch k "authOTT" = decide (k = "authOTT") := by
  rcases hk with h | h | h <;> subst h <;> decide

/-- Decoding of an inner object whose keys are recognised and not repeated: the field takes
the value stored under `authOTT`, if there is one. -/
theorem unmarshalMpinResponse_recognised (rm : List (String × JSON)) (v : MpinResponse)
    (hall : ∀ k ∈ rm.map Prod.fst, k = "authOTT" ∨ k = "version" ∨ k = "pass")
    (hnodup : (rm.map Prod.fst).Nodup) :
    unmarshalMpinResponse v rm =
      match JSON.lookup rm "authOTT" with
      | some x => ({ AuthOTT := (setString v.AuthOTT x).1 }, (setString v.AuthOTT x).2)
      | none => (v, false) := by
  induction rm generalizing v with
  | nil => rfl
  | cons p ms ih =>
    obtain ⟨k, x⟩ := p
    simp only [List.map_cons, List.nodup_cons] at hnodup
    have hk := hall k (by simp)
    have hall2 : ∀ k ∈ ms.map Prod.fst, k = "authOTT" ∨ k = "version" ∨ k = "pass" :=
      fun k hk => hall k (by simp only [List.map_cons, List.mem_cons]; exact Or.inr hk)
    have hfm := fieldMatch_recognised k hk
    by_cases hka : k = "authOTT"
    · subst hka
      have hnone : JSON.lookup ms "authOTT" = none :=
        (JSON.lookup_eq_none_iff ms "authOTT").2 hnodup.1
      have hrest : ∀ p ∈ ms, fieldMatch p.1 "authOTT" = false := by
        intro p hp
        have hmem : p.1 ∈ ms.map Prod.fst := List.mem_map_of_mem _ hp
        rw [fieldMatch_recognised p.1 (hall2 p.1 hmem)]
        have : p.1 ≠ "authOTT" := fun h => hnodup.1 (h ▸ hmem)
        simp [this]
      simp only [unmarshalMpinResponse, hfm, decide_True, if_true, JSON.lookup, hnone,
        unmarshalMpinResponse_no_field ms _ hrest, Bool.or_false]
    · simp only [unmarshalMpinResponse, hfm, hka, decide_False, JSON.lookup]
      rw [ih v hall2 hnodup.2]
      cases JSON.lookup ms "authOTT" <;> simp

/-- A string of hexadecimal digits has as many bytes as characters. -/
theorem len_of_hex (cs : List Char) (h : ∀ c ∈ cs, isHexDigit c = true) :
    (cs.map utf8Len).sum = cs.length := by
  induction cs with
  | nil => rfl
  | cons c cs ih =>
    have hc := h c (List.mem_cons_self _ _)
    have h1 : utf8Len c = 1 := by
      unfold isHexDigit at hc
      unfold utf8Len
      simp only [Bool.or_eq_true, Bool.and_eq_true, decide_eq_true_eq] at hc
      have : c.toNat < 128 := by omega
      simp [this]
    simp only [List.map_cons, List.sum_cons, List.length_cons, h1]
    rw [ih fun c hc => h c (List.mem_cons_of_mem _ hc)]
    omega

/-- The two tests of the handler on the token pass exactly for 64 hexadecimal digits. -/
theorem token_tests_iff (tok : String) :
    (len tok = 64 ∧ matchNonHex tok = false) ↔
      (tok.length = 64 ∧ ∀ c ∈ tok.data, isHexDigit c = true) := by
  have hall : matchNonHex tok = false ↔ ∀ c ∈ tok.data, isHexDigit c = true := by
    simp [matchNonHex]
  constructor
  · rintro ⟨h1, h2⟩
    have ha := hall.1 h2
    have := len_of_hex tok.data ha
    refine ⟨?_, ha⟩
    unfold len at h1
    rw [String.length]
    omega
  · rintro ⟨h1, h2⟩
    have := len_of_hex tok.data h2
    refine ⟨?_, hall.2 h2⟩
    unfold len
    rw [String.length] at h1
    omega

/-- The handler on a POST body `{"mpinResponse": <object rm>}`, after the method check and
the first loop. -/
theorem authenticateUserHandler_nested_form (a : app) (st : State) (r : Request)
    (rm : List (String × JSON)) (hm : r.Method = "POST")
    (hb : r.Body = some (.obj [("mpinResponse", .obj rm)]))
    (hperm : ∀ ks, (st.mapOrder ks).Perm ks) :
    authenticateUserHandler a st r =
      if nestedKeyRejected (st.mapOrder (JSON.keys rm)) then
        (.returned (400, some "BAD REQUEST. INVALID KEY"),
          { st with w := st.w.Set "Access-Control-Allow-Methods" "POST" })
      else
        match JSON.lookup rm "authOTT" with
        | none =>
          (.returned (400, some "BAD REQUEST. INVALID KEY"),
            { st with w := st.w.Set "Access-Control-Allow-Methods" "POST" })
        | some _ =>
          match unmarshalMpinResponse { AuthOTT := "" } rm with
          | (_, true) =>
            (.returned (400, some "BAD REQUEST. INVALID JSON"),
              { st with w := st.w.Set "Access-Control-Allow-Methods" "POST" })
          | (v, false) =>
            if len v.AuthOTT ≠ 64 then
              (.returned (400, some "BAD REQUEST. AUTH OTT"),
                { st with w := st.w.Set "Access-Control-Allow-Methods" "POST" })
            else if matchNonHex v.AuthOTT then
              (.returned (400, some "BAD REQUEST. AUTH OTT"),
                { st with w := st.w.Set "Access-Control-Allow-Methods" "POST" })
            else
              authenticateReply a
                { st with w := st.w.Set "Access-Control-Allow-Methods" "POST" } v.AuthOTT := by
  have hl : methodListed r.Method ["POST"] = true := by simp [methodListed, hm]
  have hc := checkAllowedMethods_listed r st.w ["POST"] hl
  have hj : join ["POST"] "," = "POST" := by decide
  rw [hj] at hc
  have hkeys0 : JSON.keys [("mpinResponse", JSON.obj rm)] = ["mpinResponse"] := by
    simp [JSON.keys]
  have hkeys : st.mapOrder (JSON.keys [("mpinResponse", JSON.obj rm)]) = ["mpinResponse"] := by
    rw [hkeys0]
    exact List.perm_singleton.1 (hperm _)
  have hlook : JSON.lookup [("mpinResponse", JSON.obj rm)] "mpinResponse" =
      some (JSON.obj rm) := by
    simp [JSON.lookup]
  have hfm : fieldMatch "mpinResponse" "mpinResponse" = true := by decide
  have hdec : unmarshalAuthRPARequest (.obj [("mpinResponse", .obj rm)])
      { MpinResponse := { AuthOTT := "" } } =
      ({ MpinResponse := (unmarshalMpinResponse { AuthOTT := "" } rm).1 },
        (unmarshalMpinResponse { AuthOTT := "" } rm).2) := by
    simp [unmarshalAuthRPARequest, unmarshalAuthMembers, hfm]
  unfold authenticateUserHandler
  rw [hc]
  simp only [hb, hkeys, topLevelKeyRejected, hlook, decodeJSONRequest, hdec, if_true]
  by_cases hrej : nestedKeyRejected (st.mapOrder (JSON.keys rm)) = true
  · simp [hrej]
  · simp only [hrej]
    cases hlk : JSON.lookup rm "authOTT" with
    | none => simp
    | some x =>
      rcases hu : unmarshalMpinResponse { AuthOTT := "" } rm with ⟨v, bad⟩
      cases bad <;> simp

/-- The result of `verifySignature` for a link whose payload decodes and carries a user id. -/
theorem verifySignature_decoded (lib : GoLib) (st : State) (r : Request) (b : List Byte)
    (doc : JSON) (data : signatureData) (t : Int)
    (hform : r.ParseFormErr = none)
    (hhex : hexDecodeString ((getArgument r "i" "").headD "") = some b)
    (hjson : lib.jsonUnmarshal b = some doc)
    (hdata : unmarshalSignatureData doc { UserID := "", Issued := "", Mobile := 0 } =
      (data, false))
    (huser : data.UserID ≠ "")
    (htime : lib.timeParse "2006-01-02 15:04:05" data.Issued = some t) :
    (verifySignature lib st r).1 =
      if stringLess ((getArgument r "e" "").headD "") (lib.timeFormat st.now RFC3339) then
        ({ IsValid := false, Identity := (getArgument r "i" "").headD "",
           ErrorMessage := "Link expired", UserID := data.UserID, Issued := data.Issued,
           HumanIssued := lib.timeFormat t RFC822Z, Activated := false,
           DeviceName := if data.Mobile = 0 then "PC" else "Mobile",
           ActivateKey := (getArgument r "s" "").headD "" }, some "Link expired")
      else
        ({ IsValid := true, Identity := (getArgument r "i" "").headD "",
           ErrorMessage := "", UserID := data.UserID, Issued := data.Issued,
           HumanIssued := lib.timeFormat t RFC822Z, Activated := false,
           DeviceName := if data.Mobile = 0 then "PC" else "Mobile",
           ActivateKey := (getArgument r "s" "").headD "" }, none) := by
  have hlen : len data.UserID > 0 := by
    rcases Nat.eq_zero_or_pos (len data.UserID) with h | h
    · exact absurd ((len_eq_zero_iff _).1 h) huser
    · exact h
  unfold verifySignature
  simp only [hform, signature.zero, hhex, hjson, hdata, htime, hlen, if_true]
  by_cases he : stringLess ((getArgument r "e" "").headD "")
      (lib.timeFormat st.now RFC3339) = true <;>
    by_cases hmob : data.Mobile = 0 <;>
    simp only [he, hmob, if_true, if_false, ne_eq, not_true_eq_false, not_false_eq_true,
      Bool.not_false, Bool.not_true, Bool.false_eq_true]

/-- C8, amended. `verifySignature` returns a valid signature and a nil error exactly when
the form of the request parses and the link satisfies the condition of the specification.
For a link whose payload decodes and carries a user id: when the expiry is not smaller than
the present, the signature is valid, with the user id and issue time of the payload, the
identity and activation key of the `i` and `s` parameters, device name "PC" for
`mobile == 0` and "Mobile" otherwise, and the issue time formatted as RFC822Z; when the
expiry is smaller, the signature is invalid and the error is "Link expired". -/
theorem verifySignature_valid_iff (lib : GoLib) (st : State) (r : Request) :
    (((verifySignature lib st r).1.1.IsValid = true ∧ (verifySignature lib st r).1.2 = none) ↔
      (r.ParseFormErr = none ∧
        linkValid lib st.now ((getArgument r "i" "").headD "")
          ((getArgument r "e" "").headD ""))) ∧
    (∀ b doc data t, r.ParseFormErr = none →
      hexDecodeString ((getArgument r "i" "").headD "") = some b →
      lib.jsonUnmarshal b = some doc →
      unmarshalSignatureData doc { UserID := "", Issued := "", Mobile := 0 } = (data, false) →
      data.UserID ≠ "" →
      lib.timeParse "2006-01-02 15:04:05" data.Issued = some t →
      (stringLess ((getArgument r "e" "").headD "") (lib.timeFormat st.now RFC3339) = false →
        (verifySignature lib st r).1 =
          ({ IsValid := true, Identity := (getArgument r "i" "").headD "",
             ErrorMessage := "", UserID := data.UserID, Issued := data.Issued,
             HumanIssued := lib.timeFormat t RFC822Z, Activated := false,
             DeviceName := if data.Mobile = 0 then "PC" else "Mobile",
             ActivateKey := (getArgument r "s" "").headD "" }, none)) ∧
      (stringLess ((getArgument r "e" "").headD "") (lib.timeFormat st.now RFC3339) = true →
        (verifySignature lib st r).1.1.IsValid = false ∧
        (verifySignature lib st r).1.1.ErrorMessage = "Link expired" ∧
        (verifySignature lib st r).1.2 = some "Link expired")) := by
  constructor
  · constructor
    · rintro ⟨hvalid, herr⟩
      cases hform : r.ParseFormErr with
      | some e =>
        have hf : (verifySignature lib st r).1.1.IsValid = false := by
          unfold verifySignature
          simp only [hform, signature.zero]
        rw [hf] at hvalid
        cases hvalid
      | none =>
        refine ⟨rfl, ?_⟩
        cases hhex : hexDecodeString ((getArgument r "i" "").headD "") with
        | none =>
          have hf : (verifySignature lib st r).1.1.IsValid = false := by
            unfold verifySignature
            simp only [hform, hhex, signature.zero]
          rw [hf] at hvalid
          cases hvalid
        | some b =>
          cases hjson : lib.jsonUnmarshal b with
          | none =>
            have hf : (verifySignature lib st r).1.1.IsValid = false := by
              unfold verifySignature
              simp only [hform, hhex, hjson, signature.zero]
            rw [hf] at hvalid
            cases hvalid
          | some doc =>
            rcases hdata : unmarshalSignatureData doc { UserID := "", Issued := "", Mobile := 0 }
              with ⟨data, bad⟩
            cases bad with
            | true =>
              have hf : (verifySignature lib st r).1.1.IsValid = false := by
                unfold verifySignature
                simp only [hform, hhex, hjson, hdata, signature.zero]
              rw [hf] at hvalid
              cases hvalid
            | false =>
              cases htime : lib.timeParse "2006-01-02 15:04:05" data.Issued with
              | none =>
                have hf : (verifySignature lib st r).1.1.IsValid = false := by
                  unfold verifySignature
                  simp only [hform, hhex, hjson, hdata, htime, signature.zero]
                rw [hf] at hvalid
                cases hvalid
              | some t =>
                by_cases huser : data.UserID = ""
                · have hlen : ¬ (len data.UserID > 0) := by
                    rw [(len_eq_zero_iff _).2 huser]; omega
                  have hf : (verifySignature lib st r).1.1.IsValid = false := by
                    unfold verifySignature
                    simp only [hform, hhex, hjson, hdata, htime, hlen, signature.zero, if_false]
                  rw [hf] at hvalid
                  cases hvalid
                · have hd := verifySignature_decoded lib st r b doc data t hform hhex hjson
                    hdata huser htime
                  refine ⟨b, doc, data, t, hhex, hjson, hdata, huser, htime, ?_⟩
                  cases he : stringLess ((getArgument r "e" "").headD "")
                    (lib.timeFormat st.now RFC3339) with
                  | false => rfl
                  | true =>
                    rw [hd, if_pos he] at hvalid
                    cases hvalid
    · rintro ⟨hform, b, doc, data, t, hhex, hjson, hdata, huser, htime, he⟩
      have hd := verifySignature_decoded lib st r b doc data t hform hhex hjson hdata huser
        htime
      rw [hd, if_neg (by rw [he]; decide)]
      exact ⟨rfl, rfl⟩
  · intro b doc data t hform hhex hjson hdata huser htime
    have hd := verifySignature_decoded lib st r b doc data t hform hhex hjson hdata huser
      htime
    constructor
    · intro he
      rw [hd, if_neg (by rw [he]; decide)]
    · intro he
      rw [hd, if_pos he]
      exact ⟨rfl, rfl, rfl⟩

/-- The valid case of `testSignatureData`, at the instant `year2016`: the signature the
test expects. -/
theorem verifySignature_valid_iff_witness :
    (verifySignature testLib (startState year2016)
      (testLinkRequest testIdentity "2100-01-01T00:00:00Z" "dsfdsfasfdsf" none)).1 =
      ({ IsValid := true, Identity := testIdentity, ErrorMessage := "", UserID := "foo",
         Issued := "2000-01-01 00:00:00", HumanIssued := "01 Jan 00 00:00 +0000",
         Activated := false, DeviceName := "PC", ActivateKey := "dsfdsfasfdsf" }, none) :=
  ((verifySignature_valid_iff testLib (startState year2016)
      (testLinkRequest testIdentity "2100-01-01T00:00:00Z" "dsfdsfasfdsf" none)).2
    (bytesOf testPayload)
    (.obj [("userID", .str "foo"), ("issued", .str "2000-01-01 00:00:00"),
      ("mobile", .num "0")])
    { UserID := "foo", Issued := "2000-01-01 00:00:00", Mobile := 0 } year2000
    rfl (by decide) rfl (by decide) (by decide) (by decide)).1 (by decide)

/-- C8 as stated fails. The link of the valid case of `testSignatureData` satisfies the
condition of the specification, but in a request whose form does not parse (the query has
one more parameter, with a bad escape) `verifySignature` returns at once with the error of
`ParseForm` and a signature that is not valid. -/
theorem verifySignature_form_error_counterexample :
    linkValid testLib (startState year2016).now
      ((getArgument (testLinkRequest testIdentity "2100-01-01T00:00:00Z" "dsfdsfasfdsf"
        (some "invalid URL escape")) "i" "").headD "")
      ((getArgument (testLinkRequest testIdentity "2100-01-01T00:00:00Z" "dsfdsfasfdsf"
        (some "invalid URL escape")) "e" "").headD "") ∧
    (verifySignature testLib (startState year2016)
      (testLinkRequest testIdentity "2100-01-01T00:00:00Z" "dsfdsfasfdsf"
        (some "invalid URL escape"))).1 = (signature.zero, some "invalid URL escape") ∧
    ¬ ((verifySignature testLib (startState year2016)
        (testLinkRequest testIdentity "2100-01-01T00:00:00Z" "dsfdsfasfdsf"
          (some "invalid URL escape"))).1.1.IsValid = true ∧
      (verifySignature testLib (startState year2016)
        (testLinkRequest testIdentity "2100-01-01T00:00:00Z" "dsfdsfasfdsf"
          (some "invalid URL escape"))).1.2 = none) := by
  refine ⟨⟨bytesOf testPayload,
    .obj [("userID", .str "foo"), ("issued", .str "2000-01-01 00:00:00"), ("mobile", .num "0")],
    { UserID := "foo", Issued := "2000-01-01 00:00:00", Mobile := 0 }, year2000,
    by decide, rfl, by decide, by decide, by decide, by decide⟩, rfl, ?_⟩
  rintro ⟨h, _⟩
  exact absurd h (by decide)

/-! ## Theorems: the reply of the authenticate handler -/

/-- A request that passes the validation reaches the reply with its token. -/
theorem authenticateUserHandler_of_valid (a : app) (st : State) (r : Request) (tok : String)
    (h : authRequestValid st r tok) :
    authenticateUserHandler a st r =
      authenticateReply a
        { st with w := st.w.Set "Access-Control-Allow-Methods" "POST" } tok := by
  obtain ⟨hm, hperm, rm, hb, hnodup, hall, hlk, hlen, hhex⟩ := h
  rw [authenticateUserHandler_nested_form a st r rm hm hb hperm]
  have hr : ¬ nestedKeyRejected (st.mapOrder (JSON.keys rm)) = true := by
    rw [nestedKeyRejected_iff]
    rintro ⟨k, hk, hbad⟩
    exact hbad (hall k (List.mem_dedup.1 ((hperm _).mem_iff.1 hk)))
  have hu := unmarshalMpinResponse_recognised rm { AuthOTT := "" } hall hnodup
  rw [hlk] at hu
  simp only [setString] at hu
  have htests := (token_tests_iff tok).2 ⟨hlen, hhex⟩
  simp [hr, hlk, hu, htests.1, htests.2]

/-- The request of the accepted test cases passes the validation. -/
theorem testAuthRequest_valid (st : State) (h : st.mapOrder = fun ks => ks) :
    authRequestValid st testAuthRequest testAuthOTT := by
  refine ⟨rfl, ?_, [("authOTT", .str testAuthOTT), ("version", .str "info"),
    ("pass", .str "key")], rfl, by decide, by decide, rfl, by decide, by decide⟩
  intro ks
  rw [h]

/-- A write reports the error of the connection. -/
theorem Write_fst (w : ResponseWriter) (chunk : Chunk) : (w.Write chunk).1 = w.WriteErr := by
  unfold ResponseWriter.Write ResponseWriter.WriteHeader
  cases hc : w.Code <;> cases he : w.WriteErr <;> simp [he]

/-- The reply: `Authenticate`, then `LoginResult` with its results, then the header and the
body; the result is the status and message of `Authenticate` unless the write fails. -/
theorem authenticateReply_eq (a : app) (st : State) (tok : String) :
    authenticateReply a st tok =
      (.returned
        (if (a.LoginResult (a.Authenticate st tok).2 (a.Authenticate st tok).1.1 tok
              (a.Authenticate st tok).1.2.2 (a.Authenticate st tok).1.2.1).2.w.WriteErr = none
         then ((a.Authenticate st tok).1.2.2, some (a.Authenticate st tok).1.2.1)
         else (500, some "Failed to encode response")),
       { (a.LoginResult (a.Authenticate st tok).2 (a.Authenticate st tok).1.1 tok
            (a.Authenticate st tok).1.2.2 (a.Authenticate st tok).1.2.1).2 with
         w := (((a.LoginResult (a.Authenticate st tok).2 (a.Authenticate st tok).1.1 tok
            (a.Authenticate st tok).1.2.2 (a.Authenticate st tok).1.2.1).2.w.Set
              "Content-Type" "application/json").Write
            (if a.Options.RequestOTP then
              .authOTP
                { TTLSeconds := 64,
                  NowTime := unixSeconds (a.LoginResult (a.Authenticate st tok).2
                    (a.Authenticate st tok).1.1 tok (a.Authenticate st tok).1.2.2
                    (a.Authenticate st tok).1.2.1).2.now * 1000,
                  ExpireTime := unixSeconds (a.LoginResult (a.Authenticate st tok).2
                    (a.Authenticate st tok).1.1 tok (a.Authenticate st tok).1.2.2
                    (a.Authenticate st tok).1.2.1).2.now * 1000 + 64 * 1000 }
             else
              .authRPA
                { SomeUserData := "This will be handled by onSuccessLogin handler.",
                  UserId := (a.Authenticate st tok).1.1 })).2 }) := by
  unfold authenticateReply encodeJSONResponse
  dsimp only
  generalize a.Authenticate st tok = auth
  generalize (a.LoginResult auth.2 auth.1.1 tok auth.1.2.2 auth.1.2.1).2 = st1
  have hset : (st1.w.Set "Content-Type" "application/json").WriteErr = st1.w.WriteErr := rfl
  by_cases hotp : a.Options.RequestOTP = true
  · simp only [hotp, if_true]
    have h1 := Write_fst (st1.w.Set "Content-Type" "application/json")
      (.authOTP { TTLSeconds := 64, NowTime := unixSeconds st1.now * 1000,
                  ExpireTime := unixSeconds st1.now * 1000 + 64 * 1000 })
    rw [hset] at h1
    rcases hw : (st1.w.Set "Content-Type" "application/json").Write
      (.authOTP { TTLSeconds := 64, NowTime := unixSeconds st1.now * 1000,
                  ExpireTime := unixSeconds st1.now * 1000 + 64 * 1000 }) with ⟨e, w1⟩
    rw [hw] at h1
    simp only at h1
    rw [← h1]
    cases e <;> simp [hw]
  · simp only [hotp]
    have h1 := Write_fst (st1.w.Set "Content-Type" "application/json")
      (.authRPA { SomeUserData := "This will be handled by onSuccessLogin handler.",
                  UserId := auth.1.1 })
    rw [hset] at h1
    rcases hw : (st1.w.Set "Content-Type" "application/json").Write
      (.authRPA { SomeUserData := "This will be handled by onSuccessLogin handler.",
                  UserId := auth.1.1 }) with ⟨e, w1⟩
    rw [hw] at h1
    simp only at h1
    rw [← h1]
    cases e <;> simp [hw]

/-- C11. For every request that passes the validation of the authenticate handler, with
`auth` the result of the `Authenticate` delegate for the token: the handler is `Authenticate`,
then `LoginResult` called with (user id, token, status, message) on the state that
`Authenticate` left, then the content-type header and the reply body written to the writer
of the state that `LoginResult` left.  It returns the status of `Authenticate` with an error
whose text is the message, also for status 200, when the body is written without error, and
500 with "Failed to encode response" when the write fails. -/
theorem authenticateUserHandler_reports_then_replies (a : app) (st : State) (r : Request)
    (tok : String) (h : authRequestValid st r tok) :
    let auth := a.Authenticate { st with w := st.w.Set "Access-Control-Allow-Methods" "POST" } tok
    let reported := (a.LoginResult auth.2 auth.1.1 tok auth.1.2.2 auth.1.2.1).2
    let body : Chunk :=
      if a.Options.RequestOTP then
        .authOTP { TTLSeconds := 64, NowTime := unixSeconds reported.now * 1000,
                   ExpireTime := unixSeconds reported.now * 1000 + 64 * 1000 }
      else
        .authRPA { SomeUserData := "This will be handled by onSuccessLogin handler.",
                   UserId := auth.1.1 }
    authenticateUserHandler a st r =
      (.returned
        (if reported.w.WriteErr = none then (auth.1.2.2, some auth.1.2.1)
         else (500, some "Failed to encode response")),
       { reported with
         w := ((reported.w.Set "Content-Type" "application/json").Write body).2 }) := by
  intro auth reported body
  rw [authenticateUserHandler_of_valid a st r tok h, authenticateReply_eq]

/-- The accepted case of the tests with the doubles of `testAuthenticateUser`: the handler
returns (200, "bar"), `LoginResult` has recorded one call with the user, the token, the
status and the message, and the body holds the one reply. -/
theorem authenticateUserHandler_reports_then_replies_witness :
    authRequestValid (startState unixEpoch) testAuthRequest testAuthOTT ∧
    (authenticateUserHandler (testAuthApp "foo" "bar" 200) (startState unixEpoch)
      testAuthRequest).1 = .returned (200, some "bar") ∧
    (authenticateUserHandler (testAuthApp "foo" "bar" 200) (startState unixEpoch)
      testAuthRequest).2.fetched =
      [{ url := "checkLoginResult", method := "",
         q := .loginResult { AuthOTT := testAuthOTT, Status := 200, Message := "bar",
                             SessionToken := "", UserID := "foo" } }] ∧
    (authenticateUserHandler (testAuthApp "foo" "bar" 200) (startState unixEpoch)
      testAuthRequest).2.w.Body =
      [.authRPA { SomeUserData := "This will be handled by onSuccessLogin handler.",
                  UserId := "foo" }] :=
  ⟨testAuthRequest_valid _ rfl,
   (congrArg Prod.fst (authenticateUserHandler_reports_then_replies
      (testAuthApp "foo" "bar" 200) (startState unixEpoch) testAuthRequest testAuthOTT
      (testAuthRequest_valid _ rfl))).trans rfl,
   rfl, rfl⟩

/-- The accepted request of the tests on a connection that is broken: `Authenticate`
returns status 200 and the message "bar", and the handler returns 500 with another text. -/
theorem authenticateUserHandler_write_failure_counterexample :
    authRequestValid brokenPipeState testAuthRequest testAuthOTT ∧
    (∀ st tok, ((testAuthApp "foo" "bar" 200).Authenticate st tok).1 = ("foo", "bar", 200)) ∧
    (authenticateUserHandler (testAuthApp "foo" "bar" 200) brokenPipeState
      testAuthRequest).1 = .returned (500, some "Failed to encode response") :=
  ⟨testAuthRequest_valid _ rfl, fun _ _ => rfl, rfl⟩

/-! ## Theorems: the login result and a failing RPS -/

/-- C12. `sendLoginResult` never returns an error, whatever `Fetch` yields.  For status 200
it makes one call of `Fetch`: a POST to the `/loginResult` endpoint of the RPS carrying the
token, the status, the message, the session id and the user id.  For every other status it
makes no call and leaves the state as it is. -/
theorem sendLoginResult_posts_on_success (o : options) (Fetch : FetchCall → FetchReply)
    (st : State) (userID authOTT : String) (status : Int) (message : String) :
    (sendLoginResult o Fetch st userID authOTT status message).1 = none ∧
    (status = 200 →
      (sendLoginResult o Fetch st userID authOTT status message).2.fetched =
        st.fetched ++
          [{ url := o.RPSSchema ++ "://" ++ o.RPSHost ++ "/loginResult", method := "POST",
             q := .loginResult
               { AuthOTT := authOTT, Status := 200, Message := message,
                 SessionToken := st.c.SessionID, UserID := userID } }]) ∧
    (status ≠ 200 → sendLoginResult o Fetch st userID authOTT status message = (none, st)) := by
  refine ⟨?_, ?_, ?_⟩
  · unfold sendLoginResult
    by_cases hs : status = 200
    · by_cases hl : len st.c.SessionID > 0 <;> simp [hs, hl]
    · simp [hs]
  · intro hs
    subst hs
    unfold sendLoginResult
    by_cases hl : len st.c.SessionID > 0 <;> simp [hl, State.Put]
  · intro hs
    unfold sendLoginResult
    simp [hs]

/-- A login denied with status 401: `sendLoginResult` calls nothing, alone and as the
`LoginResult` delegate of the handler. -/
theorem sendLoginResult_denied_counterexample :
    (sendLoginResult o testApp.Fetch (startState unixEpoch) "foo" testAuthOTT 401
      "Invalid PIN").2.fetched = [] ∧
    (authenticateUserHandler
      { testApp with
        Authenticate := fun st _ => (("foo", "Invalid PIN", 401), st)
        LoginResult := sendLoginResult o testApp.Fetch }
      (startState unixEpoch) testAuthRequest).1 = .returned (401, some "Invalid PIN") ∧
    (authenticateUserHandler
      { testApp with
        Authenticate := fun st _ => (("foo", "Invalid PIN", 401), st)
        LoginResult := sendLoginResult o testApp.Fetch }
      (startState unixEpoch) testAuthRequest).2.fetched = [] :=
  ⟨rfl, rfl, rfl⟩

/-- The function `sendLoginResult` does not touch the response writer. -/
theorem sendLoginResult_w (o : options) (Fetch : FetchCall → FetchReply) (st : State)
    (userID authOTT : String) (status : Int) (message : String) :
    (sendLoginResult o Fetch st userID authOTT status message).2.w = st.w := by
  unfold sendLoginResult
  by_cases hs : status = 200
  · by_cases hl : len st.c.SessionID > 0 <;> simp [hs, hl, State.Put]
  · simp [hs]

/-- The function `authenticateToRPS` does not touch the response writer. -/
theorem authenticateToRPS_w (o : options) (Fetch : FetchCall → FetchReply) (st : State)
    (authOTT : String) : (authenticateToRPS o Fetch st authOTT).2.w = st.w := by
  unfold authenticateToRPS
  dsimp only
  split <;> rfl

/-- When `Fetch` returns an error, `authenticateToRPS` yields no user, the message
"Server error" and the status found in the response value. -/
theorem authenticateToRPS_error (o : options) (Fetch : FetchCall → FetchReply) (st : State)
    (authOTT : String)
    (herr : (Fetch { url := o.RPSSchema ++ "://" ++ o.RPSHost ++ "/authenticate",
                     method := "POST",
                     q := .authRPS { AuthOTT := authOTT, SessionToken := st.c.SessionID } }).err
              ≠ none) :
    (authenticateToRPS o Fetch st authOTT).1 =
      ("", "Server error",
        (Fetch { url := o.RPSSchema ++ "://" ++ o.RPSHost ++ "/authenticate",
                 method := "POST",
                 q := .authRPS { AuthOTT := authOTT, SessionToken := st.c.SessionID } }).d.Status) := by
  unfold authenticateToRPS
  dsimp only
  split
  · rfl
  · rename_i hnone
    exact absurd hnone herr

/-- C13 (as the code has it). With the delegates wired as in `newApp`: when the call of
`Fetch` to the `/authenticate` endpoint returns an error for a request that passes the
validation, `authenticateToRPS` yields an empty user id, the message "Server error" and the
status that `Fetch` left in the response value.  `authenticateUserHandler` writes its reply;
when the write succeeds it returns that status with the error "Server error", and the
dispatcher writes an error response only when that status is 400 or more; when the write
fails it returns 500 with "Failed to encode response", and the dispatcher answers with the
error response for status 500. -/
theorem authenticateUserHandler_fetch_error (lib : GoLib) (a : app) (st : State)
    (r : Request) (tok : String) (h : authRequestValid st r tok)
    (hauth : a.Authenticate = authenticateToRPS a.Options a.Fetch)
    (hlogin : a.LoginResult = sendLoginResult a.Options a.Fetch)
    (herr : (a.Fetch { url := a.Options.RPSSchema ++ "://" ++ a.Options.RPSHost ++ "/authenticate",
                       method := "POST",
                       q := .authRPS { AuthOTT := tok, SessionToken := st.c.SessionID } }).err
              ≠ none) :
    (a.Authenticate { st with w := st.w.Set "Access-Control-Allow-Methods" "POST" } tok).1 =
      ("", "Server error",
        (a.Fetch { url := a.Options.RPSSchema ++ "://" ++ a.Options.RPSHost ++ "/authenticate",
                   method := "POST",
                   q := .authRPS { AuthOTT := tok, SessionToken := st.c.SessionID } }).d.Status) ∧
    (authenticateUserHandler a st r).1 =
      .returned
        (if st.w.WriteErr = none then
          ((a.Fetch { url := a.Options.RPSSchema ++ "://" ++ a.Options.RPSHost ++ "/authenticate",
                      method := "POST",
                      q := .authRPS { AuthOTT := tok, SessionToken := st.c.SessionID } }).d.Status,
           some "Server error")
         else (500, some "Failed to encode response")) ∧
    (serveStages lib [authenticateUserHandler a] st r).2.w =
      if st.w.WriteErr = none then
        if (a.Fetch { url := a.Options.RPSSchema ++ "://" ++ a.Options.RPSHost ++ "/authenticate",
                      method := "POST",
                      q := .authRPS { AuthOTT := tok, SessionToken := st.c.SessionID } }).d.Status
            ≥ 400 then
          writeErrorResponse lib (authenticateUserHandler a st r).2.w
            (a.Fetch { url := a.Options.RPSSchema ++ "://" ++ a.Options.RPSHost ++ "/authenticate",
                       method := "POST",
                       q := .authRPS { AuthOTT := tok, SessionToken := st.c.SessionID } }).d.Status
            "Server error"
        else (authenticateUserHandler a st r).2.w
      else
        writeErrorResponse lib (authenticateUserHandler a st r).2.w 500
          "Failed to encode response" := by
  have he := authenticateToRPS_error a.Options a.Fetch
    { st with w := st.w.Set "Access-Control-Allow-Methods" "POST" } tok herr
  have hret : (authenticateUserHandler a st r).1 =
      .returned
        (if st.w.WriteErr = none then
          ((a.Fetch { url := a.Options.RPSSchema ++ "://" ++ a.Options.RPSHost ++ "/authenticate",
                      method := "POST",
                      q := .authRPS { AuthOTT := tok, SessionToken := st.c.SessionID } }).d.Status,
           some "Server error")
         else (500, some "Failed to encode response")) := by
    rw [authenticateUserHandler_of_valid a st r tok h, authenticateReply_eq]
    have hw1 := authenticateToRPS_w a.Options a.Fetch
      { st with w := st.w.Set "Access-Control-Allow-Methods" "POST" } tok
    rw [hauth, hlogin]
    simp only [sendLoginResult_w, hw1, he]
    rfl
  refine ⟨by rw [hauth]; exact he, hret, ?_⟩
  unfold serveStages
  rcases hres : authenticateUserHandler a st r with ⟨out, st1⟩
  rw [hres] at hret
  simp only at hret
  subst hret
  simp only [serveStages]
  by_cases hw : st.w.WriteErr = none
  · simp only [hw, if_true]
    split <;> rfl
  · simp only [hw, if_false]
    rfl

/-- A network failure with the wiring of `newApp`: the handler returns status 0, and the
response that the dispatcher leaves has status code 200 and the reply body for an empty
user id. -/
theorem authenticateUserHandler_unreachable_counterexample :
    authRequestValid (startState unixEpoch) testAuthRequest testAuthOTT ∧
    (∀ q, (unreachableApp.Fetch q).err ≠ none) ∧
    (authenticateUserHandler unreachableApp (startState unixEpoch) testAuthRequest).1 =
      .returned (0, some "Server error") ∧
    (appHandler.ServeHTTP testLib
      { AppContext := unreachableApp, Hs := [authenticateUserHandler unreachableApp] }
      (startState unixEpoch) testAuthRequest).2.w.Code = some 200 ∧
    (appHandler.ServeHTTP testLib
      { AppContext := unreachableApp, Hs := [authenticateUserHandler unreachableApp] }
      (startState unixEpoch) testAuthRequest).2.w.Body =
      [.authRPA { SomeUserData := "This will be handled by onSuccessLogin handler.",
                  UserId := "" }] :=
  ⟨testAuthRequest_valid _ rfl, fun _ => by simp [unreachableApp, unreachableFetch],
   rfl, rfl, rfl⟩

/-- The failing RPS of the counterexample satisfies the hypotheses of the theorem: on a
writer that works the handler returns status 0, on a broken connection 500. -/
theorem authenticateUserHandler_fetch_error_witness :
    (authenticateUserHandler unreachableApp (startState unixEpoch) testAuthRequest).1 =
      .returned (0, some "Server error") ∧
    (authenticateUserHandler unreachableApp brokenPipeState testAuthRequest).1 =
      .returned (500, some "Failed to encode response") :=
  ⟨(authenticateUserHandler_fetch_error testLib unreachableApp (startState unixEpoch)
      testAuthRequest testAuthOTT (testAuthRequest_valid _ rfl) rfl rfl
      (by simp [unreachableApp, unreachableFetch])).2.1,
   (authenticateUserHandler_fetch_error testLib unreachableApp brokenPipeState
      testAuthRequest testAuthOTT (testAuthRequest_valid _ rfl) rfl rfl
      (by simp [unreachableApp, unreachableFetch])).2.1⟩

/-! ## Theorems: the verify handler -/

/-- The verify handler on a POST whose body is an object. -/
theorem verifyUserHandler_object (net : Network) (a : app) (st : State) (r : Request)
    (m : List (String × JSON)) (hm : r.Method = "POST") (hb : r.Body = some (.obj m)) :
    verifyUserHandler net a st r =
      if verifyKeysRejected st.mapOrder m then
        (.returned (400, some "BAD REQUEST. INVALID KEY"),
          { st with w := st.w.Set "Access-Control-Allow-Methods" "POST" })
      else
        match unmarshalVerifyMembers verifyUserRequest.zero m with
        | (_, true) =>
          (.returned (500, some "BAD REQUEST. INVALID USER ID"),
            { st with w := st.w.Set "Access-Control-Allow-Methods" "POST" })
        | (rq, false) =>
          match validateVerifyRequest rq with
          | some (status, msg) =>
            (.returned (status, some msg),
              { st with w := st.w.Set "Access-Control-Allow-Methods" "POST",
                        c := { st.c with UserID := rq.UserID } })
          | none =>
            verifyUserReply net a
              { st with w := st.w.Set "Access-Control-Allow-Methods" "POST",
                        c := { st.c with UserID := rq.UserID } } r rq := by
  have hl : methodListed r.Method ["POST"] = true := by simp [methodListed, hm]
  have hc := checkAllowedMethods_listed r st.w ["POST"] hl
  have hj : join ["POST"] "," = "POST" := by decide
  rw [hj] at hc
  unfold verifyUserHandler
  rw [hc]
  simp only [hb, decodeJSONRequest, unmarshalVerifyUserRequest]
  by_cases hk : verifyKeysRejected st.mapOrder m = true
  · simp [hk]
  · simp only [hk]
    rcases hu : unmarshalVerifyMembers verifyUserRequest.zero m with ⟨rq, bad⟩
    cases bad
    · simp only
    · simp

/-- The verify handler on a request that passes the key checks and decodes. -/
theorem verifyUserHandler_decoded (net : Network) (a : app) (st : State) (r : Request)
    (rq : verifyUserRequest) (h : verifyRequestDecodes st r rq) :
    verifyUserHandler net a st r =
      match validateVerifyRequest rq with
      | some (status, msg) =>
        (.returned (status, some msg),
          { st with w := st.w.Set "Access-Control-Allow-Methods" "POST",
                    c := { st.c with UserID := rq.UserID } })
      | none =>
        verifyUserReply net a
          { st with w := st.w.Set "Access-Control-Allow-Methods" "POST",
                    c := { st.c with UserID := rq.UserID } } r rq := by
  obtain ⟨hm, m, hb, hk, hu⟩ := h
  rw [verifyUserHandler_object net a st r m hm hb, hk, hu]
  simp

/-- The errors that the last part of the verify handler can return. -/
theorem verifyUserReply_msg (net : Network) (a : app) (st : State) (r : Request)
    (rq : verifyUserRequest) (status : Int) (msg : String)
    (h : (verifyUserReply net a st r rq).1 = .returned (status, some msg)) :
    (status = 403 ∧ msg = "BAD REQUEST. INVALID USER ID") ∨ (status ≠ 403 ∧ msg = "") ∨
      (status = 500 ∧ msg = "Failed to encode response") := by
  unfold verifyUserReply at h
  rcases hv : verifyUser net a st r rq with ⟨out, st1⟩
  rw [hv] at h
  cases out with
  | panicked p => simp at h
  | returned res =>
    rcases res with ⟨s, e⟩
    cases e with
    | some e =>
      simp only at h
      by_cases hs : s = 403
      · simp [hs] at h
        exact Or.inl ⟨h.1.symm, h.2.symm⟩
      · simp [hs] at h
        exact Or.inr (Or.inl ⟨by rw [← h.1]; exact hs, h.2.symm⟩)
    | none =>
      simp only at h
      split at h
      · simp at h
        exact Or.inr (Or.inr ⟨h.1.symm, h.2.symm⟩)
      · simp at h

/-- A request that fails a check of its fields gets the status and text of that check. -/
theorem verifyUserHandler_of_invalid (net : Network) (a : app) (st : State) (r : Request)
    (rq : verifyUserRequest) (h : verifyRequestDecodes st r rq) (status : Int) (msg : String)
    (hv : validateVerifyRequest rq = some (status, msg)) :
    (verifyUserHandler net a st r).1 = .returned (status, some msg) := by
  rw [verifyUserHandler_decoded net a st r rq h, hv]

/-- A text that the last part of the handler never returns comes from the checks of the
fields. -/
theorem verifyUserHandler_rejected_iff (net : Network) (a : app) (st : State) (r : Request)
    (rq : verifyUserRequest) (h : verifyRequestDecodes st r rq) (status : Int) (msg : String)
    (h1 : msg ≠ "BAD REQUEST. INVALID USER ID") (h2 : msg ≠ "")
    (h3 : msg ≠ "Failed to encode response") :
    (verifyUserHandler net a st r).1 = .returned (status, some msg) ↔
      validateVerifyRequest rq = some (status, msg) := by
  constructor
  · intro hres
    rw [verifyUserHandler_decoded net a st r rq h] at hres
    cases hv : validateVerifyRequest rq with
    | some e =>
      rw [hv] at hres
      rcases e with ⟨s, t⟩
      simp at hres
      rw [hres.1, hres.2]
    | none =>
      rw [hv] at hres
      rcases verifyUserReply_msg net a _ r rq status msg hres with hh | hh | hh
      · exact absurd hh.2 h1
      · exact absurd hh.2 h2
      · exact absurd hh.2 h3
  · exact verifyUserHandler_of_invalid net a st r rq h status msg

/-- The first loop rejects exactly when some key is not in `rmk`. -/
theorem unknownKeyRejected_iff (ks : List String) :
    unknownKeyRejected ks = true ↔ ∃ k ∈ ks, k ∉ rmk := by
  induction ks with
  | nil => simp [unknownKeyRejected]
  | cons k ks ih =>
    simp only [unknownKeyRejected, List.mem_cons, exists_eq_or_imp]
    have hany : (rmk.any fun j => decide (k = j)) = true ↔ k ∈ rmk := by
      simp [List.any_eq_true]
    by_cases hk : k ∈ rmk
    · simp only [hany.2 hk, if_true, hk, not_true_eq_false, false_or]
      simpa using ih
    · have : ¬ (rmk.any fun j => decide (k = j)) = true := fun h => hk (hany.1 h)
      simp [this, hk]

/-- The second loop rejects exactly when some listed key has no member. -/
theorem missingKeyRejected_iff (m : List (String × JSON)) (js : List String) :
    missingKeyRejected m js = true ↔ ∃ j ∈ js, j ∉ m.map Prod.fst := by
  induction js with
  | nil => simp [missingKeyRejected]
  | cons j js ih =>
    simp only [missingKeyRejected, List.mem_cons, exists_eq_or_imp]
    by_cases hj : j ∈ m.map Prod.fst
    · have hl : JSON.lookup m j ≠ none := fun h => (JSON.lookup_eq_none_iff m j).1 h hj
      have : (JSON.lookup m j).isNone = false := by
        cases hq : JSON.lookup m j with
        | none => exact absurd hq hl
        | some x => rfl
      simp only [this, hj, not_true_eq_false, false_or]
      simpa using ih
    · have hl := (JSON.lookup_eq_none_iff m j).2 hj
      simp [hl, hj]

/-- The denominator of a power of ten is positive. -/
theorem pow10_snd_pos (e : Int) : 0 < (pow10 e).2 := by
  unfold pow10
  split
  · exact Nat.one_pos
  · exact Nat.pos_pow_of_pos _ (by decide)

/-- A shift by 54 or more places is at least the product with `2 ^ 54`. -/
theorem mul_pow_le_shiftLeft (x n : Nat) : x * 2 ^ 54 ≤ Nat.shiftLeft x (54 + n) := by
  have h : Nat.shiftLeft x (54 + n) = x * 2 ^ (54 + n) := Nat.shiftLeft_eq x (54 + n)
  rw [h]
  exact Nat.mul_le_mul_left x (Nat.pow_le_pow_right (by decide) (Nat.le_add_right 54 n))

/-- No number is read both as 1 and as 0. -/
theorem literalIsOne_not_zero (literal : String) (h : literalIsOne literal = true) :
    literalIsZero literal = false := by
  unfold literalIsOne at h
  unfold literalIsZero
  simp only [Bool.and_eq_true, decide_eq_true_eq] at h
  obtain ⟨_, h1, _⟩ := h
  have hp := pow10_snd_pos (parseNumber literal).exponent
  apply decide_eq_false
  intro h2
  have h3 := mul_pow_le_shiftLeft
    ((parseNumber literal).mantissa * (pow10 (parseNumber literal).exponent).1) 1021
  have hA : 3 ≤ (2 : Nat) ^ 54 := by norm_num
  generalize (pow10 (parseNumber literal).exponent).2 = p2 at *
  generalize (parseNumber literal).mantissa * (pow10 (parseNumber literal).exponent).1 = x at *
  generalize (2 : Nat) ^ 54 = A at *
  have h4 : (A - 1) * p2 ≤ p2 := le_trans h1 (le_trans h3 h2)
  have h5 : 2 * p2 ≤ (A - 1) * p2 := Nat.mul_le_mul_right p2 (by omega)
  omega

/-- The value of `mobile` is never equal both to 1 and to 0. -/
theorem equalsFloat1_not_0 (v : Option JSON) (h : equalsFloat1 v = true) :
    equalsFloat0 v = false := by
  cases v with
  | none => rfl
  | some x =>
    cases x with
    | num literal => exact literalIsOne_not_zero literal h
    | null => rfl
    | bool b => rfl
    | str s => rfl
    | arr xs => rfl
    | obj ms => rfl

/-- The key checks of the handler return the 400 response exactly under the conditions of
the specification, whatever the order in which `range` visits the keys. -/
theorem verifyKeysRejected_iff (order : List String → List String)
    (m : List (String × JSON)) (hperm : ∀ ks, (order ks).Perm ks) :
    verifyKeysRejected order m = true ↔ keyCheckFails m := by
  have hunk : unknownKeyRejected (order (JSON.keys m)) = true ↔
      ∃ k ∈ m.map Prod.fst, k ∉ rmk := by
    rw [unknownKeyRejected_iff]
    constructor
    · rintro ⟨k, hk, hbad⟩
      exact ⟨k, List.mem_dedup.1 ((hperm _).mem_iff.1 hk), hbad⟩
    · rintro ⟨k, hk, hbad⟩
      exact ⟨k, (hperm _).mem_iff.2 (List.mem_dedup.2 hk), hbad⟩
  have hmiss := missingKeyRejected_iff m (rmk.take 4)
  have htake : rmk.take 4 = ["mpinId", "userId", "expireTime", "mobile"] := rfl
  rw [htake] at hmiss
  have hkey : ∀ key, (JSON.lookup m key).isNone = true ↔ key ∉ m.map Prod.fst := by
    intro key
    rw [← JSON.lookup_eq_none_iff]
    cases JSON.lookup m key <;> simp
  unfold verifyKeysRejected keyCheckFails
  rw [htake]
  change _ ↔ (∃ k ∈ m.map Prod.fst, k ∉ rmk) ∨ _
  by_cases h1 : unknownKeyRejected (order (JSON.keys m)) = true
  · rw [if_pos h1]
    exact ⟨fun _ => Or.inl (hunk.1 h1), fun _ => rfl⟩
  · have n1 : ¬ ∃ k ∈ m.map Prod.fst, k ∉ rmk := fun h => h1 (hunk.2 h)
    rw [if_neg h1]
    by_cases h2 : missingKeyRejected m ["mpinId", "userId", "expireTime", "mobile"] = true
    · rw [if_pos h2]
      exact ⟨fun _ => Or.inr (Or.inl (hmiss.1 h2)), fun _ => rfl⟩
    · have n2 : ¬ ∃ j ∈ ["mpinId", "userId", "expireTime", "mobile"], j ∉ m.map Prod.fst :=
        fun h => h2 (hmiss.2 h)
      rw [if_neg h2]
      by_cases h3 : equalsFloat1 (JSON.lookup m "mobile") = true
      · have h4 := equalsFloat1_not_0 _ h3
        rw [if_pos h3]
        by_cases hk : (JSON.lookup m "activateKey").isNone = true
        · rw [if_pos hk]
          exact ⟨fun _ => Or.inr (Or.inr (Or.inl ⟨h3, (hkey _).1 hk⟩)), fun _ => rfl⟩
        · rw [if_neg hk]
          constructor
          · intro h
            cases h
          · rintro (h | h | h | h)
            · exact absurd h n1
            · exact absurd h n2
            · exact absurd ((hkey _).2 h.2) hk
            · rw [h4] at h
              cases h.1
      · rw [if_neg h3]
        by_cases h4 : equalsFloat0 (JSON.lookup m "mobile") = true
        · rw [if_pos h4]
          by_cases hk : (JSON.lookup m "activationCode").isNone = true
          · rw [if_pos hk]
            exact ⟨fun _ => Or.inr (Or.inr (Or.inr ⟨h4, (hkey _).1 hk⟩)), fun _ => rfl⟩
          · rw [if_neg hk]
            constructor
            · intro h
              cases h
            · rintro (h | h | h | h)
              · exact absurd h n1
              · exact absurd h n2
              · exact absurd h.1 h3
              · exact absurd ((hkey _).2 h.2) hk
        · rw [if_neg h4]
          constructor
          · intro h
            cases h
          · rintro (h | h | h | h)
            · exact absurd h n1
            · exact absurd h n2
            · exact absurd h.1 h3
            · exact absurd h.1 h4

/-- The result of the check of the user id, when it fails. -/
theorem validateUserID_some (rq : verifyUserRequest) (e : Int × String)
    (h : validateUserID rq = some e) : e = (403, "BAD REQUEST. INVALID USER ID") := by
  unfold validateUserID at h
  split_ifs at h <;> simp_all

/-- The result of the check of the M-Pin id, when it fails. -/
theorem validateMpinID_some (rq : verifyUserRequest) (e : Int × String)
    (h : validateMpinID rq = some e) : e = (400, "BAD REQUEST. INVALID MPIN ID") := by
  unfold validateMpinID at h
  split_ifs at h
  simp_all

/-- The result of the check of the expire time, when it fails. -/
theorem validateExpireTime_some (rq : verifyUserRequest) (e : Int × String)
    (h : validateExpireTime rq = some e) : e = (400, "BAD REQUEST. INVALID EXPIRE TIME") := by
  unfold validateExpireTime at h
  split_ifs at h <;> simp_all

/-- The result of the check of the activation key or code, when it fails. -/
theorem validateActivation_some (rq : verifyUserRequest) (e : Int × String)
    (h : validateActivation rq = some e) :
    (rq.Mobile = 1 ∧ e = (400, "BAD REQUEST. INVALID ACTIVATEKEY")) ∨
      (rq.Mobile = 0 ∧ e = (400, "BAD REQUEST. INVALID ACTIVATIONCODE")) := by
  unfold validateActivation at h
  split_ifs at h <;> simp_all

/-- The result of the check of the mobile flag, when it fails. -/
theorem validateMobile_some (rq : verifyUserRequest) (e : Int × String)
    (h : validateMobile rq = some e) : e = (400, "BAD REQUEST. INVALID MOBILE") := by
  unfold validateMobile at h
  split_ifs at h
  simp_all

/-- The checks in their order: the result is that of the first check that fails. -/
theorem validateVerifyRequest_eq (rq : verifyUserRequest) :
    validateVerifyRequest rq =
      (validateUserID rq).orElse fun _ =>
        (validateMpinID rq).orElse fun _ =>
          (validateExpireTime rq).orElse fun _ =>
            (validateActivation rq).orElse fun _ => validateMobile rq := by
  unfold validateVerifyRequest
  cases validateUserID rq <;> cases validateMpinID rq <;> cases validateExpireTime rq <;>
    cases validateActivation rq <;> rfl

/-- The status and text that a failed check of the fields returns. -/
theorem validateVerifyRequest_mem (rq : verifyUserRequest) (e : Int × String)
    (h : validateVerifyRequest rq = some e) :
    e ∈ [((403 : Int), "BAD REQUEST. INVALID USER ID"), (400, "BAD REQUEST. INVALID MPIN ID"),
         (400, "BAD REQUEST. INVALID EXPIRE TIME"), (400, "BAD REQUEST. INVALID ACTIVATEKEY"),
         (400, "BAD REQUEST. INVALID ACTIVATIONCODE"), (400, "BAD REQUEST. INVALID MOBILE")] := by
  rw [validateVerifyRequest_eq] at h
  cases h1 : validateUserID rq with
  | some x =>
    rw [h1] at h
    have := validateUserID_some rq x h1
    simp [Option.orElse] at h
    subst h
    simp [this]
  | none =>
    rw [h1] at h
    cases h2 : validateMpinID rq with
    | some x =>
      rw [h2] at h
      have := validateMpinID_some rq x h2
      simp [Option.orElse] at h
      subst h
      simp [this]
    | none =>
      rw [h2] at h
      cases h3 : validateExpireTime rq with
      | some x =>
        rw [h3] at h
        have := validateExpireTime_some rq x h3
        simp [Option.orElse] at h
        subst h
        simp [this]
      | none =>
        rw [h3] at h
        cases h4 : validateActivation rq with
        | some x =>
          rw [h4] at h
          have := validateActivation_some rq x h4
          simp [Option.orElse] at h
          subst h
          rcases this with hh | hh <;> simp [hh.2]
        | none =>
          rw [h4] at h
          simp [Option.orElse] at h
          have := validateMobile_some rq e h
          simp [this]

/-- C14. For every POST whose body is a JSON object, whatever the order in which `range`
visits the keys: if the object has a key outside the nine known ones, or lacks one of
`mpinId`, `userId`, `expireTime`, `mobile`, or has `mobile` equal to 1 and no `activateKey`
key, or has `mobile` equal to 0 and no `activationCode` key, the handler returns
(400, "BAD REQUEST. INVALID KEY") and only the allow-methods header is set; for every other
object the handler does not return an error with that text, with any status. -/
theorem verifyUserHandler_key_checks (net : Network) (a : app) (st : State) (r : Request)
    (m : List (String × JSON)) (hm : r.Method = "POST") (hb : r.Body = some (.obj m))
    (hperm : ∀ ks, (st.mapOrder ks).Perm ks) :
    (keyCheckFails m →
      verifyUserHandler net a st r =
        (.returned (400, some "BAD REQUEST. INVALID KEY"),
          { st with w := st.w.Set "Access-Control-Allow-Methods" "POST" })) ∧
    (¬ keyCheckFails m → ∀ status,
      (verifyUserHandler net a st r).1 ≠ .returned (status, some "BAD REQUEST. INVALID KEY")) := by
  have hiff := verifyKeysRejected_iff st.mapOrder m hperm
  constructor
  · intro hfail
    rw [verifyUserHandler_object net a st r m hm hb, if_pos (hiff.2 hfail)]
  · intro hpass status hres
    have hk : verifyKeysRejected st.mapOrder m = false := by
      cases hq : verifyKeysRejected st.mapOrder m with
      | false => rfl
      | true => exact absurd (hiff.1 hq) hpass
    rcases hu : unmarshalVerifyMembers verifyUserRequest.zero m with ⟨rq, bad⟩
    cases bad with
    | true =>
      rw [verifyUserHandler_object net a st r m hm hb, hk, hu] at hres
      simp at hres
    | false =>
      have hdec : verifyRequestDecodes st r rq := ⟨hm, m, hb, hk, hu⟩
      have hv := (verifyUserHandler_rejected_iff net a st r rq hdec status
        "BAD REQUEST. INVALID KEY" (by decide) (by decide) (by decide)).1 hres
      have hmem := validateVerifyRequest_mem rq _ hv
      simp at hmem

/-- The body of the tests with the key `Dummy` is rejected for its keys. -/
theorem verifyUserHandler_key_checks_witness :
    keyCheckFails testDummyKeyBody ∧
    verifyUserHandler testNetwork testApp (startState unixEpoch)
        (NewRequest "POST" "/" (some (.obj testDummyKeyBody))) =
      (.returned (400, some "BAD REQUEST. INVALID KEY"),
        { startState unixEpoch with
          w := (startState unixEpoch).w.Set "Access-Control-Allow-Methods" "POST" }) :=
  ⟨Or.inl ⟨"Dummy", by decide, by decide⟩,
   (verifyUserHandler_key_checks testNetwork testApp (startState unixEpoch)
      (NewRequest "POST" "/" (some (.obj testDummyKeyBody))) testDummyKeyBody rfl rfl
      (fun ks => List.Perm.refl ks)).1 (Or.inl ⟨"Dummy", by decide, by decide⟩)⟩

/-! ## Theorems: the checks of the fields of a verify request -/

/-- A string of ASCII characters has as many bytes as characters. -/
theorem len_of_ascii (cs : List Char) (h : ∀ c ∈ cs, c.toNat < 128) :
    (cs.map utf8Len).sum = cs.length := by
  induction cs with
  | nil => rfl
  | cons c cs ih =>
    have hc := h c (List.mem_cons_self _ _)
    have h1 : utf8Len c = 1 := by
      unfold utf8Len
      simp [hc]
    simp only [List.map_cons, List.sum_cons, List.length_cons, h1]
    rw [ih fun c hc => h c (List.mem_cons_of_mem _ hc)]
    omega

/-- A string has at least as many bytes as characters. -/
theorem length_le_len (s : String) : s.length ≤ len s := by
  unfold len
  rw [String.length]
  induction s.data with
  | nil => simp
  | cons c cs ih =>
    have := utf8Len_pos c
    simp only [List.map_cons, List.sum_cons, List.length_cons]
    omega

/-- The class of the user id expression is the range from the space to the tilde. -/
theorem userIDChar_iff (c : Char) : userIDChar c = true ↔ 32 ≤ c.toNat ∧ c.toNat ≤ 126 := by
  unfold userIDChar
  simp only [Bool.or_eq_true, Bool.and_eq_true, decide_eq_true_eq]
  omega

/-- The test of the user id passes exactly when every character lies in the class. -/
theorem matchNonUserID_eq_false_iff (s : String) :
    matchNonUserID s = false ↔ ∀ c ∈ s.data, 32 ≤ c.toNat ∧ c.toNat ≤ 126 := by
  unfold matchNonUserID
  rw [List.any_eq_false]
  constructor
  · intro h c hc
    have := h c hc
    rw [← userIDChar_iff]
    simpa using this
  · intro h c hc
    have := (userIDChar_iff c).2 (h c hc)
    simp [this]

/-- A user id that passes the test of its characters has as many bytes as characters. -/
theorem len_of_userID (s : String) (h : matchNonUserID s = false) : len s = s.length := by
  unfold len
  rw [String.length]
  apply len_of_ascii
  intro c hc
  have := (matchNonUserID_eq_false_iff s).1 h c hc
  omega

/-- The check of the user id passes exactly for 1 to 256 characters, all from the space to
the tilde. -/
theorem validateUserID_eq_none_iff (rq : verifyUserRequest) :
    validateUserID rq = none ↔
      (1 ≤ rq.UserID.length ∧ rq.UserID.length ≤ 256 ∧
        ∀ c ∈ rq.UserID.data, 32 ≤ c.toNat ∧ c.toNat ≤ 126) := by
  rw [← matchNonUserID_eq_false_iff]
  unfold validateUserID
  constructor
  · intro h
    split_ifs at h with h1 h2
    have h2 : matchNonUserID rq.UserID = false := by simpa using h2
    have hl := len_of_userID _ h2
    exact ⟨by omega, by omega, h2⟩
  · rintro ⟨h1, h2, h3⟩
    have hl := len_of_userID _ h3
    have hlen : ¬ (len rq.UserID < 1 ∨ len rq.UserID > 256) := by omega
    rw [if_neg hlen]
    simp [h3]

/-- The second accepted case of the tests passes the key checks and decodes. -/
theorem testMobileRequest_decodes :
    verifyRequestDecodes (startState unixEpoch) testMobileRequest testMobileRq :=
  ⟨rfl, _, rfl, by decide, rfl⟩

/-- The desktop case of the tests with code 123456789012 passes the key checks and
decodes. -/
theorem testDesktopRequest_decodes :
    verifyRequestDecodes (startState unixEpoch) (testDesktopRequest "123456789012")
      (testDesktopRq 123456789012) :=
  ⟨rfl, _, rfl, by decide, rfl⟩

/-- C15. For every verify request that passes the key checks and decodes: a user id of
length 0 or of length above 256, counted in bytes as the handler does or in characters, is
rejected with (403, "BAD REQUEST. INVALID USER ID"); for a user id of length 1 to 256 the
check of the user id passes exactly when the test of its characters passes, so that length
1 and length 256 are not rejected for their length. -/
theorem verifyUserHandler_userID_length (net : Network) (a : app) (st : State) (r : Request)
    (rq : verifyUserRequest) (h : verifyRequestDecodes st r rq) :
    ((len rq.UserID = 0 ∨ len rq.UserID > 256) →
      (verifyUserHandler net a st r).1 =
        .returned (403, some "BAD REQUEST. INVALID USER ID")) ∧
    ((rq.UserID.length = 0 ∨ rq.UserID.length > 256) →
      (verifyUserHandler net a st r).1 =
        .returned (403, some "BAD REQUEST. INVALID USER ID")) ∧
    ((1 ≤ len rq.UserID ∧ len rq.UserID ≤ 256) →
      (validateUserID rq = none ↔ matchNonUserID rq.UserID = false)) ∧
    ((1 ≤ rq.UserID.length ∧ rq.UserID.length ≤ 256) →
      (validateUserID rq = none ↔ matchNonUserID rq.UserID = false)) := by
  have hbytes : (len rq.UserID = 0 ∨ len rq.UserID > 256) →
      (verifyUserHandler net a st r).1 =
        .returned (403, some "BAD REQUEST. INVALID USER ID") := by
    intro hl
    apply verifyUserHandler_of_invalid net a st r rq h
    have hu : validateUserID rq = some (403, "BAD REQUEST. INVALID USER ID") := by
      unfold validateUserID
      rw [if_pos (by omega)]
    rw [validateVerifyRequest_eq, hu]
    rfl
  refine ⟨hbytes, ?_, ?_, ?_⟩
  · intro hl
    apply hbytes
    have := length_le_len rq.UserID
    rcases hl with hl | hl
    · left
      have hd : rq.UserID.data = [] := List.length_eq_zero.1 hl
      unfold len
      rw [hd]
      rfl
    · right
      omega
  · intro hl
    unfold validateUserID
    rw [if_neg (by omega)]
    cases matchNonUserID rq.UserID <;> simp
  · intro hl
    rw [validateUserID_eq_none_iff, matchNonUserID_eq_false_iff]
    constructor
    · intro hh
      exact hh.2.2
    · intro hh
      exact ⟨hl.1, hl.2, hh⟩

/-- The user id "?" of the tests, of length 1, passes the check of the user id. -/
theorem verifyUserHandler_userID_length_witness :
    verifyRequestDecodes (startState unixEpoch) testMobileRequest testMobileRq ∧
    testMobileRq.UserID.length = 1 ∧ validateUserID testMobileRq = none :=
  ⟨testMobileRequest_decodes, rfl,
   ((verifyUserHandler_userID_length testNetwork testApp (startState unixEpoch)
      testMobileRequest testMobileRq testMobileRequest_decodes).2.2.2
      ⟨by decide, by decide⟩).2 (by decide)⟩

/-- C16. For every verify request that passes the key checks and decodes, with a user id
of 1 to 256 characters: the permitted characters are exactly those from the space (32) to
the tilde (126), so every printable ASCII character, punctuation included, is permitted and
every non-ASCII character is not; a user id with a character outside the set is rejected
with (403, "BAD REQUEST. INVALID USER ID"), and a user id within the set passes the check
of the user id. -/
theorem verifyUserHandler_userID_charset (net : Network) (a : app) (st : State)
    (r : Request) (rq : verifyUserRequest) (h : verifyRequestDecodes st r rq)
    (hlen : 1 ≤ rq.UserID.length ∧ rq.UserID.length ≤ 256) :
    ((∃ c ∈ rq.UserID.data, userIDChar c = false) →
      (verifyUserHandler net a st r).1 =
        .returned (403, some "BAD REQUEST. INVALID USER ID")) ∧
    ((∀ c ∈ rq.UserID.data, userIDChar c = true) → validateUserID rq = none) ∧
    (∀ c : Char, userIDChar c = true ↔ 32 ≤ c.toNat ∧ c.toNat ≤ 126) ∧
    (∀ c : Char, 128 ≤ c.toNat → userIDChar c = false) := by
  refine ⟨?_, ?_, userIDChar_iff, ?_⟩
  · rintro ⟨c, hc, hbad⟩
    apply verifyUserHandler_of_invalid net a st r rq h
    cases hu : validateUserID rq with
    | none =>
      have := ((validateUserID_eq_none_iff rq).1 hu).2.2 c hc
      rw [(userIDChar_iff c).2 this] at hbad
      cases hbad
    | some e =>
      rw [validateVerifyRequest_eq, hu, validateUserID_some rq e hu]
      rfl
  · intro hall
    rw [validateUserID_eq_none_iff]
    exact ⟨hlen.1, hlen.2, fun c hc => (userIDChar_iff c).1 (hall c hc)⟩
  · intro c hc
    cases hu : userIDChar c with
    | false => rfl
    | true =>
      have := (userIDChar_iff c).1 hu
      omega

/-- The user id "root@localhost" of the tests, with its punctuation, passes the check. -/
theorem verifyUserHandler_userID_charset_witness :
    verifyRequestDecodes (startState unixEpoch) (testDesktopRequest "123456789012")
      (testDesktopRq 123456789012) ∧
    validateUserID (testDesktopRq 123456789012) = none :=
  ⟨testDesktopRequest_decodes,
   (verifyUserHandler_userID_charset testNetwork testApp (startState unixEpoch)
      (testDesktopRequest "123456789012") (testDesktopRq 123456789012)
      testDesktopRequest_decodes ⟨by decide, by decide⟩).2.1 (by decide)⟩

/-- The user id made of all 95 printable ASCII characters, every punctuation character
among them, passes the check of the user id and the request is answered with 200; and no
character from the space to the tilde is outside the permitted set. -/
theorem verifyUserHandler_punctuation_counterexample :
    validateUserID { testDesktopRq 0 with UserID := printableASCII } = none ∧
    (verifyUserHandler testNetwork testApp (startState unixEpoch)
      (NewRequest "POST" "/" (some (testVerifyBody printableASCII "aaa"
        "12345678901234567890" "0" "dummy" "0")))).1 = .returned (200, none) ∧
    (∀ c : Char, 32 ≤ c.toNat ∧ c.toNat ≤ 126 → userIDChar c = true) :=
  ⟨by decide, by rfl, fun c hc => (userIDChar_iff c).2 hc⟩

/-- The test for a character outside the hexadecimal digits. -/
theorem matchNonHex_eq_true_iff (s : String) :
    matchNonHex s = true ↔ ∃ c ∈ s.data, isHexDigit c = false := by
  unfold matchNonHex
  rw [List.any_eq_true]
  constructor
  · rintro ⟨c, hc, hbad⟩
    exact ⟨c, hc, by simpa using hbad⟩
  · rintro ⟨c, hc, hbad⟩
    exact ⟨c, hc, by simp [hbad]⟩

/-- The checks after the user id, when that one passes. -/
theorem validateVerifyRequest_after_userID (rq : verifyUserRequest)
    (huid : validateUserID rq = none) :
    validateVerifyRequest rq =
      (validateMpinID rq).orElse fun _ =>
        (validateExpireTime rq).orElse fun _ =>
          (validateActivation rq).orElse fun _ => validateMobile rq := by
  rw [validateVerifyRequest_eq, huid]
  rfl

/-- The checks after the M-Pin id, when the earlier ones pass. -/
theorem validateVerifyRequest_after_mpinID (rq : verifyUserRequest)
    (huid : validateUserID rq = none) (hmpin : validateMpinID rq = none) :
    validateVerifyRequest rq =
      (validateExpireTime rq).orElse fun _ =>
        (validateActivation rq).orElse fun _ => validateMobile rq := by
  rw [validateVerifyRequest_after_userID rq huid, hmpin]
  rfl

/-- The checks after the expire time, when the earlier ones pass. -/
theorem validateVerifyRequest_after_expireTime (rq : verifyUserRequest)
    (huid : validateUserID rq = none) (hmpin : validateMpinID rq = none)
    (hexp : validateExpireTime rq = none) :
    validateVerifyRequest rq = (validateActivation rq).orElse fun _ => validateMobile rq := by
  rw [validateVerifyRequest_after_mpinID rq huid hmpin, hexp]
  rfl

/-- The checks of the activation and of the mobile flag return one of three errors. -/
theorem validateActivation_orElse_mem (rq : verifyUserRequest) (e : Int × String)
    (h : ((validateActivation rq).orElse fun _ => validateMobile rq) = some e) :
    e ∈ [((400 : Int), "BAD REQUEST. INVALID ACTIVATEKEY"),
         (400, "BAD REQUEST. INVALID ACTIVATIONCODE"), (400, "BAD REQUEST. INVALID MOBILE")] := by
  cases h4 : validateActivation rq with
  | some x =>
    rw [h4] at h
    simp only [Option.orElse, Option.some.injEq] at h
    subst h
    rcases validateActivation_some rq x h4 with hh | hh <;> simp [hh.2]
  | none =>
    rw [h4] at h
    simp only [Option.orElse] at h
    simp [validateMobile_some rq e h]

/-- The checks from the expire time on return one of four errors. -/
theorem validateExpireTime_orElse_mem (rq : verifyUserRequest) (e : Int × String)
    (h : ((validateExpireTime rq).orElse fun _ =>
      (validateActivation rq).orElse fun _ => validateMobile rq) = some e) :
    e ∈ [((400 : Int), "BAD REQUEST. INVALID EXPIRE TIME"),
         (400, "BAD REQUEST. INVALID ACTIVATEKEY"),
         (400, "BAD REQUEST. INVALID ACTIVATIONCODE"), (400, "BAD REQUEST. INVALID MOBILE")] := by
  cases h3 : validateExpireTime rq with
  | some x =>
    rw [h3] at h
    simp only [Option.orElse, Option.some.injEq] at h
    subst h
    simp [validateExpireTime_some rq x h3]
  | none =>
    rw [h3] at h
    simp only [Option.orElse] at h
    have := validateActivation_orElse_mem rq e h
    simp only [List.mem_cons] at this ⊢
    tauto

/-- C17. For every verify request that passes the key checks, decodes and passes the check
of the user id: the handler returns (400, "BAD REQUEST. INVALID MPIN ID") if and only if
the M-Pin id has a character outside `0-9`, `a-f`, `A-F`. -/
theorem verifyUserHandler_mpinID (net : Network) (a : app) (st : State) (r : Request)
    (rq : verifyUserRequest) (h : verifyRequestDecodes st r rq)
    (huid : validateUserID rq = none) :
    (verifyUserHandler net a st r).1 = .returned (400, some "BAD REQUEST. INVALID MPIN ID") ↔
      ∃ c ∈ rq.MpinID.data, isHexDigit c = false := by
  rw [verifyUserHandler_rejected_iff net a st r rq h 400 "BAD REQUEST. INVALID MPIN ID"
    (by decide) (by decide) (by decide), validateVerifyRequest_after_userID rq huid,
    ← matchNonHex_eq_true_iff]
  by_cases hx : matchNonHex rq.MpinID = true
  · have hv : validateMpinID rq = some (400, "BAD REQUEST. INVALID MPIN ID") := by
      unfold validateMpinID
      rw [if_pos hx]
    rw [hv]
    exact ⟨fun _ => hx, fun _ => rfl⟩
  · have hv : validateMpinID rq = none := by
      unfold validateMpinID
      rw [if_neg hx]
    rw [hv]
    constructor
    · intro hres
      have := validateExpireTime_orElse_mem rq _ hres
      simp at this
    · intro hh
      exact absurd hh hx

/-- The M-Pin id of the second accepted case of the tests is not rejected, and the same
request with the M-Pin id "aahkia" is. -/
theorem verifyUserHandler_mpinID_witness :
    validateUserID testMobileRq = none ∧
    (verifyUserHandler testNetwork testApp (startState unixEpoch) testMobileRequest).1 ≠
      .returned (400, some "BAD REQUEST. INVALID MPIN ID") ∧
    (verifyUserHandler testNetwork testApp (startState unixEpoch)
      (NewRequest "POST" "/" (some (testVerifyBody "?" "aahkia" "1234567890-TZ:123456" "1"
        "abcdefABCDEF1234567890abcdefABCDEF1234567890abcdefABCDEF12345678"
        "1234567889012")))).1 = .returned (400, some "BAD REQUEST. INVALID MPIN ID") :=
  ⟨by decide,
   fun hres => absurd
    ((verifyUserHandler_mpinID testNetwork testApp (startState unixEpoch) testMobileRequest
      testMobileRq testMobileRequest_decodes (by decide)).1 hres) (by decide),
   by rfl⟩

/-- A character is determined by its code. -/
theorem char_of_code (c : Char) (n : Nat) (h : c.toNat = n) : c = Char.ofNat n := by
  rw [← h, Char.ofNat_toNat]

/-- The class of the expire time holds the digits and the four signs. -/
theorem expireChar_iff (c : Char) :
    expireChar c = true ↔
      (isDigit c = true ∨ c = 'T' ∨ c = 'Z' ∨ c = '-' ∨ c = ':') := by
  unfold expireChar isDigit
  simp only [Bool.or_eq_true, Bool.and_eq_true, decide_eq_true_eq]
  constructor
  · rintro ((((h | h) | h) | h) | h)
    · exact Or.inr (Or.inr (Or.inr (Or.inl (char_of_code c 45 h))))
    · exact Or.inl h
    · exact Or.inr (Or.inl (char_of_code c 84 h))
    · exact Or.inr (Or.inr (Or.inl (char_of_code c 90 h)))
    · exact Or.inr (Or.inr (Or.inr (Or.inr (char_of_code c 58 h))))
  · rintro (h | h | h | h | h)
    · exact Or.inl (Or.inl (Or.inl (Or.inr h)))
    · subst h
      exact Or.inl (Or.inl (Or.inr rfl))
    · subst h
      exact Or.inl (Or.inr rfl)
    · subst h
      exact Or.inl (Or.inl (Or.inl (Or.inl rfl)))
    · subst h
      exact Or.inr rfl

/-- The test of the expire time passes exactly when every character lies in the class. -/
theorem matchNonExpire_eq_false_iff (s : String) :
    matchNonExpire s = false ↔ ∀ c ∈ s.data, expireChar c = true := by
  unfold matchNonExpire
  rw [List.any_eq_false]
  constructor
  · intro h c hc
    simpa using h c hc
  · intro h c hc
    simp [h c hc]

/-- A character of the class of the expire time is ASCII. -/
theorem expireChar_ascii (c : Char) (h : expireChar c = true) : c.toNat < 128 := by
  unfold expireChar at h
  simp only [Bool.or_eq_true, Bool.and_eq_true, decide_eq_true_eq] at h
  omega

/-- The check of the expire time passes exactly for 20 characters, each a digit or one of
`T`, `Z`, `-`, `:`. -/
theorem validateExpireTime_eq_none_iff (rq : verifyUserRequest) :
    validateExpireTime rq = none ↔
      (rq.ExpireTime.length = 20 ∧
        ∀ c ∈ rq.ExpireTime.data,
          isDigit c = true ∨ c = 'T' ∨ c = 'Z' ∨ c = '-' ∨ c = ':') := by
  have hcls : (∀ c ∈ rq.ExpireTime.data,
      isDigit c = true ∨ c = 'T' ∨ c = 'Z' ∨ c = '-' ∨ c = ':') ↔
      matchNonExpire rq.ExpireTime = false := by
    rw [matchNonExpire_eq_false_iff]
    constructor
    · intro hh c hc
      exact (expireChar_iff c).2 (hh c hc)
    · intro hh c hc
      exact (expireChar_iff c).1 (hh c hc)
  rw [hcls]
  have hl : matchNonExpire rq.ExpireTime = false → len rq.ExpireTime = rq.ExpireTime.length := by
    intro hh
    unfold len
    rw [String.length]
    apply len_of_ascii
    intro c hc
    exact expireChar_ascii c ((matchNonExpire_eq_false_iff _).1 hh c hc)
  unfold validateExpireTime
  constructor
  · intro h
    split_ifs at h with h1 h2
    have h2 : matchNonExpire rq.ExpireTime = false := by simpa using h2
    have := hl h2
    exact ⟨by omega, h2⟩
  · rintro ⟨h1, h2⟩
    have := hl h2
    rw [if_neg (by omega)]
    simp [h2]

/-- C18. For every verify request that passes the key checks, decodes and passes the
checks of the user id and of the M-Pin id: the handler returns
(400, "BAD REQUEST. INVALID EXPIRE TIME") if and only if the expire time is not exactly 20
characters long or has a character other than a digit, `T`, `Z`, `-` or `:`. -/
theorem verifyUserHandler_expireTime (net : Network) (a : app) (st : State) (r : Request)
    (rq : verifyUserRequest) (h : verifyRequestDecodes st r rq)
    (huid : validateUserID rq = none) (hmpin : validateMpinID rq = none) :
    (verifyUserHandler net a st r).1 =
        .returned (400, some "BAD REQUEST. INVALID EXPIRE TIME") ↔
      ¬ (rq.ExpireTime.length = 20 ∧
          ∀ c ∈ rq.ExpireTime.data,
            isDigit c = true ∨ c = 'T' ∨ c = 'Z' ∨ c = '-' ∨ c = ':') := by
  rw [verifyUserHandler_rejected_iff net a st r rq h 400 "BAD REQUEST. INVALID EXPIRE TIME"
    (by decide) (by decide) (by decide), validateVerifyRequest_after_mpinID rq huid hmpin,
    ← validateExpireTime_eq_none_iff]
  cases hv : validateExpireTime rq with
  | some e =>
    rw [validateExpireTime_some rq e hv]
    simp [Option.orElse]
  | none =>
    constructor
    · intro hres
      have := validateActivation_orElse_mem rq _ hres
      simp at this
    · intro hh
      exact absurd rfl hh

/-- The expire time "1234567890-TZ:123456" of the tests is not rejected, and the same
request with an expire time of 21 characters is. -/
theorem verifyUserHandler_expireTime_witness :
    validateUserID testMobileRq = none ∧ validateMpinID testMobileRq = none ∧
    (verifyUserHandler testNetwork testApp (startState unixEpoch) testMobileRequest).1 ≠
      .returned (400, some "BAD REQUEST. INVALID EXPIRE TIME") ∧
    (verifyUserHandler testNetwork testApp (startState unixEpoch)
      (NewRequest "POST" "/" (some (testVerifyBody "?" "abcdefABCDEF1234567890"
        "123456789012345678901" "1"
        "abcdefABCDEF1234567890abcdefABCDEF1234567890abcdefABCDEF12345678"
        "1234567889012")))).1 = .returned (400, some "BAD REQUEST. INVALID EXPIRE TIME") :=
  ⟨by decide, by decide,
   fun hres =>
    (verifyUserHandler_expireTime testNetwork testApp (startState unixEpoch)
      testMobileRequest testMobileRq testMobileRequest_decodes (by decide) (by decide)).1 hres
      ⟨by decide, by decide⟩,
   by rfl⟩

/-- The two tests of the activation key pass exactly for no character or 64 characters,
all hexadecimal digits. -/
theorem activateKey_tests_iff (key : String) :
    (¬ (len key ≠ 0 ∧ len key ≠ 64) ∧ matchNonHex key = false) ↔
      ((key.length = 0 ∨ key.length = 64) ∧ ∀ c ∈ key.data, isHexDigit c = true) := by
  have hall : matchNonHex key = false ↔ ∀ c ∈ key.data, isHexDigit c = true := by
    simp [matchNonHex]
  constructor
  · rintro ⟨h1, h2⟩
    have ha := hall.1 h2
    have := len_of_hex key.data ha
    refine ⟨?_, ha⟩
    unfold len at h1
    rw [String.length]
    omega
  · rintro ⟨h1, h2⟩
    have := len_of_hex key.data h2
    refine ⟨?_, hall.2 h2⟩
    unfold len
    rw [String.length] at h1
    omega

/-- For a mobile device the check of the activation passes exactly for an activation key
of no character or of 64 hexadecimal digits. -/
theorem validateActivation_mobile (rq : verifyUserRequest) (hmob : rq.Mobile = 1) :
    validateActivation rq = none ↔
      ((rq.ActivateKey.length = 0 ∨ rq.ActivateKey.length = 64) ∧
        ∀ c ∈ rq.ActivateKey.data, isHexDigit c = true) := by
  rw [← activateKey_tests_iff]
  unfold validateActivation
  rw [if_pos hmob]
  constructor
  · intro h
    split_ifs at h with h1 h2
    exact ⟨h1, by simpa using h2⟩
  · rintro ⟨h1, h2⟩
    rw [if_neg h1]
    simp [h2]

/-- For a desktop no check reads the activation key. -/
theorem validateVerifyRequest_desktop_key (rq : verifyUserRequest) (hmob : rq.Mobile = 0)
    (key : String) :
    validateVerifyRequest { rq with ActivateKey := key } = validateVerifyRequest rq := by
  have h1 : validateUserID { rq with ActivateKey := key } = validateUserID rq := rfl
  have h2 : validateMpinID { rq with ActivateKey := key } = validateMpinID rq := rfl
  have h3 : validateExpireTime { rq with ActivateKey := key } = validateExpireTime rq := rfl
  have h5 : validateMobile { rq with ActivateKey := key } = validateMobile rq := rfl
  have h4 : validateActivation { rq with ActivateKey := key } = validateActivation rq := by
    unfold validateActivation
    have hne : ¬ ((0 : Int) = 1) := by decide
    simp only [hmob, if_neg hne]
  rw [validateVerifyRequest_eq, validateVerifyRequest_eq, h1, h2, h3, h4, h5]

/-- C19. For every verify request that passes the key checks, decodes and passes the
checks of the user id, the M-Pin id and the expire time: with `mobile` 1 the handler returns
(400, "BAD REQUEST. INVALID ACTIVATEKEY") if and only if the activation key has a length
other than 0 or 64 or a character outside `0-9a-fA-F`; with `mobile` 0 the handler does not
return that error and the checks of the fields give the same result for every other value
of the activation key. -/
theorem verifyUserHandler_activateKey (net : Network) (a : app) (st : State) (r : Request)
    (rq : verifyUserRequest) (h : verifyRequestDecodes st r rq)
    (huid : validateUserID rq = none) (hmpin : validateMpinID rq = none)
    (hexp : validateExpireTime rq = none) :
    (rq.Mobile = 1 →
      ((verifyUserHandler net a st r).1 =
          .returned (400, some "BAD REQUEST. INVALID ACTIVATEKEY") ↔
        ¬ ((rq.ActivateKey.length = 0 ∨ rq.ActivateKey.length = 64) ∧
            ∀ c ∈ rq.ActivateKey.data, isHexDigit c = true))) ∧
    (rq.Mobile = 0 →
      (verifyUserHandler net a st r).1 ≠
          .returned (400, some "BAD REQUEST. INVALID ACTIVATEKEY") ∧
      ∀ key, validateVerifyRequest { rq with ActivateKey := key } =
        validateVerifyRequest rq) := by
  have hiff := verifyUserHandler_rejected_iff net a st r rq h 400
    "BAD REQUEST. INVALID ACTIVATEKEY" (by decide) (by decide) (by decide)
  rw [validateVerifyRequest_after_expireTime rq huid hmpin hexp] at hiff
  constructor
  · intro hmob
    rw [hiff, ← validateActivation_mobile rq hmob]
    cases hv : validateActivation rq with
    | some e =>
      rcases validateActivation_some rq e hv with hh | hh
      · rw [hh.2]
        simp [Option.orElse]
      · rw [hmob] at hh
        exact absurd hh.1 (by decide)
    | none =>
      constructor
      · intro hres
        have := validateMobile_some rq _ hres
        simp at this
      · intro hh
        exact absurd rfl hh
  · intro hmob
    refine ⟨?_, validateVerifyRequest_desktop_key rq hmob⟩
    rw [Ne, hiff]
    intro hres
    cases hv : validateActivation rq with
    | some e =>
      rw [hv] at hres
      simp only [Option.orElse, Option.some.injEq] at hres
      rcases validateActivation_some rq e hv with hh | hh
      · rw [hmob] at hh
        exact absurd hh.1 (by decide)
      · rw [hh.2] at hres
        simp at hres
    | none =>
      rw [hv] at hres
      have := validateMobile_some rq _ hres
      simp at this

/-- The first accepted case of the tests: a desktop request with the activation key
"dummy" is not rejected for the key, and is answered with 200. -/
theorem verifyUserHandler_activateKey_witness :
    (testDesktopRq 123456789012).ActivateKey = "dummy" ∧
    (verifyUserHandler testNetwork testApp (startState unixEpoch)
      (testDesktopRequest "123456789012")).1 ≠
        .returned (400, some "BAD REQUEST. INVALID ACTIVATEKEY") ∧
    (verifyUserHandler testNetwork testApp (startState unixEpoch)
      (testDesktopRequest "123456789012")).1 = .returned (200, none) :=
  ⟨rfl,
   ((verifyUserHandler_activateKey testNetwork testApp (startState unixEpoch)
      (testDesktopRequest "123456789012") (testDesktopRq 123456789012)
      testDesktopRequest_decodes (by decide) (by decide) (by decide)).2 rfl).1,
   by rfl⟩

/-! ## Theorems: the length of the activation code -/

/-- With enough fuel a number has at least one digit, and at most `k` digits exactly when
it is below `10 ^ k`. -/
theorem decimalDigits_length (fuel : Nat) :
    ∀ n, n < fuel →
      1 ≤ (decimalDigits fuel n).length ∧
      ∀ k, 1 ≤ k → ((decimalDigits fuel n).length ≤ k ↔ n < 10 ^ k) := by
  induction fuel with
  | zero =>
    intro n hn
    omega
  | succ fuel ih =>
    intro n hn
    unfold decimalDigits
    by_cases h10 : n < 10
    · rw [if_pos h10]
      refine ⟨by simp, ?_⟩
      intro k hk
      have hpow : 10 ^ 1 ≤ 10 ^ k := Nat.pow_le_pow_right (by decide) hk
      simp only [List.length_singleton]
      constructor
      · intro _
        omega
      · intro _
        exact hk
    · rw [if_neg h10]
      have hdiv : n / 10 < fuel := by omega
      obtain ⟨hpos, hle⟩ := ih (n / 10) hdiv
      simp only [List.length_append, List.length_singleton]
      refine ⟨by omega, ?_⟩
      intro k hk
      rcases Nat.lt_or_ge k 2 with hk2 | hk2
      · have hk1 : k = 1 := by omega
        subst hk1
        constructor
        · intro hh
          omega
        · intro hh
          omega
      · obtain ⟨j, rfl⟩ : ∃ j, k = j + 1 := ⟨k - 1, by omega⟩
        have hj := hle j (by omega)
        rw [Nat.pow_succ, ← Nat.div_lt_iff_lt_mul (by decide : 0 < 10), ← hj]
        omega

/-- The digits of a number are ASCII characters. -/
theorem decimalDigits_ascii (fuel : Nat) :
    ∀ n, ∀ c ∈ decimalDigits fuel n, c.toNat < 128 := by
  have hdigit : ∀ d, d < 10 → (Nat.digitChar d).toNat < 128 := by decide
  induction fuel with
  | zero =>
    intro n c hc
    simp [decimalDigits] at hc
  | succ fuel ih =>
    intro n c hc
    unfold decimalDigits at hc
    by_cases h10 : n < 10
    · rw [if_pos h10] at hc
      rw [List.mem_singleton.1 hc]
      exact hdigit n h10
    · rw [if_neg h10] at hc
      rcases List.mem_append.1 hc with hc | hc
      · exact ih _ c hc
      · rw [List.mem_singleton.1 hc]
        exact hdigit _ (Nat.mod_lt _ (by decide))

/-- The text of `strconv.Itoa` has more than 12 bytes exactly for a number of at least
`10 ^ 12` or of at most `-(10 ^ 11)`: the sign counts. -/
theorem len_Itoa_gt_12 (i : Int) :
    len (Itoa i) > 12 ↔ (1000000000000 ≤ i ∨ i ≤ -100000000000) := by
  obtain ⟨_, hle⟩ := decimalDigits_length (i.natAbs + 1) i.natAbs (by omega)
  have hasc := decimalDigits_ascii (i.natAbs + 1) i.natAbs
  have h12 := hle 12 (by decide)
  have h11 := hle 11 (by decide)
  have e12 : (10 : Nat) ^ 12 = 1000000000000 := by norm_num
  have e11 : (10 : Nat) ^ 11 = 100000000000 := by norm_num
  rw [e12] at h12
  rw [e11] at h11
  unfold Itoa len
  by_cases hneg : i < 0
  · rw [if_pos hneg]
    have hsum := len_of_ascii ('-' :: decimalDigits (i.natAbs + 1) i.natAbs) (by
      intro c hc
      rcases List.mem_cons.1 hc with hc | hc
      · rw [hc]
        decide
      · exact hasc c hc)
    rw [hsum, List.length_cons]
    omega
  · rw [if_neg hneg]
    have hsum := len_of_ascii (decimalDigits (i.natAbs + 1) i.natAbs) hasc
    rw [hsum]
    omega

/-- C20. For every verify request with `mobile` 0 that passes the key checks, decodes and
passes the checks of the user id, the M-Pin id and the expire time: the handler returns
(400, "BAD REQUEST. INVALID ACTIVATIONCODE") if and only if the decimal text of the
activation code, its sign included, is longer than 12 characters, that is, if and only if
the code is at least `10 ^ 12` or at most `-(10 ^ 11)`; so every code from 0 to 999999999999
is accepted by this check. -/
theorem verifyUserHandler_activationCode (net : Network) (a : app) (st : State)
    (r : Request) (rq : verifyUserRequest) (h : verifyRequestDecodes st r rq)
    (huid : validateUserID rq = none) (hmpin : validateMpinID rq = none)
    (hexp : validateExpireTime rq = none) (hmob : rq.Mobile = 0) :
    ((verifyUserHandler net a st r).1 =
        .returned (400, some "BAD REQUEST. INVALID ACTIVATIONCODE") ↔
      len (Itoa rq.ActivationCode) > 12) ∧
    (len (Itoa rq.ActivationCode) > 12 ↔
      (1000000000000 ≤ rq.ActivationCode ∨ rq.ActivationCode ≤ -100000000000)) := by
  refine ⟨?_, len_Itoa_gt_12 _⟩
  rw [verifyUserHandler_rejected_iff net a st r rq h 400 "BAD REQUEST. INVALID ACTIVATIONCODE"
    (by decide) (by decide) (by decide), validateVerifyRequest_after_expireTime rq huid hmpin hexp]
  have hne : ¬ ((0 : Int) = 1) := by decide
  have hmobile : validateMobile rq = none := by
    unfold validateMobile
    rw [if_neg (by rw [hmob]; simp)]
  by_cases hlen : len (Itoa rq.ActivationCode) > 12
  · have hv : validateActivation rq = some (400, "BAD REQUEST. INVALID ACTIVATIONCODE") := by
      unfold validateActivation
      rw [hmob, if_neg hne, if_pos rfl, if_pos hlen]
    rw [hv]
    exact ⟨fun _ => hlen, fun _ => rfl⟩
  · have hv : validateActivation rq = none := by
      unfold validateActivation
      rw [hmob, if_neg hne, if_pos rfl, if_neg hlen]
    rw [hv, Option.orElse, hmobile]
    constructor
    · intro hh
      cases hh
    · intro hh
      exact absurd hh hlen

/-- The codes of the tests: 999999999999 is accepted and 1234567890123 is rejected. -/
theorem verifyUserHandler_activationCode_witness :
    (verifyUserHandler testNetwork testApp (startState unixEpoch)
      (testDesktopRequest "999999999999")).1 ≠
        .returned (400, some "BAD REQUEST. INVALID ACTIVATIONCODE") ∧
    (verifyUserHandler testNetwork testApp (startState unixEpoch)
      (testDesktopRequest "1234567890123")).1 =
        .returned (400, some "BAD REQUEST. INVALID ACTIVATIONCODE") :=
  ⟨fun hres => absurd
    ((verifyUserHandler_activationCode testNetwork testApp (startState unixEpoch)
      (testDesktopRequest "999999999999") (testDesktopRq 999999999999)
      ⟨rfl, _, rfl, by decide, rfl⟩ (by decide) (by decide) (by decide) rfl).1.1 hres)
    (by decide),
   ((verifyUserHandler_activationCode testNetwork testApp (startState unixEpoch)
      (testDesktopRequest "1234567890123") (testDesktopRq 1234567890123)
      ⟨rfl, _, rfl, by decide, rfl⟩ (by decide) (by decide) (by decide) rfl).1.2
    (by decide))⟩

/-- The activation code -999999999999 has 12 decimal digits, and the handler rejects it:
its text has 13 characters with the sign. -/
theorem verifyUserHandler_negative_code_counterexample :
    verifyRequestDecodes (startState unixEpoch) (testDesktopRequest "-999999999999")
      (testDesktopRq (-999999999999)) ∧
    Int.natAbs (-999999999999) < 10 ^ 12 ∧
    Itoa (-999999999999) = "-999999999999" ∧
    (verifyUserHandler testNetwork testApp (startState unixEpoch)
      (testDesktopRequest "-999999999999")).1 =
        .returned (400, some "BAD REQUEST. INVALID ACTIVATIONCODE") :=
  ⟨⟨rfl, _, rfl, by decide, rfl⟩, by decide, by decide, by rfl⟩

/-! ## Theorems: no entry of the store has a zero expiry -/

/-- Removing a key keeps the entries without a zero expiry. -/
theorem remove_nonzero (s : storage) (sessionID : String)
    (h : ∀ id item, s id = some item → item.Expires ≠ 0) :
    ∀ id item, s.remove sessionID id = some item → item.Expires ≠ 0 := by
  intro id item hi
  unfold storage.remove at hi
  by_cases hk : id = sessionID
  · simp [hk] at hi
  · simp only [hk, if_false] at hi
    exact h id item hi

/-- The sweep keeps the entries without a zero expiry. -/
theorem sweep_nonzero (s : storage) (now : Int)
    (h : ∀ id item, s id = some item → item.Expires ≠ 0) :
    ∀ id item, s.sweep now id = some item → item.Expires ≠ 0 := by
  intro id item hi
  unfold storage.sweep at hi
  cases hs : s id with
  | none => simp [hs] at hi
  | some v =>
    simp only [hs] at hi
    by_cases hb : Time.Before v.Expires now = true
    · simp [hb] at hi
    · simp only [hb] at hi
      have hv : v = item := by simpa using hi
      rw [← hv]
      exact h id v hs

/-- A `Put` that does not run four hours before the zero time keeps the entries without a
zero expiry. -/
theorem Put_nonzero (s : storage) (g now : Int) (sessionID : String) (item : session)
    (hnow : now + 4 * Hour ≠ 0)
    (h : ∀ id item, s id = some item → item.Expires ≠ 0) :
    ∀ id x, (storage.Put s g now sessionID item).2.1 id = some x → x.Expires ≠ 0 := by
  have hassign : ∀ id x,
      (s.assign sessionID
        (if item.Expires = 0 then { item with Expires := now + 4 * Hour } else item)) id =
          some x → x.Expires ≠ 0 := by
    intro id x hx
    unfold storage.assign at hx
    by_cases hk : id = sessionID
    · simp only [hk, if_true, Option.some.injEq] at hx
      rw [← hx]
      by_cases hz : item.Expires = 0
      · rw [if_pos hz]
        exact hnow
      · rw [if_neg hz]
        exact hz
    · simp only [hk, if_false] at hx
      exact h id x hx
  rw [Put_result]
  by_cases hg : wrapInt (g + 1) ≥ 1000
  · simp only [hg, if_true]
    exact sweep_nonzero _ now hassign
  · simp only [hg, if_false]
    exact hassign

/-- A `Get` keeps the entries without a zero expiry. -/
theorem Get_nonzero (s : storage) (now : Int) (sessionID : String)
    (h : ∀ id item, s id = some item → item.Expires ≠ 0) :
    ∀ id x, (storage.Get s now sessionID).2 id = some x → x.Expires ≠ 0 := by
  unfold storage.Get
  cases hs : s sessionID with
  | none => exact h
  | some item =>
    by_cases hb : Time.Before item.Expires now = true
    · simp only [hb, if_true]
      exact remove_nonzero s sessionID h
    · simp only [hb]
      exact h

/-- C30. In every store reached from the empty store by a sequence of `Put`, `Get` and
`Delete` calls, with any arguments and any value of the write counter, where no `Put` runs
at the one instant four hours before the zero time, every entry has a non-zero expiry. -/
theorem runCalls_expiry_nonzero (calls : List StoreCall) (gcCount : Int)
    (hclock : ∀ now sessionID item, StoreCall.Put now sessionID item ∈ calls →
      now + 4 * Hour ≠ 0) :
    ∀ id item, (runCalls (fun _ => none, gcCount) calls).1 id = some item →
      item.Expires ≠ 0 := by
  have hgen : ∀ (calls : List StoreCall) (s : storage × Int),
      (∀ now sessionID item, StoreCall.Put now sessionID item ∈ calls → now + 4 * Hour ≠ 0) →
      (∀ id item, s.1 id = some item → item.Expires ≠ 0) →
      ∀ id item, (runCalls s calls).1 id = some item → item.Expires ≠ 0 := by
    intro calls
    induction calls with
    | nil =>
      intro s _ hs
      exact hs
    | cons c cs ih =>
      intro s hc hs
      unfold runCalls
      apply ih
      · intro now sessionID item hmem
        exact hc now sessionID item (List.mem_cons_of_mem _ hmem)
      · cases c with
        | Put now sessionID item =>
          exact Put_nonzero s.1 s.2 now sessionID item
            (hc now sessionID item (List.mem_cons_self _ _)) hs
        | Get now sessionID => exact Get_nonzero s.1 now sessionID hs
        | Delete sessionID => exact remove_nonzero s.1 sessionID hs
  exact hgen calls (fun _ => none, gcCount) hclock (by intro id item h; cases h)

/-- A session put without expiry at the Unix epoch, read and put again with an explicit
expiry, then another deleted: the entry has a non-zero expiry. -/
theorem runCalls_expiry_nonzero_witness :
    (runCalls (fun _ => none, 0)
      [.Put unixEpoch "123" ⟨0, "user01"⟩, .Get (unixEpoch + Hour) "123",
       .Put (unixEpoch + Hour) "345" ⟨unixEpoch + 2 * Hour, ""⟩, .Delete "345"]).1 "123" =
      some ⟨unixEpoch + 4 * Hour, "user01"⟩ ∧
    unixEpoch + 4 * Hour ≠ 0 :=
  ⟨by decide,
   runCalls_expiry_nonzero
    [.Put unixEpoch "123" ⟨0, "user01"⟩, .Get (unixEpoch + Hour) "123",
     .Put (unixEpoch + Hour) "345" ⟨unixEpoch + 2 * Hour, ""⟩, .Delete "345"] 0
    (by
      intro now sessionID item hmem
      simp only [List.mem_cons, StoreCall.Put.injEq, List.mem_singleton, reduceCtorEq,
        List.not_mem_nil, or_false, false_or] at hmem
      rcases hmem with ⟨h, _, _⟩ | ⟨h, _, _⟩
      · rw [h]
        decide
      · rw [h]
        decide)
    "123" ⟨unixEpoch + 4 * Hour, "user01"⟩ (by decide)⟩

/-! ## Theorems: logout -/

/-- The logout handler on a POST: the decoding of the body, then the lookup. -/
theorem logoutHandler_post_form (lib : GoLib) (a : app) (st : State) (r : Request)
    (hm : r.Method = "POST") :
    logoutHandler lib a st r =
      match r.Stream with
      | none =>
        (.returned (400, some "BAD REQUEST. INVALID JSON"),
          { st with w := st.w.Set "Access-Control-Allow-Methods" "GET,POST,OPTIONS" })
      | some doc =>
        match unmarshalLogoutData doc { SessionID := "", UserID := "" } with
        | (_, true) =>
          (.returned (400, some "BAD REQUEST. INVALID JSON"),
            { st with w := st.w.Set "Access-Control-Allow-Methods" "GET,POST,OPTIONS" })
        | (data, false) =>
          if (storage.Get st.Store st.now data.SessionID).1.1.User ≠ data.UserID then
            (.returned (400, some "Logout failed"),
              { st with w := st.w.Set "Access-Control-Allow-Methods" "GET,POST,OPTIONS",
                        Store := (storage.Get st.Store st.now data.SessionID).2,
                        c := { st.c with UserID := data.UserID } })
          else
            (.returned (200, none),
              { st with w := st.w.Set "Access-Control-Allow-Methods" "GET,POST,OPTIONS",
                        Store :=
                          if (storage.Get st.Store st.now data.SessionID).1.2 = none then
                            storage.Delete (storage.Get st.Store st.now data.SessionID).2
                              data.SessionID
                          else (storage.Get st.Store st.now data.SessionID).2,
                        c := { st.c with UserID := data.UserID } }) := by
  have hl : methodListed r.Method ["GET", "POST", "OPTIONS"] = true := by
    simp [methodListed, hm]
  have hc := checkAllowedMethods_listed r st.w ["GET", "POST", "OPTIONS"] hl
  have hj : join ["GET", "POST", "OPTIONS"] "," = "GET,POST,OPTIONS" := by decide
  rw [hj] at hc
  have hget : ¬ (r.Method = "GET") := by rw [hm]; decide
  have hopt : ¬ (r.Method = "OPTIONS") := by rw [hm]; decide
  unfold logoutHandler
  rw [hc]
  simp only [hget, hopt, if_false]
  cases hs : r.Stream with
  | none => rfl
  | some doc =>
    simp only
    rcases hu : unmarshalLogoutData doc { SessionID := "", UserID := "" } with ⟨data, bad⟩
    cases bad with
    | true => rfl
    | false =>
      simp only [State.Get, State.Delete]
      by_cases hne : (storage.Get st.Store st.now data.SessionID).1.1.User ≠ data.UserID
      · rw [if_pos hne, if_pos hne]
      · rw [if_neg hne, if_neg hne]
        by_cases he : (storage.Get st.Store st.now data.SessionID).1.2 = none
        · simp [he]
        · simp [he]

/-- The user that `Get` returns is the user of the stored, unexpired session, or empty. -/
theorem Get_user (s : storage) (now : Int) (id : String) :
    (storage.Get s now id).1.1.User = liveUser s now id := by
  unfold liveUser
  cases hs : s id with
  | none => rw [Get_absent s id now hs]; rfl
  | some item =>
    by_cases hlt : item.Expires < now
    · rw [Get_expired s id now item hs hlt]
      simp [hlt, session.zero]
    · rw [Get_live s id now item hs hlt]
      simp [hlt]

/-- C26. For a logout POST: when the body holds no JSON value or one that cannot be stored
in `{sessionToken, userId}`, the handler returns (400, "BAD REQUEST. INVALID JSON") and the
store is unchanged.  When the body decodes to `data`, with `u` the user of the stored,
unexpired session under the token, or the empty string: if `u` differs from the user id the
handler returns (400, "Logout failed"), an unexpired session under the token is still
stored and every other key is unchanged (the store is as the `Get` of the handler left it);
if `u` equals the user id it returns (200, nil), afterwards nothing is stored under the
token, also when nothing was stored before, and every other key is unchanged. -/
theorem logoutHandler_post (lib : GoLib) (a : app) (st : State) (r : Request)
    (hm : r.Method = "POST") :
    ((r.Stream = none ∨
        ∃ doc, r.Stream = some doc ∧
          (unmarshalLogoutData doc { SessionID := "", UserID := "" }).2 = true) →
      (logoutHandler lib a st r).1 = .returned (400, some "BAD REQUEST. INVALID JSON") ∧
      (logoutHandler lib a st r).2.Store = st.Store) ∧
    (∀ doc data, r.Stream = some doc →
      unmarshalLogoutData doc { SessionID := "", UserID := "" } = (data, false) →
      (liveUser st.Store st.now data.SessionID ≠ data.UserID →
        (logoutHandler lib a st r).1 = .returned (400, some "Logout failed") ∧
        (logoutHandler lib a st r).2.Store =
          (storage.Get st.Store st.now data.SessionID).2 ∧
        (∀ item, st.Store data.SessionID = some item → ¬ item.Expires < st.now →
          (logoutHandler lib a st r).2.Store data.SessionID = some item) ∧
        (∀ k, k ≠ data.SessionID → (logoutHandler lib a st r).2.Store k = st.Store k)) ∧
      (liveUser st.Store st.now data.SessionID = data.UserID →
        (logoutHandler lib a st r).1 = .returned (200, none) ∧
        (logoutHandler lib a st r).2.Store data.SessionID = none ∧
        (∀ k, k ≠ data.SessionID → (logoutHandler lib a st r).2.Store k = st.Store k))) := by
  have hform := logoutHandler_post_form lib a st r hm
  have hother : ∀ id k, k ≠ id → (storage.Get st.Store st.now id).2 k = st.Store k := by
    intro id k hk
    cases hs : st.Store id with
    | none => rw [Get_absent _ id _ hs]
    | some item =>
      by_cases hlt : item.Expires < st.now
      · rw [Get_expired _ id _ item hs hlt]
        simp [storage.remove, hk]
      · rw [Get_live _ id _ item hs hlt]
  constructor
  · rintro (hs | ⟨doc, hs, hbad⟩)
    · rw [hform, hs]
      exact ⟨rfl, rfl⟩
    · rw [hform, hs]
      rcases hu : unmarshalLogoutData doc { SessionID := "", UserID := "" } with ⟨data, bad⟩
      rw [hu] at hbad
      simp only at hbad
      subst hbad
      simp [hu]
  · intro doc data hs hu
    rw [hform, hs]
    simp only [hu, Get_user]
    constructor
    · intro hne
      rw [if_pos hne]
      refine ⟨rfl, rfl, ?_, ?_⟩
      · intro item hitem hlive
        show (storage.Get st.Store st.now data.SessionID).2 data.SessionID = some item
        rw [Get_live _ _ _ item hitem hlive]
        exact hitem
      · intro k hk
        exact hother data.SessionID k hk
    · intro heq
      rw [if_neg (not_not.2 heq)]
      refine ⟨rfl, ?_, ?_⟩
      · show (if (storage.Get st.Store st.now data.SessionID).1.2 = none then
            storage.Delete (storage.Get st.Store st.now data.SessionID).2 data.SessionID
          else (storage.Get st.Store st.now data.SessionID).2) data.SessionID = none
        cases hst : st.Store data.SessionID with
        | none =>
          rw [Get_absent _ _ _ hst]
          simp [hst]
        | some item =>
          by_cases hlt : item.Expires < st.now
          · rw [Get_expired _ _ _ item hst hlt]
            simp [storage.remove]
          · rw [Get_live _ _ _ item hst hlt]
            simp [storage.Delete, storage.remove]
      · intro k hk
        show (if (storage.Get st.Store st.now data.SessionID).1.2 = none then
            storage.Delete (storage.Get st.Store st.now data.SessionID).2 data.SessionID
          else (storage.Get st.Store st.now data.SessionID).2) k = st.Store k
        by_cases he : (storage.Get st.Store st.now data.SessionID).1.2 = none
        · rw [if_pos he]
          simp only [storage.Delete, storage.remove, hk, if_false]
          exact hother data.SessionID k hk
        · rw [if_neg he]
          exact hother data.SessionID k hk

/-- The first case of the tests, with the session of another user stored under "123": the
handler answers (400, "Logout failed") and the session stays; with the session of
"user01" stored it answers (200, nil) and the session is gone. -/
theorem logoutHandler_post_witness :
    (logoutHandler testLib testApp (loggedInState unixEpoch (unixEpoch + 4 * Hour) "foo")
      testLogoutRequest).1 = .returned (400, some "Logout failed") ∧
    (logoutHandler testLib testApp (loggedInState unixEpoch (unixEpoch + 4 * Hour) "foo")
      testLogoutRequest).2.Store "123" = some ⟨unixEpoch + 4 * Hour, "foo"⟩ ∧
    (logoutHandler testLib testApp (loggedInState unixEpoch (unixEpoch + 4 * Hour) "user01")
      testLogoutRequest).1 = .returned (200, none) ∧
    (logoutHandler testLib testApp (loggedInState unixEpoch (unixEpoch + 4 * Hour) "user01")
      testLogoutRequest).2.Store "123" = none :=
  ⟨((logoutHandler_post testLib testApp
      (loggedInState unixEpoch (unixEpoch + 4 * Hour) "foo") testLogoutRequest rfl).2
      _ ⟨"123", "user01"⟩ rfl rfl).1 (by decide) |>.1,
   by decide, by decide, by decide⟩

/-! ## Theorems: the failure cases of the signature -/

/-- C27. For a request whose form parses, in each of the four failure cases of the decoding
`verifySignature` returns a signature that is not valid, holding only the `i` and `s`
parameters, together with a non-nil error.  When `i` is not hexadecimal, when the decoded
bytes are not JSON that can be stored in the payload, and when the issue time does not
parse, the `ErrorMessage` of the signature is empty and the error is that of the library
call; when the issue time parses and the user id is empty, the `ErrorMessage` and the text
of the error are "Invalid identity". -/
theorem verifySignature_failure_cases (lib : GoLib) (st : State) (r : Request)
    (hform : r.ParseFormErr = none) :
    (hexDecodeString ((getArgument r "i" "").headD "") = none →
      (verifySignature lib st r).1 =
        ({ signature.zero with Identity := (getArgument r "i" "").headD "",
                               ActivateKey := (getArgument r "s" "").headD "" },
         some hexError)) ∧
    (∀ b, hexDecodeString ((getArgument r "i" "").headD "") = some b →
      (lib.jsonUnmarshal b = none ∨
        ∃ doc, lib.jsonUnmarshal b = some doc ∧
          (unmarshalSignatureData doc { UserID := "", Issued := "", Mobile := 0 }).2 = true) →
      (verifySignature lib st r).1 =
        ({ signature.zero with Identity := (getArgument r "i" "").headD "",
                               ActivateKey := (getArgument r "s" "").headD "" },
         some jsonError)) ∧
    (∀ b doc data, hexDecodeString ((getArgument r "i" "").headD "") = some b →
      lib.jsonUnmarshal b = some doc →
      unmarshalSignatureData doc { UserID := "", Issued := "", Mobile := 0 } = (data, false) →
      lib.timeParse "2006-01-02 15:04:05" data.Issued = none →
      (verifySignature lib st r).1 =
        ({ signature.zero with Identity := (getArgument r "i" "").headD "",
                               ActivateKey := (getArgument r "s" "").headD "" },
         some timeError)) ∧
    (∀ b doc data t, hexDecodeString ((getArgument r "i" "").headD "") = some b →
      lib.jsonUnmarshal b = some doc →
      unmarshalSignatureData doc { UserID := "", Issued := "", Mobile := 0 } = (data, false) →
      lib.timeParse "2006-01-02 15:04:05" data.Issued = some t →
      data.UserID = "" →
      (verifySignature lib st r).1 =
        ({ signature.zero with Identity := (getArgument r "i" "").headD "",
                               ActivateKey := (getArgument r "s" "").headD "",
                               ErrorMessage := "Invalid identity" },
         some "Invalid identity")) ∧
    ({ signature.zero with Identity := (getArgument r "i" "").headD "",
                           ActivateKey := (getArgument r "s" "").headD "" }.IsValid = false ∧
     { signature.zero with Identity := (getArgument r "i" "").headD "",
                           ActivateKey := (getArgument r "s" "").headD "" }.ErrorMessage = "") := by
  refine ⟨?_, ?_, ?_, ?_, rfl, rfl⟩
  · intro hhex
    unfold verifySignature
    simp only [hform, hhex]
  · intro b hhex hjson
    unfold verifySignature
    rcases hjson with hj | ⟨doc, hj, hbad⟩
    · simp only [hform, hhex, hj]
    · rcases hu : unmarshalSignatureData doc { UserID := "", Issued := "", Mobile := 0 }
        with ⟨data, bad⟩
      rw [hu] at hbad
      simp only at hbad
      subst hbad
      simp only [hform, hhex, hj, hu]
  · intro b doc data hhex hj hu ht
    unfold verifySignature
    simp only [hform, hhex, hj, hu, ht]
  · intro b doc data t hhex hj hu ht hempty
    have hlen : ¬ (len data.UserID > 0) := by
      rw [(len_eq_zero_iff _).2 hempty]
      omega
    unfold verifySignature
    simp only [hform, hhex, hj, hu, ht, hlen, if_false, signature.zero]
    rfl

/-- The case "wrong hex" of the tests: the signature is not valid, its message is empty,
and the error is that of the hexadecimal decoding. -/
theorem verifySignature_failure_cases_witness :
    (verifySignature testLib (startState year2016)
      (testLinkRequest "2167421211j19" "2000-01-01T00:00:00Z" "dsfdsfasfdsf" none)).1 =
      ({ signature.zero with Identity := "2167421211j19", ActivateKey := "dsfdsfasfdsf" },
       some hexError) :=
  (verifySignature_failure_cases testLib (startState year2016)
    (testLinkRequest "2167421211j19" "2000-01-01T00:00:00Z" "dsfdsfasfdsf" none) rfl).1
    (by decide)

/-- The cases "wrong hex" and "invalid json" of the tests: the returned signature is not
valid and the error is non-nil, but the `ErrorMessage` of the signature is empty. -/
theorem verifySignature_empty_message_counterexample :
    hexDecodeString "2167421211j19" = none ∧
    (verifySignature testLib (startState year2016)
      (testLinkRequest "2167421211j19" "2000-01-01T00:00:00Z" "dsfdsfasfdsf" none)).1.1.IsValid
        = false ∧
    (verifySignature testLib (startState year2016)
      (testLinkRequest "2167421211j19" "2000-01-01T00:00:00Z" "dsfdsfasfdsf" none)).1.1.ErrorMessage
        = "" ∧
    (verifySignature testLib (startState year2016)
      (testLinkRequest "2167421211j19" "2000-01-01T00:00:00Z" "dsfdsfasfdsf" none)).1.2
        = some hexError ∧
    (verifySignature testLib (startState year2016)
      (testLinkRequest "7b7d21" "2100-01-01T00:00:00Z" "dsfdsfasfdsf" none)).1 =
      ({ signature.zero with Identity := "7b7d21", ActivateKey := "dsfdsfasfdsf" },
       some jsonError) :=
  ⟨by decide, by decide, by decide, by decide, by decide⟩

/-! ## Theorems: the activation delegate -/

/-- A signature returned without an error is valid and not activated, and holds the `i`
and `s` parameters. -/
theorem verifySignature_ok (lib : GoLib) (st : State) (r : Request)
    (h : (verifySignature lib st r).1.2 = none) :
    (verifySignature lib st r).1.1.IsValid = true ∧
    (verifySignature lib st r).1.1.Activated = false ∧
    (verifySignature lib st r).1.1.Identity = (getArgument r "i" "").headD "" ∧
    (verifySignature lib st r).1.1.ActivateKey = (getArgument r "s" "").headD "" := by
  cases hf : r.ParseFormErr with
  | some e =>
    unfold verifySignature at h
    simp only [hf] at h
    cases h
  | none =>
    cases hhex : hexDecodeString ((getArgument r "i" "").headD "") with
    | none =>
      unfold verifySignature at h
      simp only [hf, hhex] at h
      cases h
    | some b =>
      cases hj : lib.jsonUnmarshal b with
      | none =>
        unfold verifySignature at h
        simp only [hf, hhex, hj] at h
        cases h
      | some doc =>
        rcases hu : unmarshalSignatureData doc { UserID := "", Issued := "", Mobile := 0 }
          with ⟨data, bad⟩
        cases bad with
        | true =>
          unfold verifySignature at h
          simp only [hf, hhex, hj, hu] at h
          cases h
        | false =>
          cases ht : lib.timeParse "2006-01-02 15:04:05" data.Issued with
          | none =>
            unfold verifySignature at h
            simp only [hf, hhex, hj, hu, ht] at h
            cases h
          | some t =>
            by_cases huser : data.UserID = ""
            · have hlen : ¬ (len data.UserID > 0) := by
                rw [(len_eq_zero_iff _).2 huser]
                omega
              unfold verifySignature at h
              simp only [hf, hhex, hj, hu, ht, hlen, if_false] at h
              simp at h
            · have hd := verifySignature_decoded lib st r b doc data t hf hhex hj hu huser ht
              rw [hd] at h ⊢
              by_cases he : stringLess ((getArgument r "e" "").headD "")
                  (lib.timeFormat st.now RFC3339) = true
              · rw [if_pos he] at h
                cases h
              · rw [if_neg he]
                exact ⟨rfl, rfl, rfl, rfl⟩

/-- The four cases of `activateHandler`, by the method and the result `sig` of
`verifySignature`, with the data of the page as `activatePageData` gives it. -/
theorem activateHandler_cases (lib : GoLib) (a : app) (st : State) (r : Request) :
    let sig := verifySignature lib
      { st with w := st.w.Set "Access-Control-Allow-Methods" "GET,POST" } r
    let called := a.ActivateUser sig.2 ((getArgument r "i" "").headD "")
      ((getArgument r "s" "").headD "")
    (r.Method = "POST" → sig.1.2 = none →
      sig.1.1.IsValid = true ∧
      activateHandler lib a st r =
        (.returned (200, none),
          { called.2 with
            w := (renderTemplate a called.2.w "activate.tmpl"
              (activatePageData a called.2
                { sig.1.1 with Activated := called.1.isNone })).2 })) ∧
    (r.Method = "GET" → sig.1.2 = none →
      sig.1.1.Activated = false ∧
      activateHandler lib a st r =
        (.returned (200, none),
          { sig.2 with
            w := (renderTemplate a sig.2.w "activate.tmpl"
              (activatePageData a sig.2 sig.1.1)).2 })) ∧
    (∀ err, (r.Method = "GET" ∨ r.Method = "POST") → sig.1.2 = some err →
      activateHandler lib a st r = (.returned (500, some err), sig.2)) ∧
    (¬ (r.Method = "GET" ∨ r.Method = "POST") →
      activateHandler lib a st r =
        (.returned (405, some "Method not allowed"),
          { st with w := st.w.Set "Access-Control-Allow-Methods" "GET,POST" })) := by
  intro sig called
  have hj : join ["GET", "POST"] "," = "GET,POST" := by decide
  have hlisted : (r.Method = "GET" ∨ r.Method = "POST") →
      checkAllowedMethods r st.w ["GET", "POST"] =
        ((200, none), st.w.Set "Access-Control-Allow-Methods" "GET,POST") := by
    intro hm
    have hl : methodListed r.Method ["GET", "POST"] = true := by
      rcases hm with h | h <;> simp [methodListed, h]
    have hc := checkAllowedMethods_listed r st.w ["GET", "POST"] hl
    rw [hj] at hc
    exact hc
  refine ⟨?_, ?_, ?_, ?_⟩
  · intro hm he
    have hok := verifySignature_ok lib _ r he
    refine ⟨hok.1, ?_⟩
    unfold activateHandler
    rw [hlisted (Or.inr hm)]
    simp only
    have hsig : verifySignature lib
        { st with w := st.w.Set "Access-Control-Allow-Methods" "GET,POST" } r =
        ((sig.1.1, none), sig.2) := by
      rw [← he]
    rw [hsig]
    have hcond : r.Method = "POST" ∧ sig.1.1.IsValid = true := ⟨hm, hok.1⟩
    dsimp only
    rw [if_pos hcond]
    have hid : sig.1.1.Identity = (getArgument r "i" "").headD "" := hok.2.2.1
    have hkey : sig.1.1.ActivateKey = (getArgument r "s" "").headD "" := hok.2.2.2
    have hcalled : a.ActivateUser sig.2 sig.1.1.Identity sig.1.1.ActivateKey = called := by
      rw [hid, hkey]
    rw [hcalled]
    have hact : sig.1.1.Activated = false := hok.2.1
    rcases called with ⟨err, st2⟩
    cases err with
    | none => rfl
    | some e =>
      have hp : ({ sig.1.1 with Activated := false } : signature) = sig.1.1 := by
        rw [← hact]
      simp only [Option.isNone]
      rw [hp]
  · intro hm he
    have hok := verifySignature_ok lib _ r he
    refine ⟨hok.2.1, ?_⟩
    unfold activateHandler
    rw [hlisted (Or.inl hm)]
    simp only
    have hsig : verifySignature lib
        { st with w := st.w.Set "Access-Control-Allow-Methods" "GET,POST" } r =
        ((sig.1.1, none), sig.2) := by
      rw [← he]
    rw [hsig]
    have hcond : ¬ (r.Method = "POST" ∧ sig.1.1.IsValid = true) := by
      rw [hm]
      intro hh
      exact absurd hh.1 (by decide)
    simp only [hcond, if_false]
  · intro err hm he
    unfold activateHandler
    rw [hlisted hm]
    simp only
    have hsig : verifySignature lib
        { st with w := st.w.Set "Access-Control-Allow-Methods" "GET,POST" } r =
        ((sig.1.1, some err), sig.2) := by
      rw [← he]
    rw [hsig]
  · intro hm
    have hl : methodListed r.Method ["GET", "POST"] = false := by
      simp only [not_or] at hm
      simp [methodListed, hm.1, hm.2]
    unfold activateHandler checkAllowedMethods
    simp only [hl, hj]
    rfl

/-- C28. With `sig` the result of `verifySignature` on the request: for a POST whose
signature comes without an error, that is, is valid, `activateHandler` calls `ActivateUser`
once, on the state that `verifySignature` left, with the `i` parameter as identity and the
`s` parameter as activation key, and renders the page from data whose entry `Activated` is
true exactly when the call returned no error; for a GET whose signature is valid it renders
the page from data whose entry `Activated` is false, on the state that `verifySignature`
left, without a call; when `verifySignature` returns an error it returns 500 on that state,
and for every other method 405 with only the allow-methods header set, without a call
either.  The other entries of the data are the static URL base, the validity, the user id,
the issue time, the device name and the error message of the signature, and the logged
user. -/
theorem activateHandler_activation (lib : GoLib) (a : app) (st : State) (r : Request) :
    let sig := verifySignature lib
      { st with w := st.w.Set "Access-Control-Allow-Methods" "GET,POST" } r
    let called := a.ActivateUser sig.2 ((getArgument r "i" "").headD "")
      ((getArgument r "s" "").headD "")
    (r.Method = "POST" → sig.1.2 = none →
      sig.1.1.IsValid = true ∧
      activateHandler lib a st r =
        (.returned (200, none),
          { called.2 with
            w := (renderTemplate a called.2.w "activate.tmpl"
              [("StaticURLBase", .str a.Options.StaticURLBase),
               ("IsValid", .bool true),
               ("Activated", .bool called.1.isNone),
               ("UserID", .str sig.1.1.UserID),
               ("HumanIssued", .str sig.1.1.HumanIssued),
               ("DeviceName", .str sig.1.1.DeviceName),
               ("ErrorMessage", .str sig.1.1.ErrorMessage),
               ("User", .str called.2.c.LoggedUser)]).2 })) ∧
    (r.Method = "GET" → sig.1.2 = none →
      sig.1.1.IsValid = true ∧
      activateHandler lib a st r =
        (.returned (200, none),
          { sig.2 with
            w := (renderTemplate a sig.2.w "activate.tmpl"
              [("StaticURLBase", .str a.Options.StaticURLBase),
               ("IsValid", .bool true),
               ("Activated", .bool false),
               ("UserID", .str sig.1.1.UserID),
               ("HumanIssued", .str sig.1.1.HumanIssued),
               ("DeviceName", .str sig.1.1.DeviceName),
               ("ErrorMessage", .str sig.1.1.ErrorMessage),
               ("User", .str sig.2.c.LoggedUser)]).2 })) ∧
    (∀ err, (r.Method = "GET" ∨ r.Method = "POST") → sig.1.2 = some err →
      activateHandler lib a st r = (.returned (500, some err), sig.2)) ∧
    (¬ (r.Method = "GET" ∨ r.Method = "POST") →
      activateHandler lib a st r =
        (.returned (405, some "Method not allowed"),
          { st with w := st.w.Set "Access-Control-Allow-Methods" "GET,POST" })) := by
  intro sig called
  have hcases := activateHandler_cases lib a st r
  refine ⟨?_, ?_, hcases.2.2.1, hcases.2.2.2⟩
  · intro hm he
    have hok := verifySignature_ok lib _ r he
    have hv : sig.1.1.IsValid = true := hok.1
    refine ⟨hv, ?_⟩
    rw [(hcases.1 hm he).2]
    simp only [activatePageData, hok.1]
  · intro hm he
    have hok := verifySignature_ok lib _ r he
    have hv : sig.1.1.IsValid = true := hok.1
    refine ⟨hv, ?_⟩
    rw [(hcases.2.1 hm he).2]
    simp only [activatePageData, hok.1, hok.2.1]

/-- The valid link of the tests with a recording double for `ActivateUser` and a template
that prints the flag: a POST makes one call with the identity and the activation key and the
page shows the flag true when the call returns no error and false when it returns one; a
GET makes no call and the page shows the flag false. -/
theorem activateHandler_activation_witness :
    ((activateHandler testLib (testPageApp none) (startState year2016)
        (testLinkRequest testIdentity "2100-01-01T00:00:00Z" "dsfdsfasfdsf" none)).2.fetched =
        [{ url := testIdentity, method := "ActivateUser", q := .activate "dsfdsfasfdsf" }] ∧
      (activateHandler testLib (testPageApp none) (startState year2016)
        (testLinkRequest testIdentity "2100-01-01T00:00:00Z" "dsfdsfasfdsf" none)).2.w.Body =
        [.text "Activated: true"]) ∧
    ((activateHandler testLib (testPageApp (some "refused")) (startState year2016)
        (testLinkRequest testIdentity "2100-01-01T00:00:00Z" "dsfdsfasfdsf" none)).2.fetched =
        [{ url := testIdentity, method := "ActivateUser", q := .activate "dsfdsfasfdsf" }] ∧
      (activateHandler testLib (testPageApp (some "refused")) (startState year2016)
        (testLinkRequest testIdentity "2100-01-01T00:00:00Z" "dsfdsfasfdsf" none)).2.w.Body =
        [.text "Activated: false"]) ∧
    ((activateHandler testLib (testPageApp none) (startState year2016)
        { testLinkRequest testIdentity "2100-01-01T00:00:00Z" "dsfdsfasfdsf" none with
          Method := "GET" }).2.fetched = [] ∧
      (activateHandler testLib (testPageApp none) (startState year2016)
        { testLinkRequest testIdentity "2100-01-01T00:00:00Z" "dsfdsfasfdsf" none with
          Method := "GET" }).2.w.Body = [.text "Activated: false"]) :=
  ⟨⟨(congrArg (fun x => x.2.fetched)
        ((activateHandler_activation testLib (testPageApp none) (startState year2016)
          (testLinkRequest testIdentity "2100-01-01T00:00:00Z" "dsfdsfasfdsf" none)).1
          rfl (by decide)).2).trans (by decide),
     (congrArg (fun x => x.2.w.Body)
        ((activateHandler_activation testLib (testPageApp none) (startState year2016)
          (testLinkRequest testIdentity "2100-01-01T00:00:00Z" "dsfdsfasfdsf" none)).1
          rfl (by decide)).2).trans (by decide)⟩,
   ⟨(congrArg (fun x => x.2.fetched)
        ((activateHandler_activation testLib (testPageApp (some "refused"))
          (startState year2016)
          (testLinkRequest testIdentity "2100-01-01T00:00:00Z" "dsfdsfasfdsf" none)).1
          rfl (by decide)).2).trans (by decide),
     (congrArg (fun x => x.2.w.Body)
        ((activateHandler_activation testLib (testPageApp (some "refused"))
          (startState year2016)
          (testLinkRequest testIdentity "2100-01-01T00:00:00Z" "dsfdsfasfdsf" none)).1
          rfl (by decide)).2).trans (by decide)⟩,
   ⟨(congrArg (fun x => x.2.fetched)
        ((activateHandler_activation testLib (testPageApp none) (startState year2016)
          { testLinkRequest testIdentity "2100-01-01T00:00:00Z" "dsfdsfasfdsf" none with
            Method := "GET" }).2.1 rfl (by decide)).2).trans (by decide),
     (congrArg (fun x => x.2.w.Body)
        ((activateHandler_activation testLib (testPageApp none) (startState year2016)
          { testLinkRequest testIdentity "2100-01-01T00:00:00Z" "dsfdsfasfdsf" none with
            Method := "GET" }).2.1 rfl (by decide)).2).trans (by decide)⟩⟩

/-- The valid link of the tests with a recording double for `ActivateUser`: a POST makes
one call with the identity and the activation key, a GET makes none. -/
theorem activateHandler_activation_example :
    (activateHandler testLib (testActivateApp none) (startState year2016)
      (testLinkRequest testIdentity "2100-01-01T00:00:00Z" "dsfdsfasfdsf" none)).2.fetched =
      [{ url := testIdentity, method := "ActivateUser", q := .activate "dsfdsfasfdsf" }] ∧
    (activateHandler testLib (testActivateApp none) (startState year2016)
      { testLinkRequest testIdentity "2100-01-01T00:00:00Z" "dsfdsfasfdsf" none with
        Method := "GET" }).2.fetched = [] ∧
    (activateHandler testLib (testActivateApp none) (startState year2016)
      { testLinkRequest testIdentity "2100-01-01T00:00:00Z" "dsfdsfasfdsf" none with
        Method := "GET" }).1 = .returned (200, none) := by
  refine ⟨?_, ?_, ?_⟩ <;> decide

/-! ## Theorems: the verification step -/

/-- A non-empty verify-identity URL gives a base URL. -/
theorem baseURL_isSome (a : app) (r : Request) (hurl : a.Options.VerifyIdentityURL ≠ "") :
    ∃ u, baseURL a r = some u := by
  unfold baseURL
  cases hd : a.Options.VerifyIdentityURL.data with
  | nil =>
    have : a.Options.VerifyIdentityURL = "" := by
      have h2 : a.Options.VerifyIdentityURL = String.mk a.Options.VerifyIdentityURL.data := rfl
      rw [h2, hd]
    exact absurd this hurl
  | cons first rest =>
    simp only
    split
    · exact ⟨_, rfl⟩
    · exact ⟨_, rfl⟩

/-- With directory verification switched off the directory block does nothing. -/
theorem directoryCheck_disabled (net : Network) (a : app) (st : State)
    (rq : verifyUserRequest) (hldap : a.Options.LDAPVerify = false) :
    directoryCheck net a st rq = (.returned none, st) := by
  unfold directoryCheck
  simp [hldap]

/-- The numeric-code mail is handed to `smtp.SendMail` and leaves the rest of the state. -/
theorem sendEMpinActivationMail_state (net : Network) (st : State) (userID deviceName : String)
    (activationCode : Int) (o : options) :
    (sendEMpinActivationMail net st userID deviceName activationCode o).2 =
      { st with smtpSent := st.smtpSent ++
        [{ addr := o.SMTPServer ++ ":" ++ Itoa o.SMTPSPort,
           auth := if o.SMTPPassword = "" then none
                   else some (o.SMTPSUser, o.SMTPPassword, o.SMTPServer),
           sender := o.EmailSender, recipients := [userID],
           msg := "From: " ++ o.EmailSender ++ "\r\n" ++ "To: " ++ userID ++ "\r\n" ++
             "Subject: " ++ o.EmailSubject ++ "\r\n" ++ "\r\n" ++
             "Your Activation code is" ++ "\r\n" ++
             activationCodeStr activationCode ++ "\r\n" ++ "\r\n" ++
             "Regards," ++ "\r\n" ++ "The Milagro MFA Team" ++ "\r\n" }] } := rfl

/-- C24. With the option `ForceActivate` set and a non-empty verify-identity URL,
`verifyUser` returns (200, nil) for every request and leaves the state as it is: no call on
the directory, no call of `Mail` and no call of `smtp.SendMail`, whatever the other
options, the network and the collaborators. -/
theorem verifyUser_force_activate (net : Network) (a : app) (st : State) (r : Request)
    (rq : verifyUserRequest) (hforce : a.Options.ForceActivate = true)
    (hurl : a.Options.VerifyIdentityURL ≠ "") :
    verifyUser net a st r rq = (.returned (200, none), st) := by
  obtain ⟨u, hu⟩ := baseURL_isSome a r hurl
  unfold verifyUser
  rw [hu]
  simp only [hforce, if_true]

/-- The request of the tests with `ForceActivate` set and directory verification switched
on: status 200 and no recorded call. -/
theorem verifyUser_force_activate_witness :
    (verifyUser testNetwork forceApp (startState unixEpoch)
      (testDesktopRequest "123456789012") (testDesktopRq 123456789012)).1 =
        .returned (200, none) ∧
    (verifyUser testNetwork forceApp (startState unixEpoch)
      (testDesktopRequest "123456789012") (testDesktopRq 123456789012)).2.ldapOps = [] ∧
    (verifyUser testNetwork forceApp (startState unixEpoch)
      (testDesktopRequest "123456789012") (testDesktopRq 123456789012)).2.mailed = [] ∧
    (verifyUser testNetwork forceApp (startState unixEpoch)
      (testDesktopRequest "123456789012") (testDesktopRq 123456789012)).2.smtpSent = [] := by
  rw [verifyUser_force_activate testNetwork forceApp (startState unixEpoch)
    (testDesktopRequest "123456789012") (testDesktopRq 123456789012) rfl (by decide)]
  exact ⟨rfl, rfl, rfl, rfl⟩

/-- The bind and the search record calls on the directory only. -/
theorem directorySearch_logs (net : Network) (a : app) (st : State) (rq : verifyUserRequest) :
    (directorySearch net a st rq).2.mailed = st.mailed ∧
    (directorySearch net a st rq).2.smtpSent = st.smtpSent ∧
    (directorySearch net a st rq).2.w = st.w := by
  unfold directorySearch
  by_cases hbind : a.Options.LDAPBindDN ≠ "" ∧ a.Options.LDAPBindPWD ≠ ""
  · rw [if_pos hbind]
    cases net.ldapBind a.Options.LDAPBindDN a.Options.LDAPBindPWD with
    | some e => exact ⟨rfl, rfl, rfl⟩
    | none =>
      simp only
      cases net.ldapSearch ⟨a.Options.LDAPBaseDN, a.Options.LDAPFilter, rq.UserID⟩ with
      | error e => exact ⟨rfl, rfl, rfl⟩
      | ok n =>
        simp only
        split
        · split <;> exact ⟨rfl, rfl, rfl⟩
        · exact ⟨rfl, rfl, rfl⟩
  · rw [if_neg hbind]
    simp only
    cases net.ldapSearch ⟨a.Options.LDAPBaseDN, a.Options.LDAPFilter, rq.UserID⟩ with
    | error e => exact ⟨rfl, rfl, rfl⟩
    | ok n =>
      simp only
      split
      · split <;> exact ⟨rfl, rfl, rfl⟩
      · exact ⟨rfl, rfl, rfl⟩

/-- The directory block records calls on the directory only. -/
theorem directoryCheck_logs (net : Network) (a : app) (st : State) (rq : verifyUserRequest) :
    (directoryCheck net a st rq).2.mailed = st.mailed ∧
    (directoryCheck net a st rq).2.smtpSent = st.smtpSent ∧
    (directoryCheck net a st rq).2.w = st.w := by
  unfold directoryCheck
  by_cases hldap : a.Options.LDAPVerify = true
  · simp only [hldap, if_true]
    by_cases htls : a.Options.LDAPUseTLS = true
    · simp only [htls, Bool.not_true, Bool.false_eq_true, if_false]
      cases a.tlsConfig with
      | none => exact ⟨rfl, rfl, rfl⟩
      | some cfg =>
        simp only
        cases net.ldapDialTLS (a.Options.LDAPServer ++ ":" ++ Itoa a.Options.LDAPPort)
            a.Options.LDAPServer with
        | some e => exact ⟨rfl, rfl, rfl⟩
        | none => exact directorySearch_logs net a _ rq
    · simp only [htls, Bool.not_false, if_true]
      cases net.ldapDial (a.Options.LDAPServer ++ ":" ++ Itoa a.Options.LDAPPort) with
      | some e => exact ⟨rfl, rfl, rfl⟩
      | none => exact directorySearch_logs net a _ rq
  · simp only [hldap]
    exact ⟨rfl, rfl, rfl⟩

/-- A search without an entry, with `LDAPVerifyShow` off, ends the verification with
(200, nil). -/
theorem directorySearch_not_found (net : Network) (a : app) (st : State)
    (rq : verifyUserRequest)
    (hbind : a.Options.LDAPBindDN = "" ∨ a.Options.LDAPBindPWD = "" ∨
      net.ldapBind a.Options.LDAPBindDN a.Options.LDAPBindPWD = none)
    (hsearch : net.ldapSearch ⟨a.Options.LDAPBaseDN, a.Options.LDAPFilter, rq.UserID⟩ = .ok 0)
    (hshow : a.Options.LDAPVerifyShow = false) :
    (directorySearch net a st rq).1 = some (200, none) := by
  unfold directorySearch
  by_cases hb : a.Options.LDAPBindDN ≠ "" ∧ a.Options.LDAPBindPWD ≠ ""
  · have hok : net.ldapBind a.Options.LDAPBindDN a.Options.LDAPBindPWD = none := by
      rcases hbind with h | h | h
      · exact absurd h hb.1
      · exact absurd h hb.2
      · exact h
    rw [if_pos hb, hok]
    simp [hsearch, hshow]
  · rw [if_neg hb]
    simp [hsearch, hshow]

/-- A search that finds an entry lets the verification go on. -/
theorem directorySearch_found (net : Network) (a : app) (st : State)
    (rq : verifyUserRequest) (n : Nat)
    (hbind : a.Options.LDAPBindDN = "" ∨ a.Options.LDAPBindPWD = "" ∨
      net.ldapBind a.Options.LDAPBindDN a.Options.LDAPBindPWD = none)
    (hsearch : net.ldapSearch ⟨a.Options.LDAPBaseDN, a.Options.LDAPFilter, rq.UserID⟩ =
      .ok (n + 1)) :
    (directorySearch net a st rq).1 = none := by
  unfold directorySearch
  by_cases hb : a.Options.LDAPBindDN ≠ "" ∧ a.Options.LDAPBindPWD ≠ ""
  · have hok : net.ldapBind a.Options.LDAPBindDN a.Options.LDAPBindPWD = none := by
      rcases hbind with h | h | h
      · exact absurd h hb.1
      · exact absurd h hb.2
      · exact h
    rw [if_pos hb, hok]
    simp [hsearch]
  · rw [if_neg hb]
    simp [hsearch]

/-- C25. With `ForceActivate` off and a base URL `u`.  When the directory block lets the
request through, which it does when directory verification is off and when the search finds
an entry, `verifyUser` returns (200, nil), a non-empty activation key makes one call of
`Mail` with the user id, the device class of the mobile flag and the link built on `u`, and
a non-zero activation code hands one numeric-code mail for the user id to
`smtp.SendMail`.  When `verifyUser` returns from inside the directory block it returns the
result of the block and no mail of either kind is dispatched; this is the case, with the
result (200, nil), when the search finds no entry and `LDAPVerifyShow` is off. -/
theorem verifyUser_dispatch (net : Network) (a : app) (st : State) (r : Request)
    (rq : verifyUserRequest) (u : String) (hforce : a.Options.ForceActivate = false)
    (hu : baseURL a r = some u) :
    ((directoryCheck net a st rq).1 = .returned none →
      (verifyUser net a st r rq).1 = .returned (200, none) ∧
      (rq.ActivateKey ≠ "" →
        (verifyUser net a st r rq).2.mailed = st.mailed ++
          [{ userID := rq.UserID, deviceName := if rq.Mobile = 0 then "PC" else "Mobile",
             validateURL := u ++ "?i=" ++ rq.MpinID ++ "&e=" ++ rq.ExpireTime ++ "&s=" ++
               rq.ActivateKey }]) ∧
      (rq.ActivationCode ≠ 0 →
        (verifyUser net a st r rq).2.smtpSent = st.smtpSent ++
          [{ addr := a.Options.SMTPServer ++ ":" ++ Itoa a.Options.SMTPSPort,
             auth := if a.Options.SMTPPassword = "" then none
                     else some (a.Options.SMTPSUser, a.Options.SMTPPassword,
                       a.Options.SMTPServer),
             sender := a.Options.EmailSender, recipients := [rq.UserID],
             msg := "From: " ++ a.Options.EmailSender ++ "\r\n" ++ "To: " ++ rq.UserID ++
               "\r\n" ++ "Subject: " ++ a.Options.EmailSubject ++ "\r\n" ++ "\r\n" ++
               "Your Activation code is" ++ "\r\n" ++
               activationCodeStr rq.ActivationCode ++ "\r\n" ++ "\r\n" ++
               "Regards," ++ "\r\n" ++ "The Milagro MFA Team" ++ "\r\n" }])) ∧
    (∀ res, (directoryCheck net a st rq).1 = .returned (some res) →
      (verifyUser net a st r rq).1 = .returned res ∧
      (verifyUser net a st r rq).2.mailed = st.mailed ∧
      (verifyUser net a st r rq).2.smtpSent = st.smtpSent) ∧
    (a.Options.LDAPVerify = false → (directoryCheck net a st rq).1 = .returned none) ∧
    (∀ n, a.Options.LDAPVerify = true → a.Options.LDAPUseTLS = false →
      net.ldapDial (a.Options.LDAPServer ++ ":" ++ Itoa a.Options.LDAPPort) = none →
      (a.Options.LDAPBindDN = "" ∨ a.Options.LDAPBindPWD = "" ∨
        net.ldapBind a.Options.LDAPBindDN a.Options.LDAPBindPWD = none) →
      net.ldapSearch ⟨a.Options.LDAPBaseDN, a.Options.LDAPFilter, rq.UserID⟩ = .ok (n + 1) →
      (directoryCheck net a st rq).1 = .returned none) ∧
    (a.Options.LDAPVerify = true → a.Options.LDAPUseTLS = false →
      net.ldapDial (a.Options.LDAPServer ++ ":" ++ Itoa a.Options.LDAPPort) = none →
      (a.Options.LDAPBindDN = "" ∨ a.Options.LDAPBindPWD = "" ∨
        net.ldapBind a.Options.LDAPBindDN a.Options.LDAPBindPWD = none) →
      net.ldapSearch ⟨a.Options.LDAPBaseDN, a.Options.LDAPFilter, rq.UserID⟩ = .ok 0 →
      a.Options.LDAPVerifyShow = false →
      (directoryCheck net a st rq).1 = .returned (some (200, none))) := by
  have hlogs := directoryCheck_logs net a st rq
  have hnf : ¬ (a.Options.ForceActivate = true) := by rw [hforce]; decide
  refine ⟨?_, ?_, ?_, ?_, ?_⟩
  · intro hd
    rcases hdc : directoryCheck net a st rq with ⟨out, st1⟩
    rw [hdc] at hd hlogs
    simp only at hd hlogs
    subst hd
    unfold verifyUser
    rw [hu]
    simp only [hforce, Bool.false_eq_true, if_false, hdc]
    refine ⟨trivial, ?_, ?_⟩
    · intro hkey
      rw [if_pos hkey]
      by_cases hcode : rq.ActivationCode ≠ 0
      · rw [if_pos hcode, sendEMpinActivationMail_state]
        simp only [hlogs.1]
      · rw [if_neg hcode]
        simp only [hlogs.1]
    · intro hcode
      rw [if_pos hcode, sendEMpinActivationMail_state]
      by_cases hkey : rq.ActivateKey ≠ ""
      · rw [if_pos hkey]
        simp only [hlogs.2.1]
      · rw [if_neg hkey]
        simp only [hlogs.2.1]
  · intro res hd
    rcases hdc : directoryCheck net a st rq with ⟨out, st1⟩
    rw [hdc] at hd hlogs
    simp only at hd hlogs
    subst hd
    unfold verifyUser
    rw [hu]
    simp only [hforce, Bool.false_eq_true, if_false, hdc]
    exact ⟨trivial, hlogs.1, hlogs.2.1⟩
  · intro hldap
    rw [directoryCheck_disabled net a st rq hldap]
  · intro n hldap htls hdial hbind hsearch
    unfold directoryCheck
    simp only [hldap, htls, hdial, if_true, Bool.not_false]
    exact congrArg Outcome.returned (directorySearch_found net a _ rq n hbind hsearch)
  · intro hldap htls hdial hbind hsearch hshow
    unfold directoryCheck
    simp only [hldap, htls, hdial, if_true, Bool.not_false]
    exact congrArg Outcome.returned (directorySearch_not_found net a _ rq hbind hsearch hshow)

/-- The first accepted case of the tests, without directory verification: one call of
`Mail` for a desktop with the link, and one numeric-code mail. -/
theorem verifyUser_dispatch_witness :
    (verifyUser testNetwork testApp (startState unixEpoch)
      (testDesktopRequest "123456789012") (testDesktopRq 123456789012)).2.mailed =
      [{ userID := "root@localhost", deviceName := "PC",
         validateURL :=
           "http://localhost:8005/mpinActivate?i=aaa&e=12345678901234567890&s=dummy" }] :=
  (((verifyUser_dispatch testNetwork testApp (startState unixEpoch)
      (testDesktopRequest "123456789012") (testDesktopRq 123456789012)
      "http://localhost:8005/mpinActivate" rfl (by decide)).1 (by decide)).2.1
      (by decide)).trans (by decide)

/-- The request of `TestVerifyUserHandlerLDAPSearchNotFoundOK`, which carries the
activation key "dummy", with a directory that finds no entry and `LDAPVerifyShow` off:
`verifyUser` returns (200, nil), the directory was dialled, searched and closed, and no
mail was dispatched. -/
theorem verifyUser_not_found_counterexample :
    ldapApp.Options.ForceActivate = false ∧ ldapApp.Options.LDAPVerifyShow = false ∧
    testUnknownRq.ActivateKey = "dummy" ∧
    (verifyUser emptyDirectory ldapApp (startState unixEpoch)
      (NewRequest "POST" "/" none) testUnknownRq).1 = .returned (200, none) ∧
    (verifyUser emptyDirectory ldapApp (startState unixEpoch)
      (NewRequest "POST" "/" none) testUnknownRq).2.ldapOps =
      [.dial "127.0.0.1:10389", .search ⟨"", "(uid=%s)", "invalid"⟩, .close] ∧
    (verifyUser emptyDirectory ldapApp (startState unixEpoch)
      (NewRequest "POST" "/" none) testUnknownRq).2.mailed = [] ∧
    (verifyUser emptyDirectory ldapApp (startState unixEpoch)
      (NewRequest "POST" "/" none) testUnknownRq).2.smtpSent = [] := by
  refine ⟨rfl, rfl, rfl, ?_, ?_, ?_, ?_⟩ <;> decide

/-! ## Theorems: the answer to a verify request -/

/-- Without directory verification and with a non-empty verify-identity URL, `verifyUser`
returns (200, nil) and leaves the response writer as it is. -/
theorem verifyUser_without_directory (net : Network) (a : app) (st : State) (r : Request)
    (rq : verifyUserRequest) (hldap : a.Options.LDAPVerify = false)
    (hurl : a.Options.VerifyIdentityURL ≠ "") :
    (verifyUser net a st r rq).1 = .returned (200, none) ∧
    (verifyUser net a st r rq).2.w = st.w := by
  obtain ⟨u, hu⟩ := baseURL_isSome a r hurl
  unfold verifyUser
  rw [hu]
  cases hforce : a.Options.ForceActivate with
  | true => simp
  | false =>
    simp only [Bool.false_eq_true, if_false, directoryCheck_disabled net a st rq hldap]
    refine ⟨trivial, ?_⟩
    simp only [sendEMpinActivationMail_state]
    split_ifs <;> rfl

/-- The answer to a validated request when `verifyUser` returns (200, nil) and leaves the
writer as it is: the header, the body, and the result of the write. -/
theorem verifyUserReply_ok (net : Network) (a : app) (st : State) (r : Request)
    (rq : verifyUserRequest)
    (hv : (verifyUser net a st r rq).1 = .returned (200, none))
    (hw : (verifyUser net a st r rq).2.w = st.w) :
    (verifyUserReply net a st r rq).1 =
      .returned (if st.w.WriteErr = none then (200, none)
                 else (500, some "Failed to encode response")) ∧
    (verifyUserReply net a st r rq).2.w =
      ((st.w.Set "Content-Type" "application/json").Write
        (.verifyUser { ForceActivate := a.Options.ForceActivate })).2 := by
  unfold verifyUserReply encodeJSONResponse
  rcases hvu : verifyUser net a st r rq with ⟨out, st1⟩
  rw [hvu] at hv hw
  simp only at hv hw
  subst hv
  simp only [hw]
  have h1 := Write_fst (st.w.Set "Content-Type" "application/json")
    (.verifyUser { ForceActivate := a.Options.ForceActivate })
  have hset : (st.w.Set "Content-Type" "application/json").WriteErr = st.w.WriteErr := rfl
  rw [hset] at h1
  rcases hwr : (st.w.Set "Content-Type" "application/json").Write
    (.verifyUser { ForceActivate := a.Options.ForceActivate }) with ⟨e, w1⟩
  rw [hwr] at h1
  simp only at h1
  rw [← h1]
  cases e <;> simp

/-- A write that works appends the chunk. -/
theorem Write_body (w : ResponseWriter) (chunk : Chunk) (h : w.WriteErr = none) :
    (w.Write chunk).2.Body = w.Body ++ [chunk] := by
  unfold ResponseWriter.Write ResponseWriter.WriteHeader
  cases hc : w.Code <;> simp [h]

/-- C22. For every verify request that passes the key checks, decodes and passes every
check of its fields, with directory verification switched off and a non-empty
verify-identity URL: the handler returns (200, nil) when the reply is written without
error, and (500, "Failed to encode response") when the write fails; the reply has the
JSON content type and its body is `verifyUserResponse` holding the configured
`ForceActivate`; and the result is the same for every `Mail` collaborator and every
network, so whether sending the activation mail succeeds or fails. -/
theorem verifyUserHandler_success (net : Network) (a : app) (st : State) (r : Request)
    (rq : verifyUserRequest) (h : verifyRequestDecodes st r rq)
    (hvalid : validateVerifyRequest rq = none) (hldap : a.Options.LDAPVerify = false)
    (hurl : a.Options.VerifyIdentityURL ≠ "") :
    (verifyUserHandler net a st r).1 =
      .returned (if st.w.WriteErr = none then (200, none)
                 else (500, some "Failed to encode response")) ∧
    (st.w.WriteErr = none →
      (verifyUserHandler net a st r).2.w.Body =
        st.w.Body ++ [.verifyUser { ForceActivate := a.Options.ForceActivate }]) ∧
    (verifyUserHandler net a st r).2.w.Header "Content-Type" = some "application/json" ∧
    (∀ (net2 : Network) (mail : MailCall → Option String),
      (verifyUserHandler net2 { a with Mail := mail } st r).1 =
        (verifyUserHandler net a st r).1 ∧
      (verifyUserHandler net2 { a with Mail := mail } st r).2.w =
        (verifyUserHandler net a st r).2.w) := by
  have key : ∀ (net : Network) (a2 : app), a2.Options = a.Options →
      (verifyUserHandler net a2 st r).1 =
        .returned (if st.w.WriteErr = none then (200, none)
                   else (500, some "Failed to encode response")) ∧
      (verifyUserHandler net a2 st r).2.w =
        (((st.w.Set "Access-Control-Allow-Methods" "POST").Set "Content-Type"
          "application/json").Write
          (.verifyUser { ForceActivate := a.Options.ForceActivate })).2 := by
    intro net a2 ho
    have hldap2 : a2.Options.LDAPVerify = false := by rw [ho]; exact hldap
    have hurl2 : a2.Options.VerifyIdentityURL ≠ "" := by rw [ho]; exact hurl
    rw [verifyUserHandler_decoded net a2 st r rq h, hvalid]
    have hvu := verifyUser_without_directory net a2
      { st with w := st.w.Set "Access-Control-Allow-Methods" "POST",
                c := { st.c with UserID := rq.UserID } } r rq hldap2 hurl2
    have hrep := verifyUserReply_ok net a2 _ r rq hvu.1 hvu.2
    rw [ho] at hrep
    exact hrep
  have hk := key net a rfl
  refine ⟨hk.1, ?_, ?_, ?_⟩
  · intro hw
    have hw2 : ((st.w.Set "Access-Control-Allow-Methods" "POST").Set "Content-Type"
        "application/json").WriteErr = none := hw
    rw [hk.2, Write_body _ _ hw2]
    rfl
  · rw [hk.2]
    unfold ResponseWriter.Write ResponseWriter.WriteHeader
    cases hc : st.w.Code <;> cases he : st.w.WriteErr <;>
      simp [ResponseWriter.Set, hc, he]
  · intro net2 mail
    have hk2 := key net2 { a with Mail := mail } rfl
    exact ⟨hk2.1.trans hk.1.symm, hk2.2.trans hk.2.symm⟩

/-- The first accepted case of the tests with the failing `Mail` double of
`testVerifyUserHandlerBasic2`: status 200 and the body with `forceActivate` false. -/
theorem verifyUserHandler_success_witness :
    (verifyUserHandler testNetwork
      { testApp with Mail := fun _ => some "Failed to send mail" } (startState unixEpoch)
      (testDesktopRequest "123456789012")).1 = .returned (200, none) ∧
    (verifyUserHandler testNetwork
      { testApp with Mail := fun _ => some "Failed to send mail" } (startState unixEpoch)
      (testDesktopRequest "123456789012")).2.w.Body =
      [.verifyUser { ForceActivate := false }] :=
  ⟨(verifyUserHandler_success testNetwork
      { testApp with Mail := fun _ => some "Failed to send mail" } (startState unixEpoch)
      (testDesktopRequest "123456789012") (testDesktopRq 123456789012)
      testDesktopRequest_decodes (by decide) rfl (by decide)).1,
   by decide⟩

/-- The first accepted case of the tests on a connection that is broken: every check
passes and directory verification is off, and the handler returns 500. -/
theorem verifyUserHandler_write_failure_counterexample :
    verifyRequestDecodes brokenPipeState (testDesktopRequest "123456789012")
      (testDesktopRq 123456789012) ∧
    validateVerifyRequest (testDesktopRq 123456789012) = none ∧
    testApp.Options.LDAPVerify = false ∧
    (verifyUserHandler testNetwork testApp brokenPipeState
      (testDesktopRequest "123456789012")).1 =
        .returned (500, some "Failed to encode response") :=
  ⟨⟨rfl, _, rfl, by decide, rfl⟩, by decide, rfl, by decide⟩

/-- The status code after `http.Error` on a writer whose header is not yet written. -/
theorem httpError_code (w : ResponseWriter) (error : String) (code : Int)
    (h : w.Code = none) : (httpError w error code).Code = some code := by
  unfold httpError ResponseWriter.Write ResponseWriter.WriteHeader
  simp only [ResponseWriter.Set, h]
  cases w.WriteErr <;> rfl

/-- C23. For a POST whose body is an object that passes the key checks and whose values
cannot be stored in the typed request, `verifyUserHandler` returns status 500, with the
error text "BAD REQUEST. INVALID USER ID", before any check of the fields and with only the
allow-methods header set; the dispatcher then writes the response for status 500, with the
status text as body, and the status code 500 when no header was written before. -/
theorem verifyUserHandler_undecodable (lib : GoLib) (net : Network) (a : app) (st : State)
    (r : Request) (m : List (String × JSON)) (hm : r.Method = "POST")
    (hb : r.Body = some (.obj m)) (hkeys : verifyKeysRejected st.mapOrder m = false)
    (hbad : (unmarshalVerifyMembers verifyUserRequest.zero m).2 = true) :
    verifyUserHandler net a st r =
      (.returned (500, some "BAD REQUEST. INVALID USER ID"),
        { st with w := st.w.Set "Access-Control-Allow-Methods" "POST" }) ∧
    (serveStages lib [verifyUserHandler net a] st r).2.w =
      httpError (st.w.Set "Access-Control-Allow-Methods" "POST") (lib.StatusText 500) 500 ∧
    (st.w.Code = none →
      (serveStages lib [verifyUserHandler net a] st r).2.w.Code = some 500) := by
  have hres : verifyUserHandler net a st r =
      (.returned (500, some "BAD REQUEST. INVALID USER ID"),
        { st with w := st.w.Set "Access-Control-Allow-Methods" "POST" }) := by
    rw [verifyUserHandler_object net a st r m hm hb, hkeys]
    rcases hu : unmarshalVerifyMembers verifyUserRequest.zero m with ⟨rq, bad⟩
    rw [hu] at hbad
    simp only at hbad
    subst hbad
    simp
  have hserve : (serveStages lib [verifyUserHandler net a] st r).2.w =
      httpError (st.w.Set "Access-Control-Allow-Methods" "POST") (lib.StatusText 500) 500 := by
    unfold serveStages
    rw [hres]
    simp [writeErrorResponse]
  refine ⟨hres, hserve, ?_⟩
  intro hcode
  rw [hserve]
  exact httpError_code _ _ _ hcode

/-- The body of the tests whose activation code is the string "JSONERROR": the keys pass,
the value cannot be stored in an `int`, and the handler returns 500. -/
theorem verifyUserHandler_undecodable_witness :
    verifyKeysRejected (startState unixEpoch).mapOrder testUndecodableBody = false ∧
    (verifyUserHandler testNetwork testApp (startState unixEpoch)
      (NewRequest "POST" "/" (some (.obj testUndecodableBody)))).1 =
        .returned (500, some "BAD REQUEST. INVALID USER ID") ∧
    (serveStages testLib [verifyUserHandler testNetwork testApp] (startState unixEpoch)
      (NewRequest "POST" "/" (some (.obj testUndecodableBody)))).2.w.Code = some 500 :=
  ⟨by decide,
   congrArg Prod.fst (verifyUserHandler_undecodable testLib testNetwork testApp
      (startState unixEpoch) (NewRequest "POST" "/" (some (.obj testUndecodableBody)))
      testUndecodableBody rfl rfl (by decide) (by decide)).1,
   by decide⟩

/-! ## Theorems: the order of the checks of a verify request -/

/-- C21. For a POST whose body is an object `m`, whatever the order in which `range` visits
the keys, the handler reports the first failure in this order.  The key set: (400,
"BAD REQUEST. INVALID KEY").  Then the decoding of the values into the typed request: 500.
Then, on the decoded request, the user id: 403; the M-Pin id: (400, "BAD REQUEST. INVALID
MPIN ID"); the expire time; the activation key for `mobile` 1 and the activation code for
`mobile` 0; and a `mobile` other than 0 and 1: (400, "BAD REQUEST. INVALID MOBILE").  On
each of these rejections the state is the given one with the allow-methods header and, once
the request is decoded, the user id of the context: no call on the directory, of `Mail` or
of `smtp.SendMail` has been made. -/
theorem verifyUserHandler_first_violation (net : Network) (a : app) (st : State)
    (r : Request) (m : List (String × JSON)) (hm : r.Method = "POST")
    (hb : r.Body = some (.obj m)) (hperm : ∀ ks, (st.mapOrder ks).Perm ks) :
    (keyCheckFails m →
      verifyUserHandler net a st r =
        (.returned (400, some "BAD REQUEST. INVALID KEY"),
          { st with w := st.w.Set "Access-Control-Allow-Methods" "POST" })) ∧
    (∀ rq, ¬ keyCheckFails m → unmarshalVerifyMembers verifyUserRequest.zero m = (rq, true) →
      verifyUserHandler net a st r =
        (.returned (500, some "BAD REQUEST. INVALID USER ID"),
          { st with w := st.w.Set "Access-Control-Allow-Methods" "POST" })) ∧
    (∀ rq, ¬ keyCheckFails m → unmarshalVerifyMembers verifyUserRequest.zero m = (rq, false) →
      (validateUserID rq ≠ none →
        verifyUserHandler net a st r =
          (.returned (403, some "BAD REQUEST. INVALID USER ID"),
            { st with w := st.w.Set "Access-Control-Allow-Methods" "POST",
                      c := { st.c with UserID := rq.UserID } })) ∧
      (validateUserID rq = none → validateMpinID rq ≠ none →
        verifyUserHandler net a st r =
          (.returned (400, some "BAD REQUEST. INVALID MPIN ID"),
            { st with w := st.w.Set "Access-Control-Allow-Methods" "POST",
                      c := { st.c with UserID := rq.UserID } })) ∧
      (validateUserID rq = none → validateMpinID rq = none → validateExpireTime rq ≠ none →
        verifyUserHandler net a st r =
          (.returned (400, some "BAD REQUEST. INVALID EXPIRE TIME"),
            { st with w := st.w.Set "Access-Control-Allow-Methods" "POST",
                      c := { st.c with UserID := rq.UserID } })) ∧
      (validateUserID rq = none → validateMpinID rq = none → validateExpireTime rq = none →
        validateActivation rq ≠ none →
        verifyUserHandler net a st r =
          (.returned (400, some (if rq.Mobile = 1 then "BAD REQUEST. INVALID ACTIVATEKEY"
                                 else "BAD REQUEST. INVALID ACTIVATIONCODE")),
            { st with w := st.w.Set "Access-Control-Allow-Methods" "POST",
                      c := { st.c with UserID := rq.UserID } })) ∧
      (validateUserID rq = none → validateMpinID rq = none → validateExpireTime rq = none →
        rq.Mobile ≠ 0 → rq.Mobile ≠ 1 →
        verifyUserHandler net a st r =
          (.returned (400, some "BAD REQUEST. INVALID MOBILE"),
            { st with w := st.w.Set "Access-Control-Allow-Methods" "POST",
                      c := { st.c with UserID := rq.UserID } }))) := by
  have hiff := verifyKeysRejected_iff st.mapOrder m hperm
  have hform := verifyUserHandler_object net a st r m hm hb
  have hpass : ¬ keyCheckFails m → verifyKeysRejected st.mapOrder m = false := by
    intro hp
    cases hq : verifyKeysRejected st.mapOrder m with
    | false => rfl
    | true => exact absurd (hiff.1 hq) hp
  refine ⟨?_, ?_, ?_⟩
  · intro hfail
    rw [hform, if_pos (hiff.2 hfail)]
  · intro rq hp hu
    rw [hform, hpass hp, hu]
    simp
  · intro rq hp hu
    have hdec := verifyUserHandler_decoded net a st r rq ⟨hm, m, hb, hpass hp, hu⟩
    refine ⟨?_, ?_, ?_, ?_, ?_⟩
    · intro h1
      cases hv : validateUserID rq with
      | none => exact absurd hv h1
      | some e =>
        rw [hdec, validateVerifyRequest_eq, hv, validateUserID_some rq e hv]
        rfl
    · intro h1 h2
      cases hv : validateMpinID rq with
      | none => exact absurd hv h2
      | some e =>
        rw [hdec, validateVerifyRequest_after_userID rq h1, hv, validateMpinID_some rq e hv]
        rfl
    · intro h1 h2 h3
      cases hv : validateExpireTime rq with
      | none => exact absurd hv h3
      | some e =>
        rw [hdec, validateVerifyRequest_after_mpinID rq h1 h2, hv,
          validateExpireTime_some rq e hv]
        rfl
    · intro h1 h2 h3 h4
      cases hv : validateActivation rq with
      | none => exact absurd hv h4
      | some e =>
        rw [hdec, validateVerifyRequest_after_expireTime rq h1 h2 h3, hv]
        rcases validateActivation_some rq e hv with hh | hh
        · rw [hh.2, if_pos hh.1]
          rfl
        · have hne : ¬ rq.Mobile = 1 := by rw [hh.1]; decide
          rw [hh.2, if_neg hne]
          rfl
    · intro h1 h2 h3 h0 hone
      have hact : validateActivation rq = none := by
        unfold validateActivation
        rw [if_neg hone, if_neg h0]
      have hmob : validateMobile rq = some (400, "BAD REQUEST. INVALID MOBILE") := by
        unfold validateMobile
        rw [if_pos ⟨h0, hone⟩]
      rw [hdec, validateVerifyRequest_after_expireTime rq h1 h2 h3, hact]
      simp only [Option.orElse, hmob]

/-- The case of the tests with `mobile` 2 and no other failure: (400, "BAD REQUEST. INVALID
MOBILE"), and no call of the directory or of the mailers. -/
theorem verifyUserHandler_first_violation_witness :
    (verifyUserHandler testNetwork testApp (startState unixEpoch)
      (NewRequest "POST" "/" (some (testVerifyBody "TestUser" "aaa" "12345678901234567890"
        "2" "dummy" "123456789012")))).1 =
      .returned (400, some "BAD REQUEST. INVALID MOBILE") ∧
    (verifyUserHandler testNetwork testApp (startState unixEpoch)
      (NewRequest "POST" "/" (some (testVerifyBody "TestUser" "aaa" "12345678901234567890"
        "2" "dummy" "123456789012")))).2.mailed = [] :=
  ⟨congrArg Prod.fst
    (((verifyUserHandler_first_violation testNetwork testApp (startState unixEpoch)
      (NewRequest "POST" "/" (some (testVerifyBody "TestUser" "aaa" "12345678901234567890"
        "2" "dummy" "123456789012"))) _ rfl rfl (fun ks => List.Perm.refl ks)).2.2
      { MpinID := "aaa", UserID := "TestUser", ExpireTime := "12345678901234567890",
        ActivateKey := "dummy", ActivationCode := 123456789012, Mobile := 2 }
      (by
        intro hfail
        have hrej := (verifyKeysRejected_iff (fun ks => ks) _
          (fun ks => List.Perm.refl ks)).2 hfail
        revert hrej
        decide)
      rfl).2.2.2.2 (by decide) (by decide) (by decide) (by decide) (by decide)),
   by decide⟩

/-- A request whose only failure is its `mobile` value, an integer other than 0 and 1 that
does not fit an `int`: the handler returns 500, not (400, "BAD REQUEST. INVALID MOBILE").
The same holds for the value 2.0. -/
theorem verifyUserHandler_mobile_overflow_counterexample :
    verifyKeysRejected (startState unixEpoch).mapOrder
      [("mpinId", .str "aaa"), ("userId", .str "TestUser"),
       ("expireTime", .str "12345678901234567890"), ("activateKey", .str "dummy"),
       ("activationCode", .num "123456789012"), ("mobile", .num "99999999999999999999")]
      = false ∧
    (verifyUserHandler testNetwork testApp (startState unixEpoch)
      (NewRequest "POST" "/" (some (testVerifyBody "TestUser" "aaa" "12345678901234567890"
        "99999999999999999999" "dummy" "123456789012")))).1 =
      .returned (500, some "BAD REQUEST. INVALID USER ID") ∧
    (verifyUserHandler testNetwork testApp (startState unixEpoch)
      (NewRequest "POST" "/" (some (testVerifyBody "TestUser" "aaa" "12345678901234567890"
        "2.0" "dummy" "123456789012")))).1 =
      .returned (500, some "BAD REQUEST. INVALID USER ID") :=
  ⟨by decide, by decide, by decide⟩

/-! ## Theorems: the error response of the dispatcher -/

/-- The error response on a writer that has received nothing and works: the status code is
the status of the stage; the body is the not-found page for 404, the text of the error for
400 and 403, and the status text otherwise. -/
theorem writeErrorResponse_fresh (lib : GoLib) (w : ResponseWriter) (status : Int)
    (err : String) (hcode : w.Code = none) (hbody : w.Body = []) (hw : w.WriteErr = none) :
    (writeErrorResponse lib w status err).Code = some status ∧
    (writeErrorResponse lib w status err).Body =
      [.text ((if status = 404 then "404 page not found"
               else if status = 400 ∨ status = 403 then err
               else lib.StatusText status) ++ "\n")] := by
  have hgen : ∀ text code, (httpError w text code).Code = some code ∧
      (httpError w text code).Body = [.text (text ++ "\n")] := by
    intro text code
    unfold httpError ResponseWriter.Write ResponseWriter.WriteHeader
    simp [ResponseWriter.Set, hcode, hbody, hw]
  unfold writeErrorResponse httpNotFound
  by_cases h404 : status = 404
  · rw [if_pos h404, if_pos h404, h404]
    exact hgen _ _
  · rw [if_neg h404, if_neg h404]
    by_cases h500 : status = 500
    · have hne : ¬ (status = 400 ∨ status = 403) := by omega
      rw [if_pos h500, if_neg hne, h500]
      exact hgen _ _
    · rw [if_neg h500]
      by_cases h400 : status = 400
      · rw [if_pos h400, if_pos (Or.inl h400)]
        exact hgen _ _
      · rw [if_neg h400]
        by_cases h403 : status = 403
        · rw [if_pos h403, if_pos (Or.inr h403)]
          exact hgen _ _
        · have hne : ¬ (status = 400 ∨ status = 403) := by omega
          rw [if_neg h403, if_neg hne]
          exact hgen _ _

/-- The error response on a writer whose header is already written, with status code `c`:
the status code stays `c` and the text is added after the body written before. -/
theorem writeErrorResponse_written (lib : GoLib) (w : ResponseWriter) (status c : Int)
    (err : String) (hcode : w.Code = some c) (hw : w.WriteErr = none) :
    (writeErrorResponse lib w status err).Code = some c ∧
    ∃ text, (writeErrorResponse lib w status err).Body = w.Body ++ [.text text] := by
  have hgen : ∀ text code, (httpError w text code).Code = some c ∧
      ∃ t, (httpError w text code).Body = w.Body ++ [.text t] := by
    intro text code
    unfold httpError ResponseWriter.Write ResponseWriter.WriteHeader
    simp [ResponseWriter.Set, hcode, hw]
  unfold writeErrorResponse httpNotFound
  split_ifs <;> exact hgen _ _

/-- C29 (the code against the claim). A POST to the authenticate handler with a valid
token, the delegates wired as in `newApp`, and an RPS that answers with status 401 and the
message "Invalid PIN": the handler writes its reply, which sends the header with status
code 200, and returns (401, "Invalid PIN"); the dispatcher aborts with status 401 and calls
`http.Error` with the status text, but the status code of the response stays 200 and its
body is the reply followed by the status text. -/
theorem ServeHTTP_error_after_reply :
    authRequestValid (startState unixEpoch) testAuthRequest testAuthOTT ∧
    (authenticateUserHandler deniedApp (startState unixEpoch) testAuthRequest).1 =
      .returned (401, some "Invalid PIN") ∧
    (appHandler.ServeHTTP testLib
      { AppContext := deniedApp, Hs := [authenticateUserHandler deniedApp] }
      (startState unixEpoch) testAuthRequest).2.w.Code = some 200 ∧
    (appHandler.ServeHTTP testLib
      { AppContext := deniedApp, Hs := [authenticateUserHandler deniedApp] }
      (startState unixEpoch) testAuthRequest).2.w.Body =
      [.authRPA { SomeUserData := "This will be handled by onSuccessLogin handler.",
                  UserId := "foo" },
       .text "Unauthorized\n"] :=
  ⟨testAuthRequest_valid _ rfl, by rfl, by rfl, by rfl⟩

/-! ## Theorems: deleting, overwriting and keeping store entries -/

/-- C31. `Delete` has no error result and is defined on every store: on a store without
the id it returns the store as it is, a second `Delete` changes nothing, a `Get` of the id
afterwards fails with "SessionID not found" at every instant, and the entries under all
other ids are those of the given store. -/
theorem Delete_contract (s : storage) (id : String) :
    (s id = none → storage.Delete s id = s) ∧
    storage.Delete (storage.Delete s id) id = storage.Delete s id ∧
    (∀ now, (storage.Get (storage.Delete s id) now id).1 =
      (session.zero, some "SessionID not found")) ∧
    (∀ k, k ≠ id → storage.Delete s id k = s k) := by
  refine ⟨?_, ?_, ?_, ?_⟩
  · intro h
    funext k
    by_cases hk : k = id
    · simp [storage.Delete, storage.remove, hk, h]
    · simp [storage.Delete, storage.remove, hk]
  · funext k
    by_cases hk : k = id <;> simp [storage.Delete, storage.remove, hk]
  · intro now
    have h : storage.Delete s id id = none := by simp [storage.Delete, storage.remove]
    rw [Get_absent _ _ _ h]
  · intro k hk
    simp [storage.Delete, storage.remove, hk]

theorem Delete_contract_witness :
    storage.Delete (fun _ => none) "sessionId" = (fun _ => none) ∧
    (storage.Get (storage.Delete
        (storage.assign (fun _ => none) "sessionId" ⟨unixEpoch, "user"⟩) "sessionId")
      unixEpoch "sessionId").1 = (session.zero, some "SessionID not found") :=
  ⟨(Delete_contract (fun _ => none) "sessionId").1 rfl,
   (Delete_contract (storage.assign (fun _ => none) "sessionId" ⟨unixEpoch, "user"⟩)
      "sessionId").2.2.1 unixEpoch⟩

/-- C32 (as the code has it). For every store, id and session with a non-zero expiry `Put`
returns no error.  Immediately afterwards the entry under the id is exactly the given
session whenever this `Put` does not run the sweep or the expiry is not before the instant
of the call; when it runs the sweep and the expiry is before that instant, the id is
absent. -/
theorem Put_explicit_expiry (s : storage) (g now : Int) (id : String) (item : session)
    (h : item.Expires ≠ 0) :
    (storage.Put s g now id item).1 = none ∧
    (wrapInt (g + 1) < 1000 ∨ ¬ item.Expires < now →
      (storage.Put s g now id item).2.1 id = some item) ∧
    (wrapInt (g + 1) ≥ 1000 → item.Expires < now →
      (storage.Put s g now id item).2.1 id = none) := by
  rw [Put_result]
  simp only [h, if_false]
  refine ⟨trivial, ?_, ?_⟩
  · intro hc
    by_cases hg : wrapInt (g + 1) ≥ 1000
    · have hlt : ¬ item.Expires < now := by
        rcases hc with hc | hc
        · omega
        · exact hc
      simp only [hg, if_true, storage.sweep, storage.assign]
      simp [Time.Before, hlt]
    · simp [hg, storage.assign]
  · intro hg hlt
    simp only [hg, if_true, storage.sweep, storage.assign]
    simp [Time.Before, hlt]

theorem Put_explicit_expiry_witness :
    (storage.Put (fun _ => none) 0 (unixEpoch + Hour) "sessionId" ⟨unixEpoch, "user"⟩).1 = none ∧
    (storage.Put (fun _ => none) 0 (unixEpoch + Hour) "sessionId" ⟨unixEpoch, "user"⟩).2.1
      "sessionId" = some ⟨unixEpoch, "user"⟩ :=
  ⟨(Put_explicit_expiry (fun _ => none) 0 (unixEpoch + Hour) "sessionId" ⟨unixEpoch, "user"⟩
      (by decide)).1,
   (Put_explicit_expiry (fun _ => none) 0 (unixEpoch + Hour) "sessionId" ⟨unixEpoch, "user"⟩
      (by decide)).2.1 (Or.inl (by decide))⟩

/-- The thousandth `Put` since the last sweep, made one hour after the Unix epoch with a
session that expires at the Unix epoch, returns no error and leaves no entry under its
id. -/
theorem Put_swept_at_once_counterexample :
    (⟨unixEpoch, "user"⟩ : session).Expires ≠ 0 ∧
    (storage.Put (fun _ => none) 999 (unixEpoch + Hour) "sessionId" ⟨unixEpoch, "user"⟩).1
      = none ∧
    (storage.Put (fun _ => none) 999 (unixEpoch + Hour) "sessionId" ⟨unixEpoch, "user"⟩).2.1
      "sessionId" = none := by
  refine ⟨by decide, rfl, ?_⟩
  rw [Put_at_threshold]
  decide

/-- C39. A `Put` at instant `now` keeps every entry under another id whose expiry is not
before `now` as it is, whether or not it runs the sweep; the entry it writes is present
afterwards whenever its expiry is not before `now`, which is always so when the default
expiry was applied. -/
theorem Put_frame (s : storage) (g now : Int) (id : String) (item : session) :
    (∀ k v, k ≠ id → s k = some v → ¬ v.Expires < now →
      (storage.Put s g now id item).2.1 k = some v) ∧
    (item.Expires ≠ 0 → ¬ item.Expires < now →
      (storage.Put s g now id item).2.1 id = some item) ∧
    (item.Expires = 0 →
      (storage.Put s g now id item).2.1 id = some { item with Expires := now + 4 * Hour }) := by
  refine ⟨?_, ?_, ?_⟩
  · intro k v hk hs hv
    rw [Put_result]
    by_cases hg : wrapInt (g + 1) ≥ 1000
    · simp only [hg, if_true, storage.sweep, storage.assign, hk, if_false, hs]
      simp [Time.Before, hv]
    · simp [hg, storage.assign, hk, hs]
  · intro hz hlt
    have h := Put_entry s g now id item (by simpa [hz] using hlt)
    simpa [hz] using h
  · intro hz
    have hp := Hour_pos
    have hne : ¬ (now + 4 * Hour < now) := by omega
    have h := Put_entry s g now id item (by simpa [hz] using hne)
    simpa [hz] using h

theorem Put_frame_witness :
    (storage.Put (storage.assign (fun _ => none) "other" ⟨unixEpoch + 2 * Hour, "u"⟩) 999
      (unixEpoch + Hour) "sessionId" ⟨0, "user"⟩).2.1 "other" = some ⟨unixEpoch + 2 * Hour, "u"⟩ ∧
    (storage.Put (storage.assign (fun _ => none) "other" ⟨unixEpoch + 2 * Hour, "u"⟩) 999
      (unixEpoch + Hour) "sessionId" ⟨0, "user"⟩).2.1 "sessionId" =
        some ⟨unixEpoch + Hour + 4 * Hour, "user"⟩ :=
  ⟨(Put_frame (storage.assign (fun _ => none) "other" ⟨unixEpoch + 2 * Hour, "u"⟩) 999
      (unixEpoch + Hour) "sessionId" ⟨0, "user"⟩).1 "other" ⟨unixEpoch + 2 * Hour, "u"⟩
      (by decide) rfl (by decide),
   (Put_frame (storage.assign (fun _ => none) "other" ⟨unixEpoch + 2 * Hour, "u"⟩) 999
      (unixEpoch + Hour) "sessionId" ⟨0, "user"⟩).2.2 rfl⟩

/-! ## Theorems: the method check -/

/-- The loop of `checkAllowedMethods` finds the method exactly when it is listed. -/
theorem methodListed_iff (method : String) (methods : List String) :
    methodListed method methods = true ↔ method ∈ methods := by
  induction methods with
  | nil => simp [methodListed]
  | cons m ms ih =>
    by_cases h : method = m
    · simp [methodListed, h]
    · simp [methodListed, h, ih]

/-- The accumulating loop of `String.intercalate` in terms of the model of
`strings.Join`. -/
theorem intercalate_go_eq (sep : String) (l : List String) (acc a : String) :
    String.intercalate.go (acc ++ a) sep l = acc ++ join (a :: l) sep := by
  induction l generalizing acc a with
  | nil => simp [String.intercalate.go, join]
  | cons b l ih =>
    have h : acc ++ a ++ sep ++ b = (acc ++ a ++ sep) ++ b := rfl
    rw [String.intercalate.go, h, ih, join]
    simp [String.append_assoc]

/-- The model of `strings.Join` puts the separator between consecutive elements. -/
theorem join_eq_intercalate (methods : List String) (sep : String) :
    join methods sep = sep.intercalate methods := by
  cases methods with
  | nil => rfl
  | cons a rest =>
    have h := intercalate_go_eq sep rest "" a
    simp only [String.empty_append] at h
    rw [String.intercalate, h]

/-- C33. `checkAllowedMethods` returns `(200, nil)` exactly when the request method is one
of the listed methods and otherwise returns 405 with the error "Method not allowed", so
always 405 for an empty list; in both cases the response header
Access-Control-Allow-Methods is set to the listed methods, in the given order, with a comma
between consecutive ones, and nothing else of the response changes. -/
theorem checkAllowedMethods_contract (r : Request) (w : ResponseWriter)
    (methods : List String) :
    ((checkAllowedMethods r w methods).1 = (200, none) ↔ r.Method ∈ methods) ∧
    (r.Method ∉ methods →
      (checkAllowedMethods r w methods).1 = (405, some "Method not allowed")) ∧
    (checkAllowedMethods r w []).1 = (405, some "Method not allowed") ∧
    (checkAllowedMethods r w methods).2 =
      w.Set "Access-Control-Allow-Methods" (join methods ",") ∧
    (checkAllowedMethods r w methods).2.Header "Access-Control-Allow-Methods" =
      some (",".intercalate methods) := by
  have hl := methodListed_iff r.Method methods
  refine ⟨?_, ?_, rfl, ?_, ?_⟩
  · by_cases h : methodListed r.Method methods = true
    · simp [checkAllowedMethods, h, hl.1 h]
    · have hn : r.Method ∉ methods := fun hm => h (hl.2 hm)
      simp [checkAllowedMethods, h, hn]
  · intro hn
    have h : ¬ methodListed r.Method methods = true := fun hm => hn (hl.1 hm)
    simp [checkAllowedMethods, h]
  · by_cases h : methodListed r.Method methods = true <;> simp [checkAllowedMethods, h]
  · rw [← join_eq_intercalate]
    by_cases h : methodListed r.Method methods = true <;>
      simp [checkAllowedMethods, h, ResponseWriter.Set]

theorem checkAllowedMethods_contract_witness :
    (checkAllowedMethods (NewRequest "PUT" "/" none) NewRecorder ["GET", "POST"]).1 =
      (405, some "Method not allowed") ∧
    (checkAllowedMethods (NewRequest "POST" "/" none) NewRecorder ["GET", "POST"]).1 =
      (200, none) ∧
    (checkAllowedMethods (NewRequest "POST" "/" none) NewRecorder
      ["GET", "POST"]).2.Header "Access-Control-Allow-Methods" = some "GET,POST" :=
  ⟨(checkAllowedMethods_contract (NewRequest "PUT" "/" none) NewRecorder ["GET", "POST"]).2.1
      (by decide),
   (checkAllowedMethods_contract (NewRequest "POST" "/" none) NewRecorder ["GET", "POST"]).1.2
      (by decide),
   ((checkAllowedMethods_contract (NewRequest "POST" "/" none) NewRecorder
      ["GET", "POST"]).2.2.2.2).trans rfl⟩

/-! ## Theorems: the lifetime of a session -/

/-- Session resolution with a cookie that names a stored, unexpired session leaves the
entry of that session as it is. -/
theorem sessionHandler_store (a : app) (st : State) (r : Request) (cookie : String × String)
    (item : session) (hc : r.Cookie "mpindemo_session" = (some cookie, none))
    (hs : st.Store cookie.2 = some item) (he : ¬ item.Expires < st.now)
    (hz : item.Expires ≠ 0) :
    (sessionHandler a st r).2.Store cookie.2 = some item ∧
    (sessionHandler a st r).2.now = st.now := by
  rw [sessionHandler_valid a st r cookie item hc hs he]
  have h := Put_entry st.Store st.gcCount st.now cookie.2 item (by simpa [hz] using he)
  constructor
  · simpa [State.Put, hz] using h
  · rfl

/-- C37. Session resolution never extends the lifetime of a session: when the cookie of
the request names a stored session that is not expired, `sessionHandler` returns
`(200, nil)` and the entry stored for that session, and so its expiry, is the same after
the call as before; the same holds after any number of requests made with that cookie
while the session is not expired. -/
theorem sessionHandler_keeps_expiry (a : app) (st : State) (cookie : String × String)
    (item : session) (hs : st.Store cookie.2 = some item) (hz : item.Expires ≠ 0) :
    (∀ r, r.Cookie "mpindemo_session" = (some cookie, none) → ¬ item.Expires < st.now →
      (sessionHandler a st r).1 = .returned (200, none) ∧
      (sessionHandler a st r).2.Store cookie.2 = some item) ∧
    ∀ reqs : List (Int × Request),
      (∀ p ∈ reqs, p.2.Cookie "mpindemo_session" = (some cookie, none) ∧
        ¬ item.Expires < p.1) →
      (resolveAll a st reqs).Store cookie.2 = some item := by
  constructor
  · intro r hc he
    refine ⟨?_, (sessionHandler_store a st r cookie item hc hs he hz).1⟩
    rw [sessionHandler_valid a st r cookie item hc hs he]
  · intro reqs
    induction reqs generalizing st with
    | nil => intro _; exact hs
    | cons p rest ih =>
      intro hall
      obtain ⟨now, r⟩ := p
      have hp := hall (now, r) (List.mem_cons_self _ _)
      have h1 := (sessionHandler_store a { st with now := now } r cookie item hp.1 hs hp.2 hz).1
      exact ih _ h1 fun q hq => hall q (List.mem_cons_of_mem _ hq)

theorem sessionHandler_keeps_expiry_witness :
    (resolveAll testApp (loggedInState unixEpoch (unixEpoch + 4 * Hour) "user")
      [(unixEpoch + Hour, cookieRequest "123"), (unixEpoch + 3 * Hour, cookieRequest "123")]).Store
        "123" = some ⟨unixEpoch + 4 * Hour, "user"⟩ :=
  (sessionHandler_keeps_expiry testApp (loggedInState unixEpoch (unixEpoch + 4 * Hour) "user")
    ("mpindemo_session", "123") ⟨unixEpoch + 4 * Hour, "user"⟩ rfl (by decide)).2
    [(unixEpoch + Hour, cookieRequest "123"), (unixEpoch + 3 * Hour, cookieRequest "123")]
    (by
      intro p hp
      simp only [List.mem_cons, List.mem_singleton, List.not_mem_nil, or_false] at hp
      rcases hp with hp | hp
      · rw [hp]; exact ⟨rfl, by decide⟩
      · rw [hp]; exact ⟨rfl, by decide⟩)

/-! ## Theorems: bodies that are not JSON objects -/

/-- C36 (the code against the claim). On a POST request whose body is the JSON document
`[]`, `1` or `null`, `verifyUserHandler` and `authenticateUserHandler` do not return: the
type assertion on the decoded document panics.  The same happens in
`authenticateUserHandler` when the value of `mpinResponse` is a string or `null`. -/
theorem handlers_panic_on_non_object :
    (verifyUserHandler testNetwork testApp (startState unixEpoch)
      (NewRequest "POST" "/mpinVerify" (some (.arr [])))).1 =
        .panicked "interface conversion: interface is not map[string]interface" ∧
    (verifyUserHandler testNetwork testApp (startState unixEpoch)
      (NewRequest "POST" "/mpinVerify" (some (.num "1")))).1 =
        .panicked "interface conversion: interface is not map[string]interface" ∧
    (verifyUserHandler testNetwork testApp (startState unixEpoch)
      (NewRequest "POST" "/mpinVerify" (some .null))).1 =
        .panicked "interface conversion: interface is not map[string]interface" ∧
    (authenticateUserHandler testApp (startState unixEpoch)
      (NewRequest "POST" "/mpinAuthenticate" (some (.arr [])))).1 =
        .panicked "interface conversion: interface is not map[string]interface" ∧
    (authenticateUserHandler testApp (startState unixEpoch)
      (NewRequest "POST" "/mpinAuthenticate" (some (.num "1")))).1 =
        .panicked "interface conversion: interface is not map[string]interface" ∧
    (authenticateUserHandler testApp (startState unixEpoch)
      (NewRequest "POST" "/mpinAuthenticate" (some .null))).1 =
        .panicked "interface conversion: interface is not map[string]interface" ∧
    (authenticateUserHandler testApp (startState unixEpoch)
      (NewRequest "POST" "/mpinAuthenticate" (some (.obj [("mpinResponse", .str "x")])))).1 =
        .panicked "interface conversion: interface is not map[string]interface" ∧
    (authenticateUserHandler testApp (startState unixEpoch)
      (NewRequest "POST" "/mpinAuthenticate" (some (.obj [("mpinResponse", .null)])))).1 =
        .panicked "interface conversion: interface is not map[string]interface" :=
  ⟨rfl, rfl, rfl, rfl, rfl, rfl, rfl, rfl⟩

/-! ## Theorems: session ids -/

/-- An upper-case hexadecimal digit is in the class `[0-9A-F]` and decodes to its value. -/
theorem hexDigitUpper_spec (n : Nat) (h : n < 16) :
    isUpperHex (hexDigitUpper n) = true ∧ fromHexChar (hexDigitUpper n) = some n := by
  interval_cases n <;> exact ⟨by decide, by decide⟩

/-- Decoding the `%X` rendering of a byte slice gives the slice back. -/
theorem hexDecodeChars_hexUpper (b : List Byte) : hexDecodeChars (hexUpper b) = some b := by
  induction b with
  | nil => rfl
  | cons x xs ih =>
    have h1 := (hexDigitUpper_spec (x.val / 16) (by omega)).2
    have h2 := (hexDigitUpper_spec (x.val % 16) (Nat.mod_lt _ (by omega))).2
    have hx : (Fin.ofNat (16 * (x.val / 16) + x.val % 16) : Byte) = x := by
      apply Fin.ext
      have : 16 * (x.val / 16) + x.val % 16 = x.val := Nat.div_add_mod _ _
      rw [this]
      exact Nat.mod_eq_of_lt x.isLt
    simp only [hexUpper, hexDecodeChars, h1, h2, ih, hx]

/-- The `%X` rendering of a byte slice has two characters per byte, all in `[0-9A-F]`. -/
theorem hexUpper_chars (b : List Byte) :
    (hexUpper b).length = 2 * b.length ∧ ∀ c ∈ hexUpper b, isUpperHex c = true := by
  induction b with
  | nil => simp [hexUpper]
  | cons x xs ih =>
    have h1 := (hexDigitUpper_spec (x.val / 16) (by omega)).1
    have h2 := (hexDigitUpper_spec (x.val % 16) (Nat.mod_lt _ (by omega))).1
    constructor
    · simp only [hexUpper, List.length_cons, ih.1]; omega
    · intro c hc
      simp only [hexUpper, List.mem_cons] at hc
      rcases hc with hc | hc | hc
      · rw [hc]; exact h1
      · rw [hc]; exact h2
      · exact ih.2 c hc

/-- The `%X` rendering of a slice that is cut in two. -/
theorem hexUpper_append (a b : List Byte) : hexUpper (a ++ b) = hexUpper a ++ hexUpper b := by
  induction a with
  | nil => rfl
  | cons x xs ih => simp [hexUpper, ih]

/-- The `%X` rendering of a prefix and of a suffix of a slice. -/
theorem hexUpper_take_drop (b : List Byte) (n : Nat) :
    hexUpper (b.take n) = (hexUpper b).take (2 * n) ∧
    hexUpper (b.drop n) = (hexUpper b).drop (2 * n) := by
  induction b generalizing n with
  | nil => simp [hexUpper]
  | cons x xs ih =>
    cases n with
    | zero => simp [hexUpper]
    | succ n =>
      have h2 : 2 * (n + 1) = 2 * n + 1 + 1 := by omega
      rw [h2]
      simp only [List.take_succ_cons, List.drop_succ_cons, hexUpper, (ih n).1, (ih n).2]
      exact ⟨trivial, trivial⟩

/-- The five slices rendered by `generateSessionID` make up the whole slice. -/
theorem slices_append (b : List Byte) :
    b.take 4 ++ ((b.drop 4).take 2 ++ ((b.drop 6).take 2 ++ ((b.drop 8).take 2 ++ b.drop 10)))
      = b := by
  have h10 : b.drop 10 = (b.drop 8).drop 2 := by rw [List.drop_drop]
  have h8 : b.drop 8 = (b.drop 6).drop 2 := by rw [List.drop_drop]
  have h6 : b.drop 6 = (b.drop 4).drop 2 := by rw [List.drop_drop]
  rw [h10, List.take_append_drop, h8, List.take_append_drop, h6, List.take_append_drop,
    List.take_append_drop]

/-- Removing the hyphens from a session id leaves the `%X` rendering of the bytes. -/
theorem generateSessionID_filter (b : List Byte) :
    (generateSessionID (some b)).data.filter (fun c => decide (c ≠ '-')) = hexUpper b := by
  have hkeep : ∀ l : List Byte,
      (hexUpper l).filter (fun c => decide (c ≠ '-')) = hexUpper l := by
    intro l
    rw [List.filter_eq_self]
    intro c hc
    have hu := (hexUpper_chars l).2 c hc
    have : c ≠ '-' := by
      intro he
      rw [he] at hu
      exact absurd hu (by decide)
    simpa using this
  have hd : decide ('-' ≠ '-') = false := by decide
  simp only [generateSessionID, List.filter_append, List.filter_cons, hkeep, hd,
    Bool.false_eq_true, if_false]
  rw [← hexUpper_append, ← hexUpper_append, ← hexUpper_append, ← hexUpper_append]
  simp only [List.append_assoc]
  rw [slices_append]

/-- C34. For every sixteen bytes `b`, `generateSessionID` returns a string of 36 characters
made of five groups of 8, 4, 4, 4 and 12 characters separated by hyphens; the 32 characters
of the groups are in `[0-9A-F]` and, read in order, are the hexadecimal rendering of `b`,
which decodes to `b`; so different byte strings give different ids. -/
theorem generateSessionID_format (b : List Byte) (h : b.length = 16) :
    (generateSessionID (some b)).data =
      (hexUpper b).take 8 ++ '-' :: ((hexUpper b).drop 8).take 4 ++
      '-' :: ((hexUpper b).drop 12).take 4 ++ '-' :: ((hexUpper b).drop 16).take 4 ++
      '-' :: (hexUpper b).drop 20 ∧
    (hexUpper b).length = 32 ∧
    (generateSessionID (some b)).data.length = 36 ∧
    (∀ c ∈ hexUpper b, isUpperHex c = true) ∧
    hexDecodeChars (hexUpper b) = some b ∧
    ∀ b2 : List Byte, generateSessionID (some b2) = generateSessionID (some b) → b2 = b := by
  have hlen : (hexUpper b).length = 32 := by rw [(hexUpper_chars b).1, h]
  have hdata : (generateSessionID (some b)).data =
      (hexUpper b).take 8 ++ '-' :: ((hexUpper b).drop 8).take 4 ++
      '-' :: ((hexUpper b).drop 12).take 4 ++ '-' :: ((hexUpper b).drop 16).take 4 ++
      '-' :: (hexUpper b).drop 20 := by
    simp only [generateSessionID, (hexUpper_take_drop _ _).1, (hexUpper_take_drop _ _).2]
  refine ⟨hdata, hlen, ?_, (hexUpper_chars b).2, hexDecodeChars_hexUpper b, ?_⟩
  · rw [hdata]
    simp only [List.length_append, List.length_cons, List.length_take, List.length_drop, hlen]
    rfl
  · intro b2 he
    have h1 := generateSessionID_filter b2
    rw [he, generateSessionID_filter b] at h1
    have h2 := hexDecodeChars_hexUpper b2
    rw [← h1, hexDecodeChars_hexUpper b] at h2
    exact (Option.some.inj h2).symm

theorem generateSessionID_format_witness :
    generateSessionID (some [0, 1, 2, 3, 4, 5, 6, 7, 8, 9, 10, 11, 12, 13, 14, 15]) =
      "00010203-0405-0607-0809-0A0B0C0D0E0F" ∧
    (generateSessionID (some [0, 1, 2, 3, 4, 5, 6, 7, 8, 9, 10, 11, 12, 13, 14, 15])).data.length
      = 36 :=
  ⟨by decide,
   (generateSessionID_format [0, 1, 2, 3, 4, 5, 6, 7, 8, 9, 10, 11, 12, 13, 14, 15] rfl).2.2.1⟩

/-! ## Theorems: the activation code in the mail -/

/-- The digits of a number do not depend on the fuel, once it exceeds the number. -/
theorem decimalDigits_fuel (f1 : Nat) :
    ∀ f2 n, n < f1 → n < f2 → decimalDigits f1 n = decimalDigits f2 n := by
  induction f1 with
  | zero => intro f2 n h; omega
  | succ f1 ih =>
    intro f2 n h1 h2
    cases f2 with
    | zero => omega
    | succ f2 =>
      unfold decimalDigits
      by_cases h10 : n < 10
      · rw [if_pos h10, if_pos h10]
      · rw [if_neg h10, if_neg h10, ih f2 (n / 10) (by omega) (by omega)]

/-- The digits of a number: the digits of its tenth part followed by its last digit. -/
theorem decimalDigits_rec (n : Nat) :
    decimalDigits (n + 1) n =
      if n < 10 then [Nat.digitChar n]
      else decimalDigits (n / 10 + 1) (n / 10) ++ [Nat.digitChar (n % 10)] := by
  by_cases h10 : n < 10
  · rw [if_pos h10, decimalDigits, if_pos h10]
  · rw [if_neg h10, decimalDigits, if_neg h10,
      decimalDigits_fuel n (n / 10 + 1) (n / 10) (by omega) (by omega)]

/-- The verb `%04d` on a number below 10000 prints its four digits. -/
theorem fmt04d_small (n : Nat) (h : n < 10000) :
    fmt04d (n : Int) = String.mk [Nat.digitChar (n / 1000 % 10), Nat.digitChar (n / 100 % 10),
      Nat.digitChar (n / 10 % 10), Nat.digitChar (n % 10)] := by
  have hneg : ¬ ((n : Int) < 0) := by omega
  have habs : (n : Int).natAbs = n := Int.natAbs_ofNat n
  unfold fmt04d
  simp only [hneg, if_false, habs]
  by_cases h1 : n < 10
  · have e1 : n / 1000 % 10 = 0 := by omega
    have e2 : n / 100 % 10 = 0 := by omega
    have e3 : n / 10 % 10 = 0 := by omega
    have e4 : n % 10 = n := by omega
    rw [decimalDigits_rec, if_pos h1, e1, e2, e3, e4]
    rfl
  · by_cases h2 : n < 100
    · have e1 : n / 1000 % 10 = 0 := by omega
      have e2 : n / 100 % 10 = 0 := by omega
      have e3 : n / 10 % 10 = n / 10 := by omega
      rw [decimalDigits_rec, if_neg h1, decimalDigits_rec, if_pos (by omega), e1, e2, e3]
      rfl
    · by_cases h3 : n < 1000
      · have e1 : n / 1000 % 10 = 0 := by omega
        have e2 : n / 100 % 10 = n / 10 / 10 := by omega
        have e3 : n / 10 % 10 = n / 10 % 10 := rfl
        rw [decimalDigits_rec, if_neg h1, decimalDigits_rec, if_neg (by omega),
          decimalDigits_rec, if_pos (by omega), e1, e2]
        rfl
      · have e1 : n / 1000 % 10 = n / 10 / 10 / 10 := by omega
        have e2 : n / 100 % 10 = n / 10 / 10 % 10 := by omega
        rw [decimalDigits_rec, if_neg h1, decimalDigits_rec, if_neg (by omega),
          decimalDigits_rec, if_neg (by omega), decimalDigits_rec, if_pos (by omega), e1, e2]
        rfl

/-- The digits of the three groups of four are the digits of the whole number. -/
theorem digit_positions (n : Nat) :
    n / 100000000 / 1000 % 10 = n / 100000000000 % 10 ∧
    n / 100000000 / 100 % 10 = n / 10000000000 % 10 ∧
    n / 100000000 / 10 % 10 = n / 1000000000 % 10 ∧
    n / 10000 % 10000 / 1000 % 10 = n / 10000000 % 10 ∧
    n / 10000 % 10000 / 100 % 10 = n / 1000000 % 10 ∧
    n / 10000 % 10000 / 10 % 10 = n / 100000 % 10 ∧
    n / 10000 % 10000 % 10 = n / 10000 % 10 ∧
    n % 10000 / 1000 % 10 = n / 1000 % 10 ∧
    n % 10000 / 100 % 10 = n / 100 % 10 ∧
    n % 10000 / 10 % 10 = n / 10 % 10 ∧
    n % 10000 % 10 = n / 1 % 10 :=
  ⟨by omega, by omega, by omega, by omega, by omega, by omega, by omega, by omega, by omega,
   by omega, by omega⟩

/-- C35. For every activation code `c` with `0 ≤ c ≤ 999999999999` the code string of the
numeric-code activation mail has 14 characters: three groups of four decimal digits
separated by hyphens, whose twelve digits, read in order, are the decimal representation of
`c` left-padded with zeros to 12 digits; that string is a line of the message that
`sendEMpinActivationMail` hands to `smtp.SendMail`. -/
theorem activationCodeStr_format (c : Int) (h0 : 0 ≤ c) (h1 : c ≤ 999999999999) :
    (activationCodeStr c).data =
      (paddedDecimal 12 c.toNat).take 4 ++ '-' :: ((paddedDecimal 12 c.toNat).drop 4).take 4 ++
        '-' :: (paddedDecimal 12 c.toNat).drop 8 ∧
    (activationCodeStr c).data.length = 14 ∧
    (paddedDecimal 12 c.toNat).length = 12 ∧
    (∀ ch ∈ paddedDecimal 12 c.toNat, isDigit ch = true) ∧
    ∀ (net : Network) (st : State) (userID deviceName : String) (o : options),
      ∃ mail : SMTPMail,
        (sendEMpinActivationMail net st userID deviceName c o).2.smtpSent =
          st.smtpSent ++ [mail] ∧
        mail.msg = "From: " ++ o.EmailSender ++ "\r\n" ++ "To: " ++ userID ++ "\r\n" ++
          "Subject: " ++ o.EmailSubject ++ "\r\n" ++ "\r\n" ++
          "Your Activation code is" ++ "\r\n" ++
          activationCodeStr c ++ "\r\n" ++ "\r\n" ++
          "Regards," ++ "\r\n" ++ "The Milagro MFA Team" ++ "\r\n" := by
  obtain ⟨n, rfl⟩ := Int.eq_ofNat_of_zero_le h0
  have hn : n ≤ 999999999999 := by omega
  have hpad : paddedDecimal 12 n =
      [Nat.digitChar (n / 100000000000 % 10), Nat.digitChar (n / 10000000000 % 10),
       Nat.digitChar (n / 1000000000 % 10), Nat.digitChar (n / 100000000 % 10),
       Nat.digitChar (n / 10000000 % 10), Nat.digitChar (n / 1000000 % 10),
       Nat.digitChar (n / 100000 % 10), Nat.digitChar (n / 10000 % 10),
       Nat.digitChar (n / 1000 % 10), Nat.digitChar (n / 100 % 10),
       Nat.digitChar (n / 10 % 10), Nat.digitChar (n / 1 % 10)] := rfl
  have hcode : activationCodeStr (n : Int) =
      fmt04d ((n / 100000000 : Nat) : Int) ++ "-" ++ fmt04d ((n / 10000 % 10000 : Nat) : Int)
        ++ "-" ++ fmt04d ((n % 10000 : Nat) : Int) := rfl
  have b1 : n / 100000000 < 10000 := by omega
  have b2 : n / 10000 % 10000 < 10000 := by omega
  have b3 : n % 10000 < 10000 := by omega
  obtain ⟨d1, d2, d3, d5, d6, d7, d8, d9, d10, d11, d12⟩ := digit_positions n
  have hdata : (activationCodeStr (n : Int)).data =
      (paddedDecimal 12 n).take 4 ++ '-' :: ((paddedDecimal 12 n).drop 4).take 4 ++
        '-' :: (paddedDecimal 12 n).drop 8 := by
    rw [hcode, fmt04d_small _ b1, fmt04d_small _ b2, fmt04d_small _ b3,
      d1, d2, d3, d5, d6, d7, d8, d9, d10, d11, d12, hpad]
    rfl
  have hdigit : ∀ d, d < 10 → isDigit (Nat.digitChar d) = true := by decide
  refine ⟨hdata, ?_, ?_, ?_, ?_⟩
  · rw [hdata, hpad]; rfl
  · rw [Int.toNat_ofNat, hpad]; rfl
  · intro ch hch
    rw [Int.toNat_ofNat] at hch
    simp only [paddedDecimal, List.mem_map] at hch
    obtain ⟨i, _, rfl⟩ := hch
    exact hdigit _ (Nat.mod_lt _ (by omega))
  · intro net st userID deviceName o
    rw [sendEMpinActivationMail_state]
    exact ⟨_, rfl, rfl⟩

theorem activationCodeStr_format_witness :
    activationCodeStr 1 = "0000-0000-0001" ∧
    activationCodeStr 123456789012 = "1234-5678-9012" ∧
    activationCodeStr 999999999999 = "9999-9999-9999" ∧
    (activationCodeStr 123456789012).data.length = 14 :=
  ⟨by decide, by decide, by decide,
   (activationCodeStr_format 123456789012 (by decide) (by decide)).2.1⟩

/-! ## Theorems: the activation link -/

/-- Cutting at a separator that first occurs after `a`. -/
theorem cut_append (sep : Char) (a b : List Char) (h : ∀ c ∈ a, c ≠ sep) :
    cut sep (a ++ sep :: b) = (a, b) := by
  induction a with
  | nil => simp [cut]
  | cons x xs ih =>
    have hx : x ≠ sep := h x (List.mem_cons_self _ _)
    have ih2 := ih fun c hc => h c (List.mem_cons_of_mem _ hc)
    simp only [cut, List.cons_append, List.takeWhile_cons, List.dropWhile_cons, hx,
      ne_eq, not_false_eq_true, decide_True, if_true] at ih2 ⊢
    rw [Prod.mk.injEq] at ih2 ⊢
    exact ⟨by rw [ih2.1], ih2.2⟩

/-- Cutting at a separator that does not occur. -/
theorem cut_absent (sep : Char) (a : List Char) (h : ∀ c ∈ a, c ≠ sep) :
    cut sep a = (a, []) := by
  induction a with
  | nil => simp [cut]
  | cons x xs ih =>
    have hx : x ≠ sep := h x (List.mem_cons_self _ _)
    have ih2 := ih fun c hc => h c (List.mem_cons_of_mem _ hc)
    simp only [cut, List.takeWhile_cons, List.dropWhile_cons, hx,
      ne_eq, not_false_eq_true, decide_True, if_true] at ih2 ⊢
    rw [Prod.mk.injEq] at ih2 ⊢
    exact ⟨by rw [ih2.1], ih2.2⟩

/-- Splitting never yields an empty list of pieces. -/
theorem splitOn_ne_nil (sep : Char) (s : List Char) : splitOn sep s ≠ [] := by
  cases s with
  | nil => simp [splitOn]
  | cons c cs =>
    unfold splitOn
    by_cases h : c = sep
    · simp [h]
    · rw [if_neg h]
      cases splitOn sep cs <;> simp

/-- Splitting a text without the separator. -/
theorem splitOn_absent (sep : Char) (a : List Char) (h : ∀ c ∈ a, c ≠ sep) :
    splitOn sep a = [a] := by
  induction a with
  | nil => rfl
  | cons x xs ih =>
    have hx : x ≠ sep := h x (List.mem_cons_self _ _)
    rw [splitOn, if_neg hx, ih fun c hc => h c (List.mem_cons_of_mem _ hc)]

/-- Splitting at a separator that first occurs after `a`. -/
theorem splitOn_append (sep : Char) (a b : List Char) (h : ∀ c ∈ a, c ≠ sep) :
    splitOn sep (a ++ sep :: b) = a :: splitOn sep b := by
  induction a with
  | nil => simp [splitOn]
  | cons x xs ih =>
    have hx : x ≠ sep := h x (List.mem_cons_self _ _)
    rw [List.cons_append, splitOn, if_neg hx, ih fun c hc => h c (List.mem_cons_of_mem _ hc)]

/-- What `queryPlain` excludes. -/
theorem queryPlain_iff (c : Char) :
    queryPlain c = true ↔ c ≠ '&' ∧ c ≠ ';' ∧ c ≠ '#' ∧ c ≠ '%' ∧ c ≠ '+' := by
  simp [queryPlain, not_or, and_assoc]

/-- One round of `url.ParseQuery` on a piece made of a one-letter key, the sign `=` and a
value without `;`, `%` and `+`. -/
theorem parseQueryStep_pair (QueryUnescape : String → Option String)
    (hplain : ∀ s : String, (∀ c ∈ s.data, c ≠ '%' ∧ c ≠ '+') → QueryUnescape s = some s)
    (acc : List (String × String) × Option String) (k : Char) (v : List Char)
    (hk : k ≠ '=' ∧ k ≠ ';' ∧ k ≠ '%' ∧ k ≠ '+') (hv : ∀ c ∈ v, queryPlain c = true) :
    parseQueryStep QueryUnescape acc (k :: '=' :: v) =
      (acc.1 ++ [(String.mk [k], String.mk v)], acc.2) := by
  have hv2 := fun c hc => (queryPlain_iff c).1 (hv c hc)
  have hsemi : ¬ ';' ∈ k :: '=' :: v := by
    intro hm
    simp only [List.mem_cons] at hm
    rcases hm with hm | hm | hm
    · exact hk.2.1 hm.symm
    · exact absurd hm (by decide)
    · exact (hv2 _ hm).2.1 rfl
  have hcut : cut '=' (k :: '=' :: v) = ([k], v) :=
    cut_append '=' [k] v (by
      intro c hc
      rw [List.mem_singleton.1 hc]
      exact hk.1)
  have hkey : QueryUnescape (String.mk [k]) = some (String.mk [k]) :=
    hplain _ (by
      intro c hc
      rw [List.mem_singleton.1 hc]
      exact ⟨hk.2.2.1, hk.2.2.2⟩)
  have hval : QueryUnescape (String.mk v) = some (String.mk v) :=
    hplain _ fun c hc => ⟨(hv2 c hc).2.2.2.1, (hv2 c hc).2.2.2.2⟩
  unfold parseQueryStep
  rw [if_neg hsemi, if_neg (List.cons_ne_nil _ _), hcut]
  simp only [hkey, hval]

/-- The query of an activation link whose base URL holds no `?` and no `#` and whose three
values hold none of `&`, `;`, `#`, `%` and `+`: three pairs and no error. -/
theorem parseQuery_link (QueryUnescape : String → Option String)
    (hplain : ∀ s : String, (∀ c ∈ s.data, c ≠ '%' ∧ c ≠ '+') → QueryUnescape s = some s)
    (u i e s : String) (hu : ∀ c ∈ u.data, c ≠ '?' ∧ c ≠ '#')
    (hi : ∀ c ∈ i.data, queryPlain c = true) (he : ∀ c ∈ e.data, queryPlain c = true)
    (hs : ∀ c ∈ s.data, queryPlain c = true) :
    parseQuery QueryUnescape (rawQuery (u ++ "?i=" ++ i ++ "&e=" ++ e ++ "&s=" ++ s)) =
      ([("i", i), ("e", e), ("s", s)], none) := by
  have hi2 := fun c hc => (queryPlain_iff c).1 (hi c hc)
  have he2 := fun c hc => (queryPlain_iff c).1 (he c hc)
  have hs2 := fun c hc => (queryPlain_iff c).1 (hs c hc)
  have hdata : (u ++ "?i=" ++ i ++ "&e=" ++ e ++ "&s=" ++ s).data =
      u.data ++ '?' :: ('i' :: '=' :: i.data ++ '&' :: ('e' :: '=' :: e.data ++
        '&' :: ('s' :: '=' :: s.data))) := by
    simp [String.data_append]
  have hfrag : ∀ c ∈ u.data ++ '?' :: ('i' :: '=' :: i.data ++ '&' :: ('e' :: '=' :: e.data ++
      '&' :: ('s' :: '=' :: s.data))), c ≠ '#' := by
    intro c hc heq
    rw [heq] at hc
    have h1 : '#' ∉ u.data := fun hm => (hu _ hm).2 rfl
    have h2 : '#' ∉ i.data := fun hm => (hi2 _ hm).2.2.1 rfl
    have h3 : '#' ∉ e.data := fun hm => (he2 _ hm).2.2.1 rfl
    have h4 : '#' ∉ s.data := fun hm => (hs2 _ hm).2.2.1 rfl
    simp [h1, h2, h3, h4] at hc
  have hraw : rawQuery (u ++ "?i=" ++ i ++ "&e=" ++ e ++ "&s=" ++ s) =
      ('i' :: '=' :: i.data) ++ '&' :: (('e' :: '=' :: e.data) ++ '&' :: ('s' :: '=' :: s.data))
      := by
    unfold rawQuery
    rw [hdata, cut_absent '#' _ hfrag, cut_append '?' _ _ fun c hc => (hu c hc).1]
  have hamp : ∀ (k : Char) (v : String), k ≠ '&' → (∀ c ∈ v.data, queryPlain c = true) →
      ∀ c ∈ k :: '=' :: v.data, c ≠ '&' := by
    intro k v hk hv c hc
    simp only [List.mem_cons] at hc
    rcases hc with hc | hc | hc
    · rw [hc]; exact hk
    · rw [hc]; decide
    · exact ((queryPlain_iff c).1 (hv c hc)).1
  unfold parseQuery
  rw [hraw, splitOn_append '&' _ _ (hamp 'i' i (by decide) hi),
    splitOn_append '&' _ _ (hamp 'e' e (by decide) he),
    splitOn_absent '&' _ (hamp 's' s (by decide) hs)]
  simp only [List.foldl_cons, List.foldl_nil]
  rw [parseQueryStep_pair QueryUnescape hplain _ 'i' i.data (by decide) hi,
    parseQueryStep_pair QueryUnescape hplain _ 'e' e.data (by decide) he,
    parseQueryStep_pair QueryUnescape hplain _ 's' s.data (by decide) hs]
  rfl

/-- The identity and the activation key that `verifySignature` returns are the first values
of `i` and `s` of the form, whatever else it finds, once the form is parsed. -/
theorem verifySignature_arguments (lib : GoLib) (st : State) (r : Request)
    (h : r.ParseFormErr = none) :
    (verifySignature lib st r).1.1.Identity = (getArgument r "i" "").headD "" ∧
    (verifySignature lib st r).1.1.ActivateKey = (getArgument r "s" "").headD "" := by
  unfold verifySignature
  simp only [h]
  repeat (any_goals split)
  all_goals exact ⟨rfl, rfl⟩

/-- A hexadecimal digit and a character of the class of the expire time pass through a
query unchanged. -/
theorem queryPlain_of_class (c : Char) (h : isHexDigit c = true ∨ expireChar c = true) :
    queryPlain c = true := by
  rw [queryPlain_iff]
  refine ⟨?_, ?_, ?_, ?_, ?_⟩ <;>
  · intro he
    rw [he] at h
    revert h
    decide

/-- A request that passes the checks of the fields passes each of them. -/
theorem validateVerifyRequest_none (rq : verifyUserRequest)
    (h : validateVerifyRequest rq = none) :
    validateMpinID rq = none ∧ validateExpireTime rq = none ∧ validateActivation rq = none := by
  rw [validateVerifyRequest_eq] at h
  cases h1 : validateUserID rq <;> cases h2 : validateMpinID rq <;>
    cases h3 : validateExpireTime rq <;> cases h4 : validateActivation rq <;>
    simp_all [Option.orElse]

/-- The characters of the values that a validated request puts into the link. -/
theorem validated_plain (rq : verifyUserRequest) (h : validateVerifyRequest rq = none) :
    (∀ c ∈ rq.MpinID.data, queryPlain c = true) ∧
    (∀ c ∈ rq.ExpireTime.data, queryPlain c = true) ∧
    (rq.Mobile = 1 → ∀ c ∈ rq.ActivateKey.data, queryPlain c = true) := by
  obtain ⟨h1, h2, h3⟩ := validateVerifyRequest_none rq h
  refine ⟨?_, ?_, ?_⟩
  · intro c hc
    have hm : matchNonHex rq.MpinID = false := by
      unfold validateMpinID at h1
      split_ifs at h1 with hm
      simpa using hm
    have hall : ∀ c ∈ rq.MpinID.data, isHexDigit c = true := by simpa [matchNonHex] using hm
    exact queryPlain_of_class c (Or.inl (hall c hc))
  · intro c hc
    have hx := ((validateExpireTime_eq_none_iff rq).1 h2).2 c hc
    exact queryPlain_of_class c (Or.inr ((expireChar_iff c).2 hx))
  · intro hmob c hc
    have hx := ((validateActivation_mobile rq hmob).1 h3).2 c hc
    exact queryPlain_of_class c (Or.inl hx)

/-- The calls of `Mail` that `verifyUser` makes: none, or one that carries the link built
from the base URL and the request. -/
theorem verifyUser_mailed (net : Network) (a : app) (st : State) (r : Request)
    (rq : verifyUserRequest) (u : String) (hbase : baseURL a r = some u) :
    ((verifyUser net a st r rq).2.mailed = st.mailed ∨
      (verifyUser net a st r rq).2.mailed = st.mailed ++
        [⟨rq.UserID, if rq.Mobile = 0 then "PC" else "Mobile", validateURL u rq⟩]) ∧
    (a.Options.ForceActivate = false → a.Options.LDAPVerify = false → rq.ActivateKey ≠ "" →
      (verifyUser net a st r rq).2.mailed = st.mailed ++
        [⟨rq.UserID, if rq.Mobile = 0 then "PC" else "Mobile", validateURL u rq⟩]) := by
  unfold verifyUser
  rw [hbase]
  cases hforce : a.Options.ForceActivate with
  | true => simp
  | false =>
    simp only [Bool.false_eq_true, if_false]
    have hlog := (directoryCheck_logs net a st rq).1
    constructor
    · rcases hdc : directoryCheck net a st rq with ⟨out, st1⟩
      rw [hdc] at hlog
      simp only at hlog
      rcases out with ⟨_ | res⟩ | msg
      · simp only [sendEMpinActivationMail_state]
        by_cases hk : rq.ActivateKey ≠ ""
        · right
          rw [if_pos hk]
          split_ifs <;> simp [hlog, validateURL]
        · left
          rw [if_neg hk]
          split_ifs <;> simp [hlog]
      · left; exact hlog
      · left; exact hlog
    · intro _ hldap hk
      rw [directoryCheck_disabled net a st rq hldap]
      simp only [sendEMpinActivationMail_state, if_pos hk]
      split_ifs <;> simp [validateURL]

/-- The double `plainUnescape` returns a text without `%` and `+` as it is. -/
theorem plainUnescape_plain (s : String) (h : ∀ c ∈ s.data, c ≠ '%' ∧ c ≠ '+') :
    plainUnescape s = some s := by
  unfold plainUnescape
  have hany : (s.data.any fun c => decide (c = '%') || decide (c = '+')) = false := by
    rw [List.any_eq_false]
    intro c hc
    simp [(h c hc).1, (h c hc).2]
  rw [hany]
  rfl

/-- C38 (as the code has it). For a verify request that passed validation, every call of
`Mail` that `verifyUser` makes carries the link
`baseURL + "?i=" + mpinId + "&e=" + expireTime + "&s=" + activateKey`, and it makes that
call when activation is not forced, the directory is not consulted and the key is not
empty.  When the base URL holds no `?` and no `#`, and the request is for a mobile or its
activation key holds none of `&`, `;`, `#`, `%` and `+`, parsing the query of that link the
way `verifySignature` does gives no error and recovers exactly the identity `mpinId`, the
expiry `expireTime` and the activation key `activateKey`. -/
theorem verifyUser_link_round_trip (QueryUnescape : String → Option String) (net : Network)
    (a : app) (st : State) (r : Request) (rq : verifyUserRequest) (u : String)
    (hplain : ∀ s : String, (∀ c ∈ s.data, c ≠ '%' ∧ c ≠ '+') → QueryUnescape s = some s)
    (hv : validateVerifyRequest rq = none) (hbase : baseURL a r = some u)
    (hu : ∀ c ∈ u.data, c ≠ '?' ∧ c ≠ '#')
    (hkey : rq.Mobile = 1 ∨ ∀ c ∈ rq.ActivateKey.data, queryPlain c = true) :
    ((verifyUser net a st r rq).2.mailed = st.mailed ∨
      (verifyUser net a st r rq).2.mailed = st.mailed ++
        [⟨rq.UserID, if rq.Mobile = 0 then "PC" else "Mobile", validateURL u rq⟩]) ∧
    (a.Options.ForceActivate = false → a.Options.LDAPVerify = false → rq.ActivateKey ≠ "" →
      (verifyUser net a st r rq).2.mailed = st.mailed ++
        [⟨rq.UserID, if rq.Mobile = 0 then "PC" else "Mobile", validateURL u rq⟩]) ∧
    validateURL u rq =
      u ++ "?i=" ++ rq.MpinID ++ "&e=" ++ rq.ExpireTime ++ "&s=" ++ rq.ActivateKey ∧
    (linkRequest QueryUnescape (validateURL u rq)).ParseFormErr = none ∧
    getArgument (linkRequest QueryUnescape (validateURL u rq)) "i" "" = [rq.MpinID] ∧
    getArgument (linkRequest QueryUnescape (validateURL u rq)) "e" "" = [rq.ExpireTime] ∧
    getArgument (linkRequest QueryUnescape (validateURL u rq)) "s" "" = [rq.ActivateKey] ∧
    ∀ (lib : GoLib) (st2 : State),
      (verifySignature lib st2 (linkRequest QueryUnescape (validateURL u rq))).1.1.Identity =
        rq.MpinID ∧
      (verifySignature lib st2 (linkRequest QueryUnescape (validateURL u rq))).1.1.ActivateKey =
        rq.ActivateKey := by
  obtain ⟨hi, he, hs⟩ := validated_plain rq hv
  have hs2 : ∀ c ∈ rq.ActivateKey.data, queryPlain c = true := by
    rcases hkey with hmob | hk
    · exact hs hmob
    · exact hk
  have hq := parseQuery_link QueryUnescape hplain u rq.MpinID rq.ExpireTime rq.ActivateKey
    hu hi he hs2
  have herr : (linkRequest QueryUnescape (validateURL u rq)).ParseFormErr = none := by
    simp only [linkRequest, validateURL, hq]
  have hform : (linkRequest QueryUnescape (validateURL u rq)).Form =
      formValues [("i", rq.MpinID), ("e", rq.ExpireTime), ("s", rq.ActivateKey)] := by
    simp only [linkRequest, validateURL, hq]
  have gi : getArgument (linkRequest QueryUnescape (validateURL u rq)) "i" "" = [rq.MpinID] := by
    simp [getArgument, hform, formValues]
  have ge : getArgument (linkRequest QueryUnescape (validateURL u rq)) "e" "" =
      [rq.ExpireTime] := by
    simp [getArgument, hform, formValues]
  have gs : getArgument (linkRequest QueryUnescape (validateURL u rq)) "s" "" =
      [rq.ActivateKey] := by
    simp [getArgument, hform, formValues]
  refine ⟨(verifyUser_mailed net a st r rq u hbase).1, (verifyUser_mailed net a st r rq u hbase).2,
    rfl, herr, gi, ge, gs, ?_⟩
  intro lib st2
  have hsig := verifySignature_arguments lib st2 _ herr
  rw [gi, gs] at hsig
  exact hsig

theorem verifyUser_link_round_trip_witness :
    (verifyUser testNetwork testApp (startState unixEpoch) testMobileRequest
      testMobileRq).2.mailed =
      [⟨"?", "Mobile", validateURL "http://localhost:8005/mpinActivate" testMobileRq⟩] ∧
    getArgument (linkRequest plainUnescape
      (validateURL "http://localhost:8005/mpinActivate" testMobileRq)) "s" "" =
      ["abcdefABCDEF1234567890abcdefABCDEF1234567890abcdefABCDEF12345678"] :=
  ⟨(verifyUser_link_round_trip plainUnescape testNetwork testApp (startState unixEpoch)
      testMobileRequest testMobileRq "http://localhost:8005/mpinActivate" plainUnescape_plain
      (by decide) rfl (by decide) (Or.inl rfl)).2.1 rfl rfl (by decide),
   (verifyUser_link_round_trip plainUnescape testNetwork testApp (startState unixEpoch)
      testMobileRequest testMobileRq "http://localhost:8005/mpinActivate" plainUnescape_plain
      (by decide) rfl (by decide) (Or.inl rfl)).2.2.2.2.2.2.1⟩

/-- Two validated requests whose link does not give the parameters back.  A desktop
request with the activation key `a&s=b`: the link that `verifyUser` mails for it ends in
`&s=a&s=b`, and parsing its query the way `verifySignature` does gives the activation key
`a`.  The mobile request of the tests when the verify-identity URL already has a query,
`?lang=en`: the link has a second `?`, its query has no parameter `i`, and
`verifySignature` reads an empty identity. -/
theorem verifyUser_link_not_recovered_counterexample :
    (validateVerifyRequest testAmpersandRq = none ∧
      testAmpersandRq.ActivateKey = "a&s=b" ∧
      (verifyUser testNetwork testApp (startState unixEpoch) (NewRequest "POST" "/" none)
        testAmpersandRq).2.mailed =
        [⟨"root@localhost", "PC",
          "http://localhost:8005/mpinActivate?i=aaa&e=12345678901234567890&s=a&s=b"⟩] ∧
      (linkRequest plainUnescape
        "http://localhost:8005/mpinActivate?i=aaa&e=12345678901234567890&s=a&s=b").ParseFormErr
        = none ∧
      getArgument (linkRequest plainUnescape
        "http://localhost:8005/mpinActivate?i=aaa&e=12345678901234567890&s=a&s=b") "s" "" =
        ["a", "b"] ∧
      (verifySignature testLib (startState unixEpoch) (linkRequest plainUnescape
        "http://localhost:8005/mpinActivate?i=aaa&e=12345678901234567890&s=a&s=b")).1.1.ActivateKey
        = "a") ∧
    (validateVerifyRequest testMobileRq = none ∧
      testMobileRq.Mobile = 1 ∧
      testMobileRq.MpinID = "abcdefABCDEF1234567890" ∧
      baseURL queryBaseApp testMobileRequest =
        some "http://localhost:8005/mpinActivate?lang=en" ∧
      (verifyUser testNetwork queryBaseApp (startState unixEpoch) testMobileRequest
        testMobileRq).2.mailed =
        [⟨"?", "Mobile",
          validateURL "http://localhost:8005/mpinActivate?lang=en" testMobileRq⟩] ∧
      (linkRequest plainUnescape
        (validateURL "http://localhost:8005/mpinActivate?lang=en" testMobileRq)).ParseFormErr
        = none ∧
      getArgument (linkRequest plainUnescape
        (validateURL "http://localhost:8005/mpinActivate?lang=en" testMobileRq)) "i" "" =
        [""] ∧
      (verifySignature testLib (startState unixEpoch) (linkRequest plainUnescape
        (validateURL "http://localhost:8005/mpinActivate?lang=en"
          testMobileRq))).1.1.Identity = "") := by
  refine ⟨⟨by decide, rfl, by decide, by decide, by decide, by decide⟩,
    ⟨by decide, rfl, rfl, by decide, by decide, by decide, by decide, by decide⟩⟩

/-! ## Theorems: the expiry of a link -/

/-- The order of two non-empty lists of characters. -/
theorem lex_cons (a b : Char) (x y : List Char) :
    a :: x < b :: y ↔ a < b ∨ (a = b ∧ x < y) := by
  constructor
  · intro h
    cases h with
    | rel h => exact Or.inl h
    | cons h => exact Or.inr ⟨rfl, h⟩
  · rintro (h | ⟨rfl, h⟩)
    · exact List.Lex.rel h
    · exact List.Lex.cons h

/-- The characters of the decimal digits are ordered as the digits. -/
theorem digitChar_order :
    ∀ i, i < 10 → ∀ j, j < 10 →
      ((Nat.digitChar i < Nat.digitChar j ↔ i < j) ∧ (Nat.digitChar i = Nat.digitChar j ↔ i = j))
    := by
  decide

/-- The order of two lists that start with a digit. -/
theorem lex_digit (i j : Nat) (hi : i < 10) (hj : j < 10) (x y : List Char) :
    Nat.digitChar i :: x < Nat.digitChar j :: y ↔ i < j ∨ (i = j ∧ x < y) := by
  rw [lex_cons, (digitChar_order i hi j hj).1, (digitChar_order i hi j hj).2]

/-- The order of two lists that start with a number written in two digits. -/
theorem lex_pad2 (a b : Nat) (ha : a ≤ 99) (hb : b ≤ 99) (x y : List Char) :
    paddedDecimal 2 a ++ x < paddedDecimal 2 b ++ y ↔ a < b ∨ (a = b ∧ x < y) := by
  have h1 : ∀ n, paddedDecimal 2 n = [Nat.digitChar (n / 10 % 10), Nat.digitChar (n / 1 % 10)] :=
    fun _ => rfl
  rw [h1, h1]
  simp only [List.cons_append, List.nil_append]
  rw [lex_digit _ _ (Nat.mod_lt _ (by omega)) (Nat.mod_lt _ (by omega)),
    lex_digit _ _ (Nat.mod_lt _ (by omega)) (Nat.mod_lt _ (by omega))]
  by_cases hxy : x < y
  · simp only [hxy, and_true]; omega
  · simp only [hxy, and_false, or_false]; omega

/-- A number written in four digits: its hundreds in two digits, then the rest in two. -/
theorem paddedDecimal_four (n : Nat) :
    paddedDecimal 4 n = paddedDecimal 2 (n / 100) ++ paddedDecimal 2 (n % 100) := by
  have h4 : paddedDecimal 4 n = [Nat.digitChar (n / 1000 % 10),
      Nat.digitChar (n / 100 % 10), Nat.digitChar (n / 10 % 10), Nat.digitChar (n / 1 % 10)] :=
    rfl
  have h2 : ∀ k, paddedDecimal 2 k = [Nat.digitChar (k / 10 % 10), Nat.digitChar (k / 1 % 10)] :=
    fun _ => rfl
  have e1 : n / 100 / 10 % 10 = n / 1000 % 10 := by omega
  have e2 : n / 100 / 1 % 10 = n / 100 % 10 := by omega
  have e3 : n % 100 / 10 % 10 = n / 10 % 10 := by omega
  have e4 : n % 100 / 1 % 10 = n / 1 % 10 := by omega
  rw [h4, h2, h2, e1, e2, e3, e4]
  rfl

/-- The order of two lists that start with a number written in four digits. -/
theorem lex_pad4 (a b : Nat) (ha : a ≤ 9999) (hb : b ≤ 9999) (x y : List Char) :
    paddedDecimal 4 a ++ x < paddedDecimal 4 b ++ y ↔ a < b ∨ (a = b ∧ x < y) := by
  rw [paddedDecimal_four, paddedDecimal_four, List.append_assoc, List.append_assoc,
    lex_pad2 _ _ (by omega) (by omega), lex_pad2 _ _ (by omega) (by omega)]
  by_cases hxy : x < y
  · simp only [hxy, and_true]; omega
  · simp only [hxy, and_false, or_false]; omega

/-- The string comparison of two canonical forms is the order of the fields. -/
theorem canonical_less (a b : Civil) (ha : a.IsDate) (hb : b.IsDate) :
    stringLess a.canonical b.canonical = true ↔ a.fieldsBefore b := by
  obtain ⟨ha1, _, ha2, _, ha3, ha4, ha5, ha6⟩ := ha
  obtain ⟨hb1, _, hb2, _, hb3, hb4, hb5, hb6⟩ := hb
  have hda : a.day ≤ 99 := by
    have : daysIn a.year a.month ≤ 31 := by unfold daysIn leapDay; split_ifs <;> omega
    omega
  have hdb : b.day ≤ 99 := by
    have : daysIn b.year b.month ≤ 31 := by unfold daysIn leapDay; split_ifs <;> omega
    omega
  have hz : ¬ (['Z'] < ['Z']) := by decide
  unfold stringLess Civil.canonical Civil.fieldsBefore
  rw [decide_eq_true_eq]
  rw [lex_pad4 _ _ ha1 hb1, lex_cons, lex_pad2 _ _ (by omega) (by omega), lex_cons,
    lex_pad2 _ _ hda hdb, lex_cons, lex_pad2 _ _ (by omega) (by omega), lex_cons,
    lex_pad2 _ _ (by omega) (by omega), lex_cons, lex_pad2 _ _ (by omega) (by omega)]
  simp only [true_and, hz, and_false, or_false, lt_self_iff_false, false_or]

/-- The days before a month and the month itself are the days before the next month. -/
theorem daysBeforeMonth_succ (y m : Nat) (h : 1 ≤ m) :
    daysBeforeMonth y (m + 1) = daysBeforeMonth y m + daysIn y m := by
  obtain ⟨k, rfl⟩ : ∃ k, m = k + 1 := ⟨m - 1, by omega⟩
  unfold daysBeforeMonth
  simp [List.range_succ]

/-- The days before a month and the month itself come before every later month. -/
theorem daysBeforeMonth_le (y m : Nat) (h : 1 ≤ m) (d : Nat) :
    daysBeforeMonth y m + daysIn y m ≤ daysBeforeMonth y (m + 1 + d) := by
  induction d with
  | zero => rw [Nat.add_zero, daysBeforeMonth_succ y m h]
  | succ d ih =>
    have := daysBeforeMonth_succ y (m + 1 + d) (by omega)
    have e : m + 1 + (d + 1) = m + 1 + d + 1 := by omega
    rw [e, this]
    omega

/-- The days of a year. -/
theorem daysBeforeMonth_year (y : Nat) : daysBeforeMonth y 13 = 365 + leapDay y := by
  simp [daysBeforeMonth, List.range_succ, daysIn]
  omega

/-- The days before a year and the year itself are the days before the next year. -/
theorem daysBeforeYear_succ (y : Nat) :
    daysBeforeYear (y + 1) = daysBeforeYear y + 365 + leapDay y := by
  obtain ⟨a, ha, ha1⟩ : ∃ a, (y + 1 + 3) / 4 = (y + 3) / 4 + a ∧ (a = 1 ↔ y % 4 = 0) := by
    by_cases h : y % 4 = 0
    · exact ⟨1, by omega, by simp [h]⟩
    · exact ⟨0, by omega, by simp [h]⟩
  obtain ⟨b, hb, hb1⟩ : ∃ b, (y + 1 + 99) / 100 = (y + 99) / 100 + b ∧ (b = 1 ↔ y % 100 = 0) := by
    by_cases h : y % 100 = 0
    · exact ⟨1, by omega, by simp [h]⟩
    · exact ⟨0, by omega, by simp [h]⟩
  obtain ⟨c, hc, hc1⟩ : ∃ c, (y + 1 + 399) / 400 = (y + 399) / 400 + c ∧ (c = 1 ↔ y % 400 = 0)
      := by
    by_cases h : y % 400 = 0
    · exact ⟨1, by omega, by simp [h]⟩
    · exact ⟨0, by omega, by simp [h]⟩
  have ha2 : a ≤ 1 := by
    by_cases h : y % 4 = 0 <;> omega
  have hb2 : b ≤ 1 := by
    by_cases h : y % 100 = 0 <;> omega
  have hc2 : c ≤ 1 := by
    by_cases h : y % 400 = 0 <;> omega
  have h41 : y % 100 = 0 → y % 4 = 0 := by omega
  have h42 : y % 400 = 0 → y % 100 = 0 := by omega
  have hl : leapDay y + b = a + c := by
    unfold leapDay
    by_cases h4 : y % 4 = 0 <;> by_cases h100 : y % 100 = 0 <;> by_cases h400 : y % 400 = 0 <;>
      simp only [h4, h100, h400, ne_eq, not_true_eq_false, not_false_eq_true, or_false, or_true,
        and_true, and_false, true_and, false_and, if_true, if_false] <;>
      simp only [h4, h100, h400, iff_true, iff_false] at ha1 hb1 hc1 <;>
      omega
  have hle : (y + 99) / 100 ≤ (y + 3) / 4 := by omega
  unfold daysBeforeYear
  rw [ha, hb, hc]
  generalize (y + 3) / 4 = A at *
  generalize (y + 99) / 100 = B at *
  generalize (y + 399) / 400 = C at *
  generalize leapDay y = L at *
  omega

/-- The days before a year and the year itself come before every later year. -/
theorem daysBeforeYear_le (y d : Nat) :
    daysBeforeYear y + 365 + leapDay y ≤ daysBeforeYear (y + 1 + d) := by
  induction d with
  | zero => rw [Nat.add_zero, daysBeforeYear_succ]
  | succ d ih =>
    have := daysBeforeYear_succ (y + 1 + d)
    have e : y + 1 + (d + 1) = y + 1 + d + 1 := by omega
    rw [e, this]
    omega

/-- The order of the fields is total. -/
theorem fieldsBefore_total (a b : Civil) : a.fieldsBefore b ∨ a = b ∨ b.fieldsBefore a := by
  by_cases h : a = b
  · exact Or.inr (Or.inl h)
  · have hne : ¬ (a.year = b.year ∧ a.month = b.month ∧ a.day = b.day ∧ a.hour = b.hour ∧
        a.minute = b.minute ∧ a.second = b.second) := by
      rintro ⟨h1, h2, h3, h4, h5, h6⟩
      apply h
      cases a
      cases b
      simp only at h1 h2 h3 h4 h5 h6
      subst h1 h2 h3 h4 h5 h6
      rfl
    unfold Civil.fieldsBefore
    omega

/-- An earlier date has a smaller day number. -/
theorem dayNumber_lt (a b : Civil) (ha : a.IsDate) (hb : b.IsDate)
    (h : a.year < b.year ∨ (a.year = b.year ∧ (a.month < b.month ∨
      (a.month = b.month ∧ a.day < b.day)))) :
    a.dayNumber < b.dayNumber := by
  obtain ⟨_, ha2, ha3, ha4, ha5, _⟩ := ha
  obtain ⟨_, hb2, hb3, hb4, hb5, _⟩ := hb
  unfold Civil.dayNumber
  have hmonth : daysBeforeMonth a.year a.month + daysIn a.year a.month ≤ 365 + leapDay a.year := by
    have := daysBeforeMonth_le a.year a.month ha2 (12 - a.month)
    have e : a.month + 1 + (12 - a.month) = 13 := by omega
    rw [e, daysBeforeMonth_year] at this
    exact this
  rcases h with h | ⟨hy, h | ⟨hm, hd⟩⟩
  · have hyear := daysBeforeYear_le a.year (b.year - a.year - 1)
    have e : a.year + 1 + (b.year - a.year - 1) = b.year := by omega
    rw [e] at hyear
    omega
  · have hle := daysBeforeMonth_le a.year a.month ha2 (b.month - a.month - 1)
    have e : a.month + 1 + (b.month - a.month - 1) = b.month := by omega
    rw [e] at hle
    rw [← hy]
    omega
  · rw [← hy, ← hm]
    omega

/-- The order of the fields of two dates and times is the order of the instants that they
denote. -/
theorem fieldsBefore_iff_seconds (a b : Civil) (ha : a.IsDate) (hb : b.IsDate) :
    a.fieldsBefore b ↔ a.seconds < b.seconds := by
  have hmono : ∀ x y : Civil, x.IsDate → y.IsDate → x.fieldsBefore y → x.seconds < y.seconds := by
    intro x y hx hy hxy
    have hx2 := hx
    have hy2 := hy
    obtain ⟨_, _, _, _, _, hx6, hx7, hx8⟩ := hx2
    obtain ⟨_, _, _, _, _, hy6, hy7, hy8⟩ := hy2
    unfold Civil.fieldsBefore at hxy
    unfold Civil.seconds
    by_cases hday : x.year < y.year ∨ (x.year = y.year ∧ (x.month < y.month ∨
        (x.month = y.month ∧ x.day < y.day)))
    · have := dayNumber_lt x y hx hy hday
      omega
    · have hsame : x.dayNumber = y.dayNumber := by
        have h1 : x.year = y.year := by omega
        have h2 : x.month = y.month := by omega
        have h3 : x.day = y.day := by omega
        unfold Civil.dayNumber
        rw [h1, h2, h3]
      rw [hsame]
      omega
  constructor
  · exact hmono a b ha hb
  · intro hlt
    rcases fieldsBefore_total a b with h | h | h
    · exact h
    · rw [h] at hlt
      exact absurd hlt (lt_irrefl _)
    · have := hmono b a hb ha h
      omega

/-- With a decodable payload the error of `verifySignature` is "Link expired" exactly when
the string comparison of the expiry parameter with the formatted present holds, and there
is no error otherwise. -/
theorem verifySignature_expired_iff (lib : GoLib) (st : State) (r : Request)
    (h : payloadDecodes lib r) :
    ((verifySignature lib st r).1.2 = some "Link expired" ↔
      stringLess ((getArgument r "e" "").headD "") (lib.timeFormat st.now RFC3339) = true) ∧
    (stringLess ((getArgument r "e" "").headD "") (lib.timeFormat st.now RFC3339) = false →
      (verifySignature lib st r).1.2 = none ∧ (verifySignature lib st r).1.1.IsValid = true) := by
  obtain ⟨hform, b, doc, data, t, hhex, hjson, hdata, huser, htime⟩ := h
  have hd := verifySignature_decoded lib st r b doc data t hform hhex hjson hdata huser htime
  cases hcmp : stringLess ((getArgument r "e" "").headD "") (lib.timeFormat st.now RFC3339) with
  | true =>
    rw [hcmp] at hd
    simp only [if_true] at hd
    rw [hd]
    simp
  | false =>
    rw [hcmp] at hd
    simp only [Bool.false_eq_true, if_false] at hd
    rw [hd]
    simp

/-- C40. For an expiry parameter in the canonical form `YYYY-MM-DDTHH:MM:SSZ` of a date of
the years 0000 to 9999, the string comparison that `verifySignature` makes with the present
formatted as RFC3339 agrees with the order of time: a link with a decodable payload is
reported "Link expired" exactly when the instant that the expiry parameter denotes is
strictly earlier than the present truncated to whole seconds, and is accepted otherwise;
so a link that is expired at some instant is expired at every later instant. -/
theorem verifySignature_expiry_order (lib : GoLib) (st : State) (r : Request)
    (expiry present : Civil) (hpay : payloadDecodes lib r)
    (hparam : (getArgument r "e" "").headD "" = expiry.canonical) (hdate : expiry.IsDate)
    (hclock : clockReads lib st.now present) :
    (stringLess expiry.canonical present.canonical = true ↔
      expiry.seconds < present.seconds) ∧
    ((verifySignature lib st r).1.2 = some "Link expired" ↔
      expiry.seconds < st.now / 1000000000) ∧
    (¬ expiry.seconds < st.now / 1000000000 → (verifySignature lib st r).1.2 = none) ∧
    ∀ (later : State) (present2 : Civil), clockReads lib later.now present2 →
      st.now ≤ later.now → (verifySignature lib st r).1.2 = some "Link expired" →
      (verifySignature lib later r).1.2 = some "Link expired" := by
  have horder : ∀ p : Civil, p.IsDate →
      (stringLess expiry.canonical p.canonical = true ↔ expiry.seconds < p.seconds) := by
    intro p hp
    rw [canonical_less expiry p hdate hp, fieldsBefore_iff_seconds expiry p hdate hp]
  have hat : ∀ (s : State) (p : Civil), clockReads lib s.now p →
      ((verifySignature lib s r).1.2 = some "Link expired" ↔
        expiry.seconds < s.now / 1000000000) := by
    intro s p hp
    obtain ⟨hp1, hp2, hp3⟩ := hp
    rw [(verifySignature_expired_iff lib s r hpay).1, hparam, hp2, horder p hp1, hp3]
  refine ⟨horder present hclock.1, hat st present hclock, ?_, ?_⟩
  · intro hnot
    obtain ⟨hp1, hp2, hp3⟩ := hclock
    have hfalse : stringLess ((getArgument r "e" "").headD "")
        (lib.timeFormat st.now RFC3339) = false := by
      rw [hparam, hp2]
      cases hc : stringLess expiry.canonical present.canonical with
      | false => rfl
      | true =>
        have := (horder present hp1).1 hc
        rw [hp3] at this
        exact absurd this hnot
    exact ((verifySignature_expired_iff lib st r hpay).2 hfalse).1
  · intro later present2 hclock2 hle hexp
    have h1 := (hat st present hclock).1 hexp
    apply (hat later present2 hclock2).2
    have : st.now / 1000000000 ≤ later.now / 1000000000 :=
      Int.ediv_le_ediv (by decide) hle
    omega

theorem verifySignature_expiry_order_witness :
    (verifySignature testLib (startState year2016)
      (testLinkRequest testIdentity "2000-01-01T00:00:00Z" "dsfdsfasfdsf" none)).1.2 =
      some "Link expired" ∧
    (⟨2000, 1, 1, 0, 0, 0⟩ : Civil).seconds = 63082281600 ∧
    (⟨2016, 1, 1, 0, 0, 0⟩ : Civil).seconds = 63587203200 :=
  ⟨(verifySignature_expiry_order testLib (startState year2016)
      (testLinkRequest testIdentity "2000-01-01T00:00:00Z" "dsfdsfasfdsf" none)
      ⟨2000, 1, 1, 0, 0, 0⟩ ⟨2016, 1, 1, 0, 0, 0⟩
      ⟨rfl, bytesOf testPayload,
        .obj [("userID", .str "foo"), ("issued", .str "2000-01-01 00:00:00"),
          ("mobile", .num "0")],
        { UserID := "foo", Issued := "2000-01-01 00:00:00", Mobile := 0 }, year2000,
        by decide, rfl, by decide, by decide, by decide⟩
      (by decide) (by decide) ⟨by decide, by decide, by decide⟩).2.1.2 (by decide),
   by decide, by decide⟩

end RPA
